import Mathlib

/-!
# Banking service: the account manager over its DynamoDB table

A shallow embedding of `lambda/internal/account_manager.go`.  The account
manager is a thin layer over one DynamoDB table (`accounts-table`, hash key
`AccountId`, range key `AccountType`, both strings).  Each operation builds a
request, issues exactly one client call and maps the reply.

The embedding has three layers:

* `strconv`: Go's `strconv.Itoa` / `strconv.Atoi` on decimal strings, with the
  64-bit range of Go's `int`;
* the DynamoDB client: a table of items and the calls the program makes on it
  (`PutItem`, `DeleteItem`, `TransactWriteItems`, `GetItem`, `Query`, `Scan`),
  for the condition and update expressions the program sends.  Every call takes the reply of the
  environment as an argument: `none` lets the store serve the call, `some e`
  makes it fail with `e` and leave the table alone.  The store accepts a
  primary key only within DynamoDB's bounds (`validKey`): a request naming
  another key gets a `ValidationException`, and no item is stored under one;
* the account manager itself, transcribed from the Go source.
-/

namespace Banking

/-! ## Go integers and `strconv` -/

/-- Smallest value of Go's `int` on a 64-bit platform. -/
def minInt : Int := -9223372036854775808

/-- Largest value of Go's `int` on a 64-bit platform. -/
def maxInt : Int := 9223372036854775807

/-- Largest value of Go's `uint64`. -/
def maxUint64 : Nat := 18446744073709551615

/-- The integers that a Go `int` can hold. -/
def isGoInt (n : Int) : Prop := minInt ≤ n ∧ n ≤ maxInt

instance (n : Int) : Decidable (isGoInt n) := by
  unfold isGoInt; infer_instance

/-- The ASCII digit for `d < 10`, that is `byte('0' + d)`. -/
def digitChar (d : Nat) : Char := Char.ofNat (48 + d)

/-- Decimal digits of `n`, most significant first (`strconv.formatBits` in base
ten: peel off `n % 10` while `n >= 10`).  The first argument bounds the number
of digits; `formatNat` supplies enough. -/
def natDigits : Nat → Nat → List Char
  | 0, _ => []
  | fuel + 1, n =>
    if n < 10 then [digitChar n]
    else natDigits fuel (n / 10) ++ [digitChar (n % 10)]

/-- Decimal representation of a natural number. -/
def formatNat (n : Nat) : List Char := natDigits (n + 1) n

/-- Decimal representation of an integer: `strconv.FormatInt(i, 10)`. -/
def formatInt (i : Int) : String :=
  if i < 0 then String.mk ('-' :: formatNat i.natAbs) else String.mk (formatNat i.toNat)

/-- Go's `strconv.Itoa`. -/
def Itoa (i : Int) : String := formatInt i

/-- The two failure kinds of `strconv`: `ErrSyntax` and `ErrRange`. -/
inductive NumErrorKind where
  | ErrSyntax
  | ErrRange
  deriving DecidableEq, Repr

deriving instance DecidableEq for Except

/-- Value of an ASCII digit, `none` for any other character. -/
def digitVal (c : Char) : Option Nat :=
  if 48 ≤ c.toNat ∧ c.toNat ≤ 57 then some (c.toNat - 48) else none

/-- The digit loop of `strconv.ParseUint(s, 10, 64)`: a non-digit is a syntax
error, a value above `limit` is a range error, whichever comes first. -/
def parseDigits (limit : Option Nat) : Nat → List Char → Except NumErrorKind Nat
  | acc, [] => .ok acc
  | acc, c :: cs =>
    match digitVal c with
    | none => .error .ErrSyntax
    | some d =>
      let acc1 := acc * 10 + d
      match limit with
      | some m => if m < acc1 then .error .ErrRange else parseDigits limit acc1 cs
      | none => parseDigits limit acc1 cs

/-- Split an optional leading sign off a numeral: `(negative, rest)`. -/
def splitSign : List Char → Bool × List Char
  | '-' :: cs => (true, cs)
  | '+' :: cs => (false, cs)
  | cs => (false, cs)

/-- Go's `strconv.ParseInt(s, 10, 64)`, which `strconv.Atoi` agrees with on
every input (its fast path for short strings computes the same result). -/
def parseInt64 (s : String) : Except NumErrorKind Int :=
  if s.data = [] then .error .ErrSyntax
  else
    let (neg, ds) := splitSign s.data
    if ds = [] then .error .ErrSyntax
    else
      match parseDigits (some maxUint64) 0 ds with
      | .error k => .error k
      | .ok un =>
        if !neg && 9223372036854775808 ≤ un then .error .ErrRange
        else if neg && 9223372036854775808 < un then .error .ErrRange
        else .ok (if neg then -(un : Int) else (un : Int))

/-- Go's `strconv.Atoi`. -/
def Atoi (s : String) : Except NumErrorKind Int := parseInt64 s

/-- How DynamoDB reads the text of a number attribute.  The program only ever
sends decimal integers, so the model reads an optional sign and digits, with no
bound on the magnitude (DynamoDB numbers carry 38 significant digits, far more
than any sum of two Go integers). -/
def parseNumber (s : String) : Option Int :=
  let (neg, ds) := splitSign s.data
  if ds = [] then none
  else
    match parseDigits none 0 ds with
    | .error _ => none
    | .ok un => some (if neg then -(un : Int) else (un : Int))

/-! ## The program's constants and key type -/

/-- Go constant `tableName`. -/
def tableName : String := "accounts-table"

/-- Go constant `accountIDAttr`. -/
def accountIDAttr : String := "AccountId"

/-- Go constant `accountTypeAttr`. -/
def accountTypeAttr : String := "AccountType"

/-- Go constant `balanceAttr`. -/
def balanceAttr : String := "Balance"

/-- Go type `AccountKey`: the identity of an account, which is also the primary
key of the table (hash key `AccountId`, range key `AccountType`). -/
structure AccountKey where
  AccountID : String
  AccountType : String
  deriving DecidableEq, Repr

/-- Longest hash key value DynamoDB accepts, in bytes. -/
def maxHashKeyBytes : Nat := 2048

/-- Longest range key value DynamoDB accepts, in bytes. -/
def maxRangeKeyBytes : Nat := 1024

/-- What DynamoDB demands of a primary key of the table: neither key attribute
is the empty string, the hash key `AccountId` has at most 2048 bytes and the
range key `AccountType` at most 1024 bytes, counted in UTF-8.  A request naming
any other key is answered with a `ValidationException`, and no item of a table
has any other key. -/
def validKey (k : AccountKey) : Prop :=
  1 ≤ k.AccountID.utf8ByteSize ∧ k.AccountID.utf8ByteSize ≤ maxHashKeyBytes ∧
    1 ≤ k.AccountType.utf8ByteSize ∧ k.AccountType.utf8ByteSize ≤ maxRangeKeyBytes

instance (k : AccountKey) : Decidable (validKey k) := by
  unfold validKey; infer_instance

/-! ## The DynamoDB client -/

/-- The SDK type `types.AttributeValue`, as the program sees it: numbers travel
as text. -/
inductive AttributeValue where
  | S (Value : String)
  | N (Value : String)
  | BOOL (Value : Bool)
  | NULL
  deriving DecidableEq, Repr

/-- Go type `map[string]types.AttributeValue`; a lookup takes the first entry
with the name. -/
abbrev Item := List (String × AttributeValue)

/-- An attribute value as the table holds it.  Numbers are numbers; the model
keeps to integers, which is all the program writes. -/
inductive StoredValue where
  | S (s : String)
  | N (n : Int)
  | BOOL (b : Bool)
  | NULL
  deriving DecidableEq, Repr

/-- An item of the table.  The key schema makes both key attributes mandatory
strings, so an item is its key together with its other attributes; the store
holds no item under a key it would not accept in a request. -/
structure StoredItem where
  key : AccountKey
  attrs : List (String × StoredValue)
  valid : validKey key
  deriving DecidableEq, Repr

/-- The table: its items, in the order the store keeps them. -/
abbrev Table := List StoredItem

/-- The value of attribute `name` in a stored item. -/
def StoredItem.get (it : StoredItem) (name : String) : Option StoredValue :=
  if name = accountIDAttr then some (.S it.key.AccountID)
  else if name = accountTypeAttr then some (.S it.key.AccountType)
  else it.attrs.lookup name

/-- Overwrite (or add) an entry of an attribute list. -/
def setAttr : List (String × StoredValue) → String → StoredValue → List (String × StoredValue)
  | [], name, v => [(name, v)]
  | (n, w) :: rest, name, v =>
    if n = name then (name, v) :: rest else (n, w) :: setAttr rest name v

/-- A stored value as the SDK returns it: a number is rendered in decimal. -/
def StoredValue.toAttributeValue : StoredValue → AttributeValue
  | .S s => .S s
  | .N n => .N (formatInt n)
  | .BOOL b => .BOOL b
  | .NULL => .NULL

/-- A request value as the table reads it; `none` when a number attribute does
not hold a number. -/
def AttributeValue.toStored : AttributeValue → Option StoredValue
  | .S s => some (.S s)
  | .N s => (parseNumber s).map .N
  | .BOOL b => some (.BOOL b)
  | .NULL => some .NULL

/-- The primary key named by a request's key map: both key attributes, as
strings within DynamoDB's bounds, and nothing else decides it.  `none` is the
store's `ValidationException`: a key attribute is missing, is not a string, is
the empty string or is too long. -/
def keyOfItem (key : Item) : Option AccountKey :=
  match key.lookup accountIDAttr, key.lookup accountTypeAttr with
  | some (.S id), some (.S ty) =>
    if validKey { AccountID := id, AccountType := ty } then
      some { AccountID := id, AccountType := ty }
    else none
  | _, _ => none

/-- The item stored under a key, if any. -/
def lookupItem : Table → AccountKey → Option StoredItem
  | [], _ => none
  | it :: rest, k => if it.key = k then some it else lookupItem rest k

/-- Write an item: it takes the place of the item with its key, or joins the
table when there is none. -/
def putItem (t : Table) (new : StoredItem) : Table :=
  if (lookupItem t new.key).isSome then
    t.map (fun it => if it.key = new.key then new else it)
  else t ++ [new]

/-- Remove the item stored under a key. -/
def removeItem (t : Table) (k : AccountKey) : Table :=
  t.filter (fun it => !decide (it.key = k))

/-- An operand of an expression: an attribute of the item, or a placeholder
such as `:a` bound in `ExpressionAttributeValues`. -/
inductive Operand where
  | path (name : String)
  | value (ref : String)
  deriving DecidableEq, Repr

/-- The condition expressions the program sends, as syntax trees. -/
inductive Condition where
  | attribute_exists (path : String)
  | attribute_not_exists (path : String)
  | eq (l r : Operand)
  | ge (l r : Operand)
  | and (a b : Condition)
  | or (a b : Condition)
  deriving DecidableEq, Repr

/-- The update expressions the program sends: `SET path = l + r` and
`SET path = l - r`. -/
inductive UpdateExpression where
  | setPlus (path : String) (l r : Operand)
  | setMinus (path : String) (l r : Operand)
  deriving DecidableEq, Repr

/-- The value of an operand against the current item (`none`: no item under the
key) and the request's placeholder bindings. -/
def operandValue (item : Option StoredItem) (values : Item) : Operand → Option StoredValue
  | .path name => item.bind (fun it => it.get name)
  | .value ref => (values.lookup ref).bind AttributeValue.toStored

/-- DynamoDB's `>=`: defined between two numbers or two strings, false
otherwise. -/
def StoredValue.ge : StoredValue → StoredValue → Bool
  | .N a, .N b => decide (b ≤ a)
  | .S a, .S b => !decide (a < b)
  | _, _ => false

/-- Truth of a condition against the current item.  A comparison with a missing
operand is false. -/
def evalCondition (item : Option StoredItem) (values : Item) : Condition → Bool
  | .attribute_exists p => (item.bind (fun it => it.get p)).isSome
  | .attribute_not_exists p => (item.bind (fun it => it.get p)).isNone
  | .eq l r =>
    match operandValue item values l, operandValue item values r with
    | some a, some b => decide (a = b)
    | _, _ => false
  | .ge l r =>
    match operandValue item values l, operandValue item values r with
    | some a, some b => a.ge b
    | _, _ => false
  | .and a b => evalCondition item values a && evalCondition item values b
  | .or a b => evalCondition item values a || evalCondition item values b

/-- An optional condition holds when it is absent. -/
def evalOptCondition (item : Option StoredItem) (values : Item) : Option Condition → Bool
  | none => true
  | some c => evalCondition item values c

/-- Arithmetic of an update: both operands must be numbers. -/
def arith (f : Int → Int → Int) : Option StoredValue → Option StoredValue → Option StoredValue
  | some (.N a), some (.N b) => some (.N (f a b))
  | _, _ => none

/-- Apply an update expression to an item; `none` is DynamoDB's validation
error (an operand that is missing or not a number, or a key attribute as
target). -/
def applyUpdate (it : StoredItem) (values : Item) : UpdateExpression → Option StoredItem
  | .setPlus p l r =>
    if p = accountIDAttr ∨ p = accountTypeAttr then none
    else (arith (fun a b => a + b) (operandValue (some it) values l) (operandValue (some it) values r)).map
      (fun v => { it with attrs := setAttr it.attrs p v })
  | .setMinus p l r =>
    if p = accountIDAttr ∨ p = accountTypeAttr then none
    else (arith (fun a b => a - b) (operandValue (some it) values l) (operandValue (some it) values r)).map
      (fun v => { it with attrs := setAttr it.attrs p v })

/-- One entry of `TransactionCanceledException.CancellationReasons`. -/
structure CancellationReason where
  Code : Option String
  deriving DecidableEq, Repr

/-- The errors the client returns.  `Other` stands for every failure the
program does not classify (throttling, connectivity, and so on). -/
inductive StoreError where
  | ConditionalCheckFailedException
  | TransactionCanceledException (CancellationReasons : List CancellationReason)
  | ValidationException (Message : String)
  | ResourceNotFoundException
  | Other (Message : String)
  deriving DecidableEq, Repr

/-- Cancellation reason code of a transaction item that did not fail. -/
def codeNone : String := "None"

/-- Cancellation reason code DynamoDB gives a transaction item whose condition
was not met. -/
def codeConditionalCheckFailed : String := "ConditionalCheckFailed"

/-- Cancellation reason code DynamoDB gives a transaction item whose update
could not be evaluated. -/
def codeValidationError : String := "ValidationError"

/-- The SDK method `(*types.ConditionalCheckFailedException).ErrorCode()` on a
value without override: the name of the exception. -/
def ConditionalCheckFailedException.ErrorCode : String := "ConditionalCheckFailedException"

/-- Input of the client call `PutItem`. -/
structure PutItemInput where
  Item : Item
  TableName : String
  ConditionExpression : Option Condition

/-- Input of the client call `DeleteItem`. -/
structure DeleteItemInput where
  Key : Item
  TableName : String
  ConditionExpression : Option Condition
  ExpressionAttributeValues : Item

/-- The SDK type `types.Update`. -/
structure Update where
  Key : Item
  TableName : String
  UpdateExpression : UpdateExpression
  ConditionExpression : Option Condition
  ExpressionAttributeValues : Item

/-- The SDK type `types.TransactWriteItem`; the program only fills `Update`. -/
structure TransactWriteItem where
  Update : Update

/-- Input of the client call `TransactWriteItems`. -/
structure TransactWriteItemsInput where
  TransactItems : List TransactWriteItem

/-- Input of the client call `GetItem`. -/
structure GetItemInput where
  Key : Item
  TableName : String
  ConsistentRead : Option Bool
  ProjectionExpression : Option (List String)

/-- Output of the client call `GetItem`; an empty `Item` when nothing is stored
under the key. -/
structure GetItemOutput where
  Item : Item
  deriving DecidableEq, Repr

/-- The non-key attributes of a request item, as the table stores them. -/
def storedAttrs : Item → Option (List (String × StoredValue))
  | [] => some []
  | (n, v) :: rest =>
    if n = accountIDAttr ∨ n = accountTypeAttr then storedAttrs rest
    else
      match v.toStored, storedAttrs rest with
      | some w, some ws => some ((n, w) :: ws)
      | _, _ => none

/-- A request item as the table stores it; `none` when its key is not one the
store accepts or it holds a malformed number. -/
def storedOfItem (item : Item) : Option StoredItem :=
  match keyOfItem item, storedAttrs item with
  | some k, some attrs =>
    if h : validKey k then some { key := k, attrs := attrs, valid := h } else none
  | _, _ => none

/-- The client call `PutItem`.  `fault` is the environment: `some e` makes the
call fail with `e` before it touches the table. -/
def PutItem (t : Table) (fault : Option StoreError) (input : PutItemInput) :
    Table × Except StoreError Unit :=
  match fault with
  | some e => (t, .error e)
  | none =>
    if input.TableName ≠ tableName then (t, .error .ResourceNotFoundException)
    else
      match storedOfItem input.Item with
      | none => (t, .error (.ValidationException "invalid item"))
      | some new =>
        if evalOptCondition (lookupItem t new.key) [] input.ConditionExpression then
          (putItem t new, .ok ())
        else (t, .error .ConditionalCheckFailedException)

/-- The client call `DeleteItem`.  Deleting under a key that holds nothing
succeeds when the condition allows it. -/
def DeleteItem (t : Table) (fault : Option StoreError) (input : DeleteItemInput) :
    Table × Except StoreError Unit :=
  match fault with
  | some e => (t, .error e)
  | none =>
    if input.TableName ≠ tableName then (t, .error .ResourceNotFoundException)
    else
      match keyOfItem input.Key with
      | none => (t, .error (.ValidationException "invalid key"))
      | some k =>
        if evalOptCondition (lookupItem t k) input.ExpressionAttributeValues
            input.ConditionExpression then
          (removeItem t k, .ok ())
        else (t, .error .ConditionalCheckFailedException)

/-- The keys named by the items of a transaction, in order. -/
def transactKeys : List TransactWriteItem → Option (List AccountKey)
  | [] => some []
  | i :: rest =>
    match keyOfItem i.Update.Key, transactKeys rest with
    | some k, some ks => some (k :: ks)
    | _, _ => none

/-- The item an update starts from: the one stored under the key, or an item
with nothing but the key when none is stored. -/
def updateBase (t : Table) (k : AccountKey) : Option StoredItem :=
  match lookupItem t k with
  | some it => some it
  | none => if h : validKey k then some { key := k, attrs := [], valid := h } else none

/-- One transaction item checked against the table as it stands before the
transaction: the new item, or the cancellation code. -/
def evalUpdate (t : Table) (u : Update) (k : AccountKey) : Except String StoredItem :=
  if evalOptCondition (lookupItem t k) u.ExpressionAttributeValues u.ConditionExpression then
    match (updateBase t k).bind
        (fun it => applyUpdate it u.ExpressionAttributeValues u.UpdateExpression) with
    | some new => .ok new
    | none => .error codeValidationError
  else .error codeConditionalCheckFailed

/-- The cancellation reason of one checked transaction item. -/
def reasonOf : Except String StoredItem → CancellationReason
  | .ok _ => { Code := some codeNone }
  | .error c => { Code := some c }

/-- Whether a checked transaction item passed. -/
def passed : Except String StoredItem → Bool
  | .ok _ => true
  | .error _ => false

/-- Commit the new item of a passed transaction item. -/
def commit (t : Table) : Except String StoredItem → Table
  | .ok new => putItem t new
  | .error _ => t

/-- The client call `TransactWriteItems`.  A request naming one item twice is
rejected outright.  Otherwise every item is checked against the table as it
stands; all of them commit together, or none does and the reply lists one
cancellation reason per item, in request order. -/
def TransactWriteItems (t : Table) (fault : Option StoreError)
    (input : TransactWriteItemsInput) : Table × Except StoreError Unit :=
  match fault with
  | some e => (t, .error e)
  | none =>
    if input.TransactItems.any (fun i => decide (i.Update.TableName ≠ tableName)) then
      (t, .error .ResourceNotFoundException)
    else
      match transactKeys input.TransactItems with
      | none => (t, .error (.ValidationException "invalid key"))
      | some keys =>
        if ¬ keys.Nodup then
          (t, .error (.ValidationException
            "Transaction request cannot include multiple operations on one item"))
        else
          let results := List.zipWith (fun i k => evalUpdate t i.Update k) input.TransactItems keys
          if results.all passed then (results.foldl commit t, .ok ())
          else (t, .error (.TransactionCanceledException (results.map reasonOf)))

/-- The attributes of a stored item that a read returns. -/
def projectItem (it : StoredItem) : Option (List String) → Item
  | none =>
    (accountIDAttr, .S it.key.AccountID) :: (accountTypeAttr, .S it.key.AccountType) ::
      it.attrs.map (fun nv => (nv.1, nv.2.toAttributeValue))
  | some names => names.filterMap (fun n => (it.get n).map (fun v => (n, v.toAttributeValue)))

/-- The client call `GetItem`; it never changes the table. -/
def GetItem (t : Table) (fault : Option StoreError) (input : GetItemInput) :
    Table × Except StoreError GetItemOutput :=
  match fault with
  | some e => (t, .error e)
  | none =>
    if input.TableName ≠ tableName then (t, .error .ResourceNotFoundException)
    else
      match keyOfItem input.Key with
      | none => (t, .error (.ValidationException "invalid key"))
      | some k =>
        match lookupItem t k with
        | none => (t, .ok { Item := [] })
        | some it => (t, .ok { Item := projectItem it input.ProjectionExpression })

/-! ## The account manager -/

/-- Go `error` values the account manager returns: its four error structs, an
`errors.New` text, a `*strconv.NumError`, or the client's error handed on. -/
inductive Err where
  | AccountAlreadyExistsError (AccountID AccountType : String)
  | NonZeroBalanceError (AccountID AccountType : String)
  | InsufficientFundsError (AccountID AccountType : String)
  | AccountDoesNotExistError (AccountID AccountType : String)
  | New (text : String)
  | NumError (Func Num : String) (Err : NumErrorKind)
  | Store (e : StoreError)
  deriving DecidableEq, Repr

/-- How a call of the account manager ends: a value with a nil error, a
non-nil error, or a run-time failure (nil dereference, index out of range). -/
inductive Outcome (α : Type) where
  | ok (value : α)
  | error (err : Err)
  | panicked
  deriving DecidableEq, Repr

/-- Go type `CreateAccountInput`; `InitialBalance` is a pointer. -/
structure CreateAccountInput where
  AccountType : String
  InitialBalance : Option Int

/-- Go method `accountManagerImpl.CreateAccount`. -/
def CreateAccount (ddb : Table) (fault : Option StoreError) (accountID : String)
    (createAccountInput : CreateAccountInput) : Table × Outcome Unit :=
  match createAccountInput.InitialBalance with
  | none => (ddb, .panicked)
  | some initialBalance =>
    let item : Item :=
      [(accountIDAttr, .S accountID),
       (accountTypeAttr, .S createAccountInput.AccountType),
       (balanceAttr, .N (Itoa initialBalance))]
    let input : PutItemInput :=
      { Item := item
        TableName := tableName
        ConditionExpression := some (.attribute_not_exists accountIDAttr) }
    match PutItem ddb fault input with
    | (ddb1, .error err) =>
      match err with
      | .ConditionalCheckFailedException =>
        (ddb1, .error (.AccountAlreadyExistsError accountID createAccountInput.AccountType))
      | _ => (ddb1, .error (.Store err))
    | (ddb1, .ok _) => (ddb1, .ok ())

/-- Go type `DeleteAccountInput`. -/
structure DeleteAccountInput where
  AccountType : String

/-- Go method `accountManagerImpl.DeleteAccount`. -/
def DeleteAccount (ddb : Table) (fault : Option StoreError) (accountID : String)
    (deleteAccountInput : DeleteAccountInput) : Table × Outcome Unit :=
  let item : Item :=
    [(accountIDAttr, .S accountID),
     (accountTypeAttr, .S deleteAccountInput.AccountType)]
  let expressionAttributeValues : Item := [(":b", .N "0")]
  let input : DeleteItemInput :=
    { Key := item
      TableName := tableName
      ConditionExpression :=
        some (.or (.eq (.path balanceAttr) (.value ":b")) (.attribute_not_exists accountIDAttr))
      ExpressionAttributeValues := expressionAttributeValues }
  match DeleteItem ddb fault input with
  | (ddb1, .error err) =>
    match err with
    | .ConditionalCheckFailedException =>
      (ddb1, .error (.NonZeroBalanceError accountID deleteAccountInput.AccountType))
    | _ => (ddb1, .error (.Store err))
  | (ddb1, .ok _) => (ddb1, .ok ())

/-- Go type `TransferInput`; `Amount` is a pointer. -/
structure TransferInput where
  SrcAccountType : String
  DestAccountID : String
  DestAccountType : String
  Amount : Option Int

/-- The error mapping of `Transfer` for a cancelled transaction: reason 0 is
looked at first, then reason 1; both the index and the `Code` pointer are
dereferenced unguarded. -/
def transferCanceled (err : StoreError) (reasons : List CancellationReason)
    (transferInput : TransferInput) : Outcome Unit :=
  match reasons.get? 0 with
  | none => .panicked
  | some r0 =>
    match r0.Code with
    | none => .panicked
    | some c0 =>
      if c0 = ConditionalCheckFailedException.ErrorCode then
        .error (.InsufficientFundsError transferInput.DestAccountID transferInput.DestAccountType)
      else
        match reasons.get? 1 with
        | none => .panicked
        | some r1 =>
          match r1.Code with
          | none => .panicked
          | some c1 =>
            if c1 = ConditionalCheckFailedException.ErrorCode then
              .error (.AccountDoesNotExistError transferInput.DestAccountID
                transferInput.DestAccountType)
            else .error (.Store err)

/-- The placeholder bindings of `Transfer`: `:a` is the amount, written with
`strconv.Itoa`. -/
def exprAttrValues (amount : Int) : Item := [(":a", .N (Itoa amount))]

/-- The debit side of `Transfer`: `srcItemTransaction`. -/
def srcItemTransaction (srcAccountID : String) (transferInput : TransferInput)
    (amount : Int) : TransactWriteItem :=
  { Update :=
      { Key :=
          [(accountIDAttr, .S srcAccountID),
           (accountTypeAttr, .S transferInput.SrcAccountType)]
        TableName := tableName
        UpdateExpression := .setMinus balanceAttr (.path balanceAttr) (.value ":a")
        ConditionExpression :=
          some (.and (.attribute_exists accountIDAttr)
            (.ge (.path balanceAttr) (.value ":a")))
        ExpressionAttributeValues := exprAttrValues amount } }

/-- The credit side of `Transfer`: `destItemTransaction`. -/
def destItemTransaction (transferInput : TransferInput) (amount : Int) : TransactWriteItem :=
  { Update :=
      { Key :=
          [(accountIDAttr, .S transferInput.DestAccountID),
           (accountTypeAttr, .S transferInput.DestAccountType)]
        TableName := tableName
        UpdateExpression := .setPlus balanceAttr (.path balanceAttr) (.value ":a")
        ConditionExpression := some (.attribute_exists accountIDAttr)
        ExpressionAttributeValues := exprAttrValues amount } }

/-- Go method `accountManagerImpl.Transfer`. -/
def Transfer (ddb : Table) (fault : Option StoreError) (srcAccountID : String)
    (transferInput : TransferInput) : Table × Outcome Unit :=
  match transferInput.Amount with
  | none => (ddb, .panicked)
  | some amount =>
    let input : TransactWriteItemsInput :=
      { TransactItems :=
          [srcItemTransaction srcAccountID transferInput amount,
           destItemTransaction transferInput amount] }
    match TransactWriteItems ddb fault input with
    | (ddb1, .error err) =>
      match err with
      | .TransactionCanceledException reasons =>
        (ddb1, transferCanceled err reasons transferInput)
      | _ => (ddb1, .error (.Store err))
    | (ddb1, .ok _) => (ddb1, .ok ())

/-- Go type `GetBalanceInput`. -/
structure GetBalanceInput where
  AccountType : String

/-- Go type `GetBalanceOutput`. -/
structure GetBalanceOutput where
  Balance : Int
  deriving DecidableEq, Repr

/-- Go method `accountManagerImpl.GetBalance`. -/
def GetBalance (ddb : Table) (fault : Option StoreError) (accountID : String)
    (getBalanceInput : GetBalanceInput) : Table × Outcome GetBalanceOutput :=
  let item : Item :=
    [(accountIDAttr, .S accountID),
     (accountTypeAttr, .S getBalanceInput.AccountType)]
  let input : GetItemInput :=
    { Key := item
      TableName := tableName
      ConsistentRead := some true
      ProjectionExpression := some [balanceAttr] }
  match GetItem ddb fault input with
  | (ddb1, .error err) => (ddb1, .error (.Store err))
  | (ddb1, .ok output) =>
    if output.Item.length = 0 then
      (ddb1, .error (.AccountDoesNotExistError accountID getBalanceInput.AccountType))
    else
      match output.Item.lookup balanceAttr with
      | some (.N value) =>
        match Atoi value with
        | .error kind => (ddb1, .error (.NumError "Atoi" value kind))
        | .ok val => (ddb1, .ok { Balance := val })
      | _ => (ddb1, .error (.New "balance must be a number"))

/-! ## Observations on a table -/

/-- The account `k` exists with balance `b`: an item is stored under `k` and its
`Balance` attribute is the number `b`. -/
def hasBalance (t : Table) (k : AccountKey) (b : Int) : Prop :=
  ∃ it, lookupItem t k = some it ∧ it.get balanceAttr = some (.N b)

/-- Every balance in the table is defined and not negative. -/
def nonNegBalances (t : Table) : Prop :=
  ∀ it ∈ t, ∃ b : Int, it.get balanceAttr = some (.N b) ∧ 0 ≤ b

/-- An account item with nothing but a balance.  Its key must be one the store
accepts; for the keys written out in this file that is checked by evaluation. -/
def account (id ty : String) (b : Int)
    (valid : validKey { AccountID := id, AccountType := ty } := by decide) : StoredItem :=
  { key := { AccountID := id, AccountType := ty }, attrs := [(balanceAttr, .N b)],
    valid := valid }

/-- The two accounts of the transfer example: savings of owner 123 with 100,
checking of owner 456 with 10. -/
def exampleTable : Table :=
  [account "123" "savings" 100, account "456" "checking" 10]

/-- The same two accounts with the destination at the top of Go's `int`. -/
def brimTable : Table :=
  [account "123" "savings" 100, account "456" "checking" 9223372036854775807]

/-- The two accounts after the example transfer: 70 and 40. -/
def afterTable : Table :=
  [account "123" "savings" 70, account "456" "checking" 40]

/-- A table holding only the source account, with 70. -/
def loneTable : Table := [account "123" "savings" 70]

/-- A transfer request from the savings account of the caller to the checking
account of owner 456. -/
def toChecking (amount : Int) : TransferInput :=
  { SrcAccountType := "savings", DestAccountID := "456", DestAccountType := "checking",
    Amount := some amount }

/-- The read `GetBalance` sends: a consistent `GetItem` of the `Balance`
attribute under `(accountID, AccountType)`. -/
def getBalanceRequest (accountID accountType : String) : GetItemInput :=
  { Key := [(accountIDAttr, .S accountID), (accountTypeAttr, .S accountType)]
    TableName := tableName
    ConsistentRead := some true
    ProjectionExpression := some [balanceAttr] }

/-- A table whose only account holds one more than Go's `int` can. -/
def pastBrimTable : Table := [account "456" "checking" 9223372036854775808]

/-- The reply of a cancelled transaction whose first reason carries the code
`Transfer` compares with. -/
def debitFlagged : StoreError :=
  .TransactionCanceledException
    [{ Code := some ConditionalCheckFailedException.ErrorCode }, { Code := some codeNone }]

/-- Transfers applied one after another, each on the table the one before it
left: the final table and the outcomes in order. -/
def applyTransfers (t : Table) (srcAccountID : String) :
    List TransferInput → Table × List (Outcome Unit)
  | [] => (t, [])
  | inp :: rest =>
    let r := Transfer t none srcAccountID inp
    let rs := applyTransfers r.1 srcAccountID rest
    (rs.1, r.2 :: rs.2)

/-- The error a transfer ends in, with the store as modelled, when the debit
side alone is refused: the cancelled transaction, handed on. -/
def debitRefused : Outcome Unit :=
  .error (.Store (.TransactionCanceledException
    [{ Code := some codeConditionalCheckFailed }, { Code := some codeNone }]))


/-! ## Account identity and the listing calls -/

/-- Go function `NewAccountKeyFromItem`: both key attributes must be present
and strings; `AccountId` is looked at first. -/
def NewAccountKeyFromItem (item : Item) : Except Err AccountKey :=
  match item.lookup accountIDAttr with
  | some (.S accountID) =>
    match item.lookup accountTypeAttr with
    | some (.S accountType) => .ok { AccountID := accountID, AccountType := accountType }
    | _ => .error (.New "accountType must be a string")
  | _ => .error (.New "accountID must be a string")

/-- Go method `AccountKey.toAccountItem`. -/
def AccountKey.toAccountItem (key : AccountKey) : Item :=
  [(accountIDAttr, .S key.AccountID), (accountTypeAttr, .S key.AccountType)]

/-- The position of a key in the order the store reads items in: by
`AccountId`, and within one `AccountId` by `AccountType`, as DynamoDB orders a
partition by its range key; strings compare character by character.  (DynamoDB
orders partitions by a hash of the hash key; the model takes the string order
in its place.) -/
def keyRank (k : AccountKey) : List Char ×ₗ List Char :=
  toLex (k.AccountID.data, k.AccountType.data)

/-- The items of the table in the order the store reads them. -/
def storeOrder (t : Table) : List StoredItem :=
  t.insertionSort (fun a b => keyRank a.key ≤ keyRank b.key)

/-- The items a read resumes with: those after the start key, all of them when
there is none. -/
def afterStart (start : Option AccountKey) (items : List StoredItem) : List StoredItem :=
  match start with
  | none => items
  | some k => items.filter (fun it => decide (keyRank k < keyRank it.key))

/-- One page of a read.  Without a limit the page is everything.  With a limit
the read stops after that many items and names the last one as the key to
resume from; when it runs out of items first, it names none. -/
def takePage (limit : Option Int) (items : List StoredItem) :
    List StoredItem × Option AccountKey :=
  match limit with
  | none => (items, none)
  | some n =>
    if items.length < n.toNat then (items, none)
    else (items.take n.toNat, ((items.take n.toNat).getLast?).map (fun it => it.key))

/-- The key map the store returns as `LastEvaluatedKey`; empty for none. -/
def lastEvaluatedKey : Option AccountKey → Item
  | none => []
  | some k => [(accountIDAttr, .S k.AccountID), (accountTypeAttr, .S k.AccountType)]

/-- Input of the client call `Query`.  An empty `ExclusiveStartKey` is the nil
map of an unset field. -/
structure QueryInput where
  TableName : String
  ExpressionAttributeValues : Item
  KeyConditionExpression : Condition
  ProjectionExpression : Option (List String)
  ExclusiveStartKey : Item
  Limit : Option Int

/-- Output of the client calls `Query` and `Scan`. -/
structure PageOutput where
  Items : List Item
  LastEvaluatedKey : Item
  deriving DecidableEq, Repr

/-- Input of the client call `Scan`. -/
structure ScanInput where
  TableName : String
  ProjectionExpression : Option (List String)
  ExclusiveStartKey : Item
  Limit : Option Int

/-- The partition a key condition of the form `AccountId = :ref` names. -/
def partitionOf (values : Item) : Condition → Option String
  | .eq (.path p) (.value ref) =>
    if p = accountIDAttr then
      match values.lookup ref with
      | some (.S id) => some id
      | _ => none
    else none
  | _ => none

/-- The start key of a read: none when the field is unset, else the key the map
names; `none` outside when the map is no key. -/
def startKey (key : Item) : Option (Option AccountKey) :=
  if key.length = 0 then some none
  else (keyOfItem key).map some

/-- The client call `Query`: the items of one partition, in range-key order,
after the start key, one page of them.  A limit below 1, a malformed start key
and a start key of another partition are rejected.  It never changes the
table. -/
def Query (t : Table) (fault : Option StoreError) (input : QueryInput) :
    Table × Except StoreError PageOutput :=
  match fault with
  | some e => (t, .error e)
  | none =>
    if input.TableName ≠ tableName then (t, .error .ResourceNotFoundException)
    else
      match partitionOf input.ExpressionAttributeValues input.KeyConditionExpression,
          startKey input.ExclusiveStartKey with
      | some id, some start =>
        if (∃ n, input.Limit = some n ∧ n < 1) then
          (t, .error (.ValidationException "Limit must be at least 1"))
        else if (∃ k, start = some k ∧ k.AccountID ≠ id) then
          (t, .error (.ValidationException
            "The provided starting key is outside query boundaries based on provided conditions"))
        else
          let page := takePage input.Limit
            (afterStart start ((storeOrder t).filter (fun it => decide (it.key.AccountID = id))))
          (t, .ok { Items := page.1.map (fun it => projectItem it input.ProjectionExpression)
                    LastEvaluatedKey := lastEvaluatedKey page.2 })
      | _, _ => (t, .error (.ValidationException "invalid request"))

/-- The client call `Scan`: all items, in store order, after the start key, one
page of them.  It never changes the table. -/
def Scan (t : Table) (fault : Option StoreError) (input : ScanInput) :
    Table × Except StoreError PageOutput :=
  match fault with
  | some e => (t, .error e)
  | none =>
    if input.TableName ≠ tableName then (t, .error .ResourceNotFoundException)
    else
      match startKey input.ExclusiveStartKey with
      | some start =>
        if (∃ n, input.Limit = some n ∧ n < 1) then
          (t, .error (.ValidationException "Limit must be at least 1"))
        else
          let page := takePage input.Limit (afterStart start (storeOrder t))
          (t, .ok { Items := page.1.map (fun it => projectItem it input.ProjectionExpression)
                    LastEvaluatedKey := lastEvaluatedKey page.2 })
      | none => (t, .error (.ValidationException "invalid request"))

/-- Go type `ListAccountsInput`; both fields are pointers. -/
structure ListAccountsInput where
  ExclusiveStartKey : Option AccountKey
  Limit : Option Int

/-- Go type `ListAccountsOutput`. -/
structure ListAccountsOutput where
  Accounts : List AccountKey
  LastEvaluatedKey : AccountKey
  deriving DecidableEq, Repr

/-- The loop over `output.Items` of both listing methods: decode each item in
order, stop at the first that fails. -/
def decodeItems : List Item → Except Err (List AccountKey)
  | [] => .ok []
  | item :: rest =>
    match NewAccountKeyFromItem item with
    | .error err => .error err
    | .ok accountKey =>
      match decodeItems rest with
      | .error err => .error err
      | .ok accounts => .ok (accountKey :: accounts)

/-- What both listing methods do with a page of the store, after the call
returned without error. -/
def decodePage (output : PageOutput) : Outcome ListAccountsOutput :=
  match decodeItems output.Items with
  | .error err => .error err
  | .ok accounts =>
    if output.LastEvaluatedKey.length ≠ 0 then
      match NewAccountKeyFromItem output.LastEvaluatedKey with
      | .error err => .error err
      | .ok lastEvaluatedKey =>
        .ok { Accounts := accounts, LastEvaluatedKey := lastEvaluatedKey }
    else .ok { Accounts := accounts, LastEvaluatedKey := { AccountID := "", AccountType := "" } }

/-- The `ExclusiveStartKey` both listing methods send: the encoded key when the
pointer is set, the nil map otherwise. -/
def exclusiveStartKey : Option AccountKey → Item
  | some key => key.toAccountItem
  | none => []

/-- Go method `accountManagerImpl.ListAccounts`. -/
def ListAccounts (ddb : Table) (fault : Option StoreError) (accountID : String)
    (listAccountsInput : ListAccountsInput) : Table × Outcome ListAccountsOutput :=
  let exprAttrValues : Item := [(":id", .S accountID)]
  let input : QueryInput :=
    { TableName := tableName
      ExpressionAttributeValues := exprAttrValues
      KeyConditionExpression := .eq (.path accountIDAttr) (.value ":id")
      ProjectionExpression := some [accountIDAttr, accountTypeAttr]
      ExclusiveStartKey := exclusiveStartKey listAccountsInput.ExclusiveStartKey
      Limit := listAccountsInput.Limit }
  match Query ddb fault input with
  | (ddb1, .error err) => (ddb1, .error (.Store err))
  | (ddb1, .ok output) => (ddb1, decodePage output)

/-- Go method `accountManagerImpl.ListAccountsAdmin`. -/
def ListAccountsAdmin (ddb : Table) (fault : Option StoreError)
    (listAccountsInput : ListAccountsInput) : Table × Outcome ListAccountsOutput :=
  let input : ScanInput :=
    { TableName := tableName
      ProjectionExpression := some [accountIDAttr, accountTypeAttr]
      ExclusiveStartKey := exclusiveStartKey listAccountsInput.ExclusiveStartKey
      Limit := listAccountsInput.Limit }
  match Scan ddb fault input with
  | (ddb1, .error err) => (ddb1, .error (.Store err))
  | (ddb1, .ok output) => (ddb1, decodePage output)

/-- What DynamoDB guarantees of every table: one item per primary key, and no
key attribute that is the empty string. -/
def storeInvariant (t : Table) : Prop :=
  (t.map (fun it => it.key)).Nodup ∧
    ∀ it ∈ t, it.key.AccountID ≠ "" ∧ it.key.AccountType ≠ ""

/-- A caller paging through a listing: start with the given cursor, call again
with the returned `LastEvaluatedKey` until it comes back empty, and collect the
accounts.  `none` when a call fails or the calls allowed are used up. -/
def pageThrough (list : Table → ListAccountsInput → Table × Outcome ListAccountsOutput)
    (limit : Option Int) : Nat → Table → Option AccountKey → Option (List AccountKey)
  | 0, _, _ => none
  | calls + 1, t, cursor =>
    match list t { ExclusiveStartKey := cursor, Limit := limit } with
    | (t1, .ok out) =>
      if out.LastEvaluatedKey = { AccountID := "", AccountType := "" } then some out.Accounts
      else (pageThrough list limit calls t1 (some out.LastEvaluatedKey)).map
        (fun more => out.Accounts ++ more)
    | _ => none

/-- Four accounts of two owners, stored out of order. -/
def mixedTable : Table :=
  [account "456" "checking" 10, account "123" "savings" 100, account "123" "checking" 5,
   account "456" "savings" 0]


/-- The write `CreateAccount` sends. -/
def createAccountRequest (accountID accountType : String) (initialBalance : Int) :
    PutItemInput :=
  { Item :=
      [(accountIDAttr, .S accountID),
       (accountTypeAttr, .S accountType),
       (balanceAttr, .N (Itoa initialBalance))]
    TableName := tableName
    ConditionExpression := some (.attribute_not_exists accountIDAttr) }

/-- The delete `DeleteAccount` sends. -/
def deleteAccountRequest (accountID accountType : String) : DeleteItemInput :=
  { Key := [(accountIDAttr, .S accountID), (accountTypeAttr, .S accountType)]
    TableName := tableName
    ConditionExpression :=
      some (.or (.eq (.path balanceAttr) (.value ":b")) (.attribute_not_exists accountIDAttr))
    ExpressionAttributeValues := [(":b", .N "0")] }

/-- The transaction `Transfer` sends: the debit side first, the credit side
second. -/
def transferRequest (srcAccountID : String) (transferInput : TransferInput) (amount : Int) :
    TransactWriteItemsInput :=
  { TransactItems :=
      [srcItemTransaction srcAccountID transferInput amount,
       destItemTransaction transferInput amount] }

/-- The query `ListAccounts` sends. -/
def listAccountsRequest (accountID : String) (listAccountsInput : ListAccountsInput) :
    QueryInput :=
  { TableName := tableName
    ExpressionAttributeValues := [(":id", .S accountID)]
    KeyConditionExpression := .eq (.path accountIDAttr) (.value ":id")
    ProjectionExpression := some [accountIDAttr, accountTypeAttr]
    ExclusiveStartKey := exclusiveStartKey listAccountsInput.ExclusiveStartKey
    Limit := listAccountsInput.Limit }

/-- The scan `ListAccountsAdmin` sends. -/
def listAccountsAdminRequest (listAccountsInput : ListAccountsInput) : ScanInput :=
  { TableName := tableName
    ProjectionExpression := some [accountIDAttr, accountTypeAttr]
    ExclusiveStartKey := exclusiveStartKey listAccountsInput.ExclusiveStartKey
    Limit := listAccountsInput.Limit }

/-- A cancelled transaction is classified by `Transfer` when one of its first
two reasons carries the code `Transfer` compares with. -/
def flagged : List CancellationReason → Prop
  | r0 :: r1 :: _ =>
    r0.Code = some ConditionalCheckFailedException.ErrorCode ∨
      r1.Code = some ConditionalCheckFailedException.ErrorCode
  | [r0] => r0.Code = some ConditionalCheckFailedException.ErrorCode
  | [] => False

/-! ## The handlers' error mapping -/

/-- The fields of `events.LambdaFunctionURLResponse` the handlers set. -/
structure LambdaFunctionURLResponse where
  StatusCode : Int
  Body : String
  deriving DecidableEq, Repr

/-- The errors that reach `processError`: an error of the account manager, or
the validator's `ValidationErrors`, given by the text that
`fmt.Sprintf("%v", validationErrs.Translate(translator))` prints for it. -/
inductive HandlerError where
  | manager (err : Err)
  | validation (translated : String)
  deriving DecidableEq, Repr

/-- Go method `AccountAlreadyExistsError.Error`. -/
def AccountAlreadyExistsError.Error (accountID accountType : String) : String :=
  "The account " ++ accountID ++ ":" ++ accountType ++ " already exists."

/-- Go method `AccountDoesNotExistError.Error`. -/
def AccountDoesNotExistError.Error (accountID accountType : String) : String :=
  "The account " ++ accountID ++ ":" ++ accountType ++ " does not exist."

/-- Go function `processError` of the create-account handler. -/
def CreateAccountHandler.processError (err : HandlerError) : LambdaFunctionURLResponse :=
  match err with
  | .manager (.AccountAlreadyExistsError accountID accountType) =>
    { StatusCode := 400, Body := AccountAlreadyExistsError.Error accountID accountType }
  | .validation translated =>
    { StatusCode := 400, Body := "Invalid request: " ++ translated }
  | _ => { StatusCode := 500, Body := "Internal error" }

/-- Go function `processError` of the get-balance handler. -/
def GetBalanceHandler.processError (err : HandlerError) : LambdaFunctionURLResponse :=
  match err with
  | .manager (.AccountDoesNotExistError accountID accountType) =>
    { StatusCode := 400, Body := AccountDoesNotExistError.Error accountID accountType }
  | .validation translated =>
    { StatusCode := 400, Body := "Invalid request: " ++ translated }
  | _ => { StatusCode := 500, Body := "Internal error" }


/-- A table holding only the destination of the example transfer. -/
def destOnlyTable : Table := [account "456" "checking" 10]

/-- An account type of 1025 letters, one byte more than a range key may have. -/
def longAccountType : String := String.mk (List.replicate 1025 'a')

/-- An account ID of 2049 letters, one byte more than a hash key may have. -/
def longAccountID : String := String.mk (List.replicate 2049 'a')

/-- The reply of a cancelled transaction in which both reasons carry the code
`Transfer` compares with. -/
def bothFlagged : StoreError :=
  .TransactionCanceledException
    [{ Code := some ConditionalCheckFailedException.ErrorCode },
     { Code := some ConditionalCheckFailedException.ErrorCode }]

/-- The first two cancellation reasons are there and have codes: what
`Transfer` assumes of a cancelled transaction. -/
def twoCodes : List CancellationReason → Prop
  | r0 :: r1 :: _ => r0.Code.isSome ∧ r1.Code.isSome
  | _ => False


/-! ## The create-account handler -/

/-- The field of `events.LambdaFunctionURLRequestContextAuthorizerIAMDescription`
the handler reads: the account of the caller. -/
structure LambdaFunctionURLRequestContextAuthorizerIAMDescription where
  AccountID : String

/-- The SDK type `events.LambdaFunctionURLRequestContextAuthorizerDescription`;
`IAM` is a pointer, nil when the request was not authorized through IAM. -/
structure LambdaFunctionURLRequestContextAuthorizerDescription where
  IAM : Option LambdaFunctionURLRequestContextAuthorizerIAMDescription

/-- The field of `events.LambdaFunctionURLRequestContext` the handler reads;
`Authorizer` is a pointer, nil on a request that carries no authorizer. -/
structure LambdaFunctionURLRequestContext where
  Authorizer : Option LambdaFunctionURLRequestContextAuthorizerDescription

/-- The fields of `events.LambdaFunctionURLRequest` the handler reads. -/
structure LambdaFunctionURLRequest where
  RequestContext : LambdaFunctionURLRequestContext
  Body : String

/-- One entry of `validator.ValidationErrors`: the field and the tag it
failed. -/
structure FieldError where
  Field : String
  Tag : String
  deriving DecidableEq, Repr

/-- What `inputValidator.Struct` finds on a `CreateAccountInput`, by its struct
tags: `AccountType` is `required` (not the empty string); `InitialBalance` is
`required` (not nil) and `gte=0`. -/
def validateCreateAccountInput (input : CreateAccountInput) : List FieldError :=
  (if input.AccountType = "" then [{ Field := "AccountType", Tag := "required" }] else []) ++
    match input.InitialBalance with
    | none => [{ Field := "InitialBalance", Tag := "required" }]
    | some n => if n < 0 then [{ Field := "InitialBalance", Tag := "gte" }] else []

/-- What the handler is linked with: `json.Unmarshal` into a
`CreateAccountInput`, the text the translator prints for validation errors, and
the account manager behind its interface. -/
structure HandlerEnv where
  unmarshal : String → Except String CreateAccountInput
  translate : List FieldError → String
  createAccount : String → CreateAccountInput → Outcome Unit

/-- One run of the handler: the response it returns (always with a nil Go
error) or a run-time failure, and the calls it made to
`accountManager.CreateAccount`. -/
structure HandlerRun where
  result : Outcome LambdaFunctionURLResponse
  calls : List (String × CreateAccountInput)

/-- Go function `handler` of the create-account function (logging left out).
Its first statement reads `request.RequestContext.Authorizer.IAM.AccountID`
through both pointers unguarded: a nil `Authorizer` or a nil `IAM` ends the run
there, before the body is decoded. -/
def CreateAccountHandler.handler (env : HandlerEnv) (request : LambdaFunctionURLRequest) :
    HandlerRun :=
  match request.RequestContext.Authorizer with
  | none => { result := .panicked, calls := [] }
  | some authorizer =>
    match authorizer.IAM with
    | none => { result := .panicked, calls := [] }
    | some iam =>
      let accountID := iam.AccountID
      match env.unmarshal request.Body with
      | .error _ =>
        { result := .ok { StatusCode := 400, Body := "Error parsing the provided request" }
          calls := [] }
      | .ok input =>
        match validateCreateAccountInput input with
        | e :: es =>
          { result := .ok (CreateAccountHandler.processError
              (.validation (env.translate (e :: es))))
            calls := [] }
        | [] =>
          match env.createAccount accountID input with
          | .error err =>
            { result := .ok (CreateAccountHandler.processError (.manager err))
              calls := [(accountID, input)] }
          | .panicked => { result := .panicked, calls := [(accountID, input)] }
          | .ok _ =>
            { result := .ok { StatusCode := 200, Body := "" }
              calls := [(accountID, input)] }

/-- Go function `getRequest` of the handler tests: a request authorized through
IAM for `accountID`. -/
def getRequest (accountID requestBody : String) : LambdaFunctionURLRequest :=
  { RequestContext := { Authorizer := some { IAM := some { AccountID := accountID } } }
    Body := requestBody }

/-- A handler environment over a table: any decoder and translator, and the
account manager of this file on the table with the given store reply. -/
def tableEnv (unmarshal : String → Except String CreateAccountInput)
    (translate : List FieldError → String) (t : Table) (fault : Option StoreError) :
    HandlerEnv :=
  { unmarshal := unmarshal
    translate := translate
    createAccount := fun accountID input => (CreateAccount t fault accountID input).2 }

/-- A decoder for three request bodies, standing in for `json.Unmarshal`. -/
def sampleUnmarshal (body : String) : Except String CreateAccountInput :=
  if body = "\x7b\"accountType\":\"savings\",\"initialBalance\":5\x7d" then
    .ok { AccountType := "savings", InitialBalance := some 5 }
  else if body = "\x7b\"accountType\":\"savings\",\"initialBalance\":-1\x7d" then
    .ok { AccountType := "savings", InitialBalance := some (-1) }
  else if body = "\x7b\"accountType\":\"savings\"\x7d" then
    .ok { AccountType := "savings", InitialBalance := none }
  else .error "invalid character"


/-! ## Decimal text round trips -/

theorem digitVal_digitChar (d : Nat) (h : d < 10) : digitVal (digitChar d) = some d := by
  interval_cases d <;> rfl

theorem splitSign_digitChar (d : Nat) (h : d < 10) (cs : List Char) :
    splitSign (digitChar d :: cs) = (false, digitChar d :: cs) := by
  interval_cases d <;> rfl

theorem parseDigits_append (lim : Option Nat) (xs ys : List Char) (acc : Nat) :
    parseDigits lim acc (xs ++ ys) =
      match parseDigits lim acc xs with
      | .ok a => parseDigits lim a ys
      | .error k => .error k := by
  induction xs generalizing acc with
  | nil => simp [parseDigits]
  | cons c cs ih =>
    simp only [List.cons_append, parseDigits]
    cases digitVal c with
    | none => rfl
    | some d =>
      cases lim with
      | none => simpa using ih (acc * 10 + d)
      | some m =>
        by_cases hm : m < acc * 10 + d
        · simp [hm]
        · simpa [hm] using ih (acc * 10 + d)

theorem parseDigits_single (lim : Option Nat) (acc d : Nat) (h : d < 10)
    (hlim : ∀ m, lim = some m → acc * 10 + d ≤ m) :
    parseDigits lim acc [digitChar d] = .ok (acc * 10 + d) := by
  simp only [parseDigits, digitVal_digitChar d h]
  cases lim with
  | none => rfl
  | some m =>
    have := hlim m rfl
    simp [Nat.not_lt.mpr this]

theorem parseDigits_natDigits (lim : Option Nat) (fuel n : Nat) (h : n < fuel)
    (hlim : ∀ m, lim = some m → n ≤ m) :
    parseDigits lim 0 (natDigits fuel n) = .ok n := by
  induction fuel generalizing n with
  | zero => omega
  | succ f ih =>
    unfold natDigits
    by_cases h10 : n < 10
    · simp only [h10, if_true]
      simpa using parseDigits_single lim 0 n h10 (by simpa using hlim)
    · simp only [h10, if_false]
      rw [parseDigits_append, ih (n / 10) (by omega) (fun m hm => by have := hlim m hm; omega)]
      have hmod : n % 10 < 10 := Nat.mod_lt _ (by decide)
      have hval : n / 10 * 10 + n % 10 = n := by omega
      simpa [hval] using parseDigits_single lim (n / 10) (n % 10) hmod
        (fun m hm => by have := hlim m hm; omega)

theorem natDigits_head (fuel n : Nat) (h : n < fuel) :
    ∃ d cs, d < 10 ∧ natDigits fuel n = digitChar d :: cs := by
  induction fuel generalizing n with
  | zero => omega
  | succ f ih =>
    unfold natDigits
    by_cases h10 : n < 10
    · exact ⟨n, [], h10, by simp [h10]⟩
    · obtain ⟨d, cs, hd, hcs⟩ := ih (n / 10) (by omega)
      exact ⟨d, cs ++ [digitChar (n % 10)], hd, by simp [h10, hcs]⟩

theorem parseNumber_formatInt (n : Int) : parseNumber (formatInt n) = some n := by
  unfold parseNumber formatInt
  by_cases hn : n < 0
  · obtain ⟨d, cs, hd, hcs⟩ := natDigits_head (n.natAbs + 1) n.natAbs (by omega)
    have hp := parseDigits_natDigits none (n.natAbs + 1) n.natAbs (by omega) (by simp)
    have hsplit : splitSign ('-' :: formatNat n.natAbs) = (true, formatNat n.natAbs) := rfl
    simp only [hn, if_true, hsplit]
    unfold formatNat at *
    rw [hp]
    simp only [hcs]
    simp
    rw [abs_of_neg hn, neg_neg]
  · obtain ⟨d, cs, hd, hcs⟩ := natDigits_head (n.toNat + 1) n.toNat (by omega)
    have hp := parseDigits_natDigits none (n.toNat + 1) n.toNat (by omega) (by simp)
    simp only [hn, if_false]
    unfold formatNat at *
    rw [hcs, splitSign_digitChar d hd]
    simp only [← hcs, hp]
    simp [hcs]
    omega

theorem Atoi_formatInt (n : Int) (h : isGoInt n) : Atoi (formatInt n) = .ok n := by
  unfold Atoi parseInt64 formatInt
  obtain ⟨hlo, hhi⟩ := h
  unfold minInt at hlo
  unfold maxInt at hhi
  by_cases hn : n < 0
  · obtain ⟨d, cs, hd, hcs⟩ := natDigits_head (n.natAbs + 1) n.natAbs (by omega)
    have hp := parseDigits_natDigits (some maxUint64) (n.natAbs + 1) n.natAbs (by omega)
      (by intro m hm; simp [maxUint64] at hm; omega)
    have hsplit : splitSign ('-' :: formatNat n.natAbs) = (true, formatNat n.natAbs) := rfl
    simp only [hn, if_true, hsplit]
    unfold formatNat at *
    rw [hp]
    simp only [hcs]
    have hr : ¬ 9223372036854775808 < n.natAbs := by omega
    simp [hr]
    rw [abs_of_neg hn, neg_neg]
  · obtain ⟨d, cs, hd, hcs⟩ := natDigits_head (n.toNat + 1) n.toNat (by omega)
    have hp := parseDigits_natDigits (some maxUint64) (n.toNat + 1) n.toNat (by omega)
      (by intro m hm; simp [maxUint64] at hm; omega)
    simp only [hn, if_false]
    unfold formatNat at *
    rw [hcs, splitSign_digitChar d hd]
    simp only [← hcs, hp]
    have hr : ¬ 9223372036854775808 ≤ n.toNat := by omega
    simp [hcs, hr]
    omega

/-! ## The table primitives -/

theorem lookupItem_key {t : Table} {k : AccountKey} {it : StoredItem}
    (h : lookupItem t k = some it) : it.key = k := by
  induction t with
  | nil => simp [lookupItem] at h
  | cons a rest ih =>
    by_cases ha : a.key = k
    · simp only [lookupItem, ha, if_true, Option.some.injEq] at h
      rw [← h]; exact ha
    · simp only [lookupItem, ha, if_false] at h
      exact ih h

theorem lookupItem_mem {t : Table} {k : AccountKey} {it : StoredItem}
    (h : lookupItem t k = some it) : it ∈ t := by
  induction t with
  | nil => simp [lookupItem] at h
  | cons a rest ih =>
    by_cases ha : a.key = k
    · simp only [lookupItem, ha, if_true, Option.some.injEq] at h
      rw [← h]; exact List.mem_cons_self _ _
    · simp only [lookupItem, ha, if_false] at h
      exact List.mem_cons_of_mem _ (ih h)

theorem lookupItem_none_of_not_mem {t : Table} {k : AccountKey}
    (h : lookupItem t k = none) : ∀ it ∈ t, it.key ≠ k := by
  induction t with
  | nil => intro it hit; simp at hit
  | cons a rest ih =>
    by_cases ha : a.key = k
    · simp [lookupItem, ha] at h
    · simp only [lookupItem, ha, if_false] at h
      intro it hit
      rcases List.mem_cons.mp hit with rfl | hmem
      · exact ha
      · exact ih h it hmem

theorem lookupItem_append_absent (t : Table) (new : StoredItem) (k : AccountKey) :
    lookupItem (t ++ [new]) k =
      match lookupItem t k with
      | some it => some it
      | none => if new.key = k then some new else none := by
  induction t with
  | nil => simp [lookupItem]
  | cons a rest ih =>
    by_cases ha : a.key = k
    · simp [lookupItem, ha]
    · simpa [lookupItem, ha] using ih

theorem lookupItem_map_replace (t : Table) (new : StoredItem) (k : AccountKey) :
    lookupItem (t.map (fun it => if it.key = new.key then new else it)) k =
      if k = new.key then (lookupItem t k).map (fun _ => new) else lookupItem t k := by
  induction t with
  | nil => simp [lookupItem]
  | cons a rest ih =>
    by_cases hk : k = new.key
    · subst hk
      by_cases ha : a.key = new.key
      · simp [lookupItem, ha]
      · simpa [lookupItem, ha] using ih
    · by_cases ha : a.key = new.key
      · have hnk : ¬ new.key = k := fun e => hk e.symm
        have hak : ¬ a.key = k := by rw [ha]; exact hnk
        simpa [lookupItem, ha, hk, hnk, hak] using ih
      · by_cases hak : a.key = k
        · simp [lookupItem, ha, hk, hak]
        · simpa [lookupItem, ha, hk, hak] using ih

theorem lookupItem_putItem_same (t : Table) (new : StoredItem) :
    lookupItem (putItem t new) new.key = some new := by
  unfold putItem
  cases h : lookupItem t new.key with
  | none => simp [lookupItem_append_absent, h]
  | some it => simp [lookupItem_map_replace, h]

theorem lookupItem_putItem_other (t : Table) (new : StoredItem) (k : AccountKey)
    (h : k ≠ new.key) : lookupItem (putItem t new) k = lookupItem t k := by
  have hk : ¬ new.key = k := fun e => h e.symm
  unfold putItem
  cases hs : lookupItem t new.key with
  | none =>
    simp only [Option.isSome_none, Bool.false_eq_true, if_false, lookupItem_append_absent]
    cases lookupItem t k with
    | none => simp [hk]
    | some it => rfl
  | some it => simp [lookupItem_map_replace, h]

theorem mem_putItem {t : Table} {new it : StoredItem} (h : it ∈ putItem t new) :
    it ∈ t ∨ it = new := by
  unfold putItem at h
  by_cases hs : (lookupItem t new.key).isSome
  · simp only [hs, if_true, List.mem_map] at h
    obtain ⟨a, ha, rfl⟩ := h
    by_cases hk : a.key = new.key
    · right; simp [hk]
    · left; simpa [hk] using ha
  · simp only [hs] at h
    simpa using h

theorem mem_removeItem {t : Table} {k : AccountKey} {it : StoredItem}
    (h : it ∈ removeItem t k) : it ∈ t := by
  unfold removeItem at h
  exact (List.mem_filter.mp h).1

theorem lookupItem_removeItem_same (t : Table) (k : AccountKey) :
    lookupItem (removeItem t k) k = none := by
  unfold removeItem
  induction t with
  | nil => rfl
  | cons a rest ih =>
    by_cases ha : a.key = k
    · simpa [List.filter_cons, ha] using ih
    · simpa [List.filter_cons, ha, lookupItem] using ih

theorem lookupItem_removeItem_other (t : Table) (k k1 : AccountKey) (h : k1 ≠ k) :
    lookupItem (removeItem t k) k1 = lookupItem t k1 := by
  have hkk : ¬ k = k1 := fun e => h e.symm
  unfold removeItem
  induction t with
  | nil => rfl
  | cons a rest ih =>
    by_cases ha : a.key = k
    · have hak : ¬ a.key = k1 := by rw [ha]; exact hkk
      simpa [List.filter_cons, ha, hak, hkk, lookupItem] using ih
    · by_cases hk1 : a.key = k1
      · have hak : ¬ k1 = k := h
        simp [List.filter_cons, ha, hk1, hak, lookupItem]
      · simpa [List.filter_cons, ha, hk1, lookupItem] using ih

theorem removeItem_absent (t : Table) (k : AccountKey) (h : lookupItem t k = none) :
    removeItem t k = t := by
  unfold removeItem
  rw [List.filter_eq_self]
  intro it hit
  have := lookupItem_none_of_not_mem h it hit
  simpa using this

theorem lookup_setAttr_same (l : List (String × StoredValue)) (n : String) (v : StoredValue) :
    (setAttr l n v).lookup n = some v := by
  induction l with
  | nil => simp [setAttr, List.lookup]
  | cons a rest ih =>
    obtain ⟨m, w⟩ := a
    by_cases hm : m = n
    · simp [setAttr, hm, List.lookup]
    · have hne : (n == m) = false := by simpa using fun e : n = m => hm e.symm
      simp [setAttr, hm, List.lookup, hne, ih]

/-! ## What each operation does to the table -/

theorem keyOfItem_pair (id ty : String) (rest : Item)
    (h : validKey { AccountID := id, AccountType := ty }) :
    keyOfItem ((accountIDAttr, .S id) :: (accountTypeAttr, .S ty) :: rest) =
      some { AccountID := id, AccountType := ty } := by
  simp [keyOfItem, List.lookup, accountIDAttr, accountTypeAttr, h]

theorem keyOfItem_pair_invalid (id ty : String) (rest : Item)
    (h : ¬ validKey { AccountID := id, AccountType := ty }) :
    keyOfItem ((accountIDAttr, .S id) :: (accountTypeAttr, .S ty) :: rest) = none := by
  simp [keyOfItem, List.lookup, accountIDAttr, accountTypeAttr, h]

theorem utf8ByteSize_replicate (n : Nat) :
    (String.mk (List.replicate n 'a')).utf8ByteSize = n := by
  have h : ∀ m, String.utf8ByteSize.go (List.replicate m 'a') = m := by
    intro m
    induction m with
    | zero => rfl
    | succ m ih =>
      have ha : Char.utf8Size 'a' = 1 := by decide
      simp only [List.replicate_succ, String.utf8ByteSize.go, ih, ha]
  exact h n

theorem longAccountType_invalid (id : String) : ¬ validKey ⟨id, longAccountType⟩ := by
  intro h
  have h4 := h.2.2.2
  simp only [longAccountType, utf8ByteSize_replicate, maxRangeKeyBytes] at h4
  omega

theorem longAccountID_invalid (ty : String) : ¬ validKey ⟨longAccountID, ty⟩ := by
  intro h
  have h2 := h.2.1
  simp only [longAccountID, utf8ByteSize_replicate, maxHashKeyBytes] at h2
  omega

theorem lookupItem_valid {t : Table} {k : AccountKey} {it : StoredItem}
    (h : lookupItem t k = some it) : validKey k := by
  rw [← lookupItem_key h]
  exact it.valid

theorem hasBalance_valid {t : Table} {k : AccountKey} {b : Int} (h : hasBalance t k b) :
    validKey k := by
  obtain ⟨it, hit, _⟩ := h
  exact lookupItem_valid hit

theorem updateBase_some (t : Table) (k : AccountKey) (it : StoredItem)
    (h : lookupItem t k = some it) : updateBase t k = some it := by
  simp [updateBase, h]

theorem get_accountID (it : StoredItem) :
    it.get accountIDAttr = some (.S it.key.AccountID) := by
  simp [StoredItem.get]

theorem get_balance (it : StoredItem) :
    it.get balanceAttr = it.attrs.lookup balanceAttr := by
  simp [StoredItem.get, balanceAttr, accountIDAttr, accountTypeAttr]

theorem get_balance_account (id ty : String) (b : Int)
    (h : validKey { AccountID := id, AccountType := ty }) :
    (account id ty b h).get balanceAttr = some (.N b) := by
  simp [get_balance, account, List.lookup]

theorem get_balance_setAttr (it : StoredItem) (v : StoredValue) :
    StoredItem.get { it with attrs := setAttr it.attrs balanceAttr v } balanceAttr = some v := by
  rw [get_balance]
  exact lookup_setAttr_same _ _ _

theorem toStored_Itoa (n : Int) : (AttributeValue.N (Itoa n)).toStored = some (.N n) := by
  simp [AttributeValue.toStored, Itoa, parseNumber_formatInt]

theorem CreateAccount_spec (t : Table) (id ty : String) (n : Int)
    (hv : validKey { AccountID := id, AccountType := ty }) :
    CreateAccount t none id { AccountType := ty, InitialBalance := some n } =
      match lookupItem t { AccountID := id, AccountType := ty } with
      | some _ => (t, .error (.AccountAlreadyExistsError id ty))
      | none => (putItem t (account id ty n hv), .ok ()) := by
  have hstored : storedOfItem
      [(accountIDAttr, .S id), (accountTypeAttr, .S ty), (balanceAttr, .N (Itoa n))] =
      some (account id ty n hv) := by
    rw [storedOfItem, keyOfItem_pair _ _ _ hv]
    simp [storedAttrs, toStored_Itoa, account, balanceAttr, accountIDAttr, accountTypeAttr, hv]
  simp only [CreateAccount, PutItem, hstored, ne_eq, not_true_eq_false, if_false]
  cases h : lookupItem t { AccountID := id, AccountType := ty } with
  | none => simp [account, h, evalOptCondition, evalCondition]
  | some it => simp [account, h, evalOptCondition, evalCondition, get_accountID]

theorem CreateAccount_invalid (t : Table) (id ty : String) (n : Int)
    (hv : ¬ validKey { AccountID := id, AccountType := ty }) :
    CreateAccount t none id { AccountType := ty, InitialBalance := some n } =
      (t, .error (.Store (.ValidationException "invalid item"))) := by
  have hstored : storedOfItem
      [(accountIDAttr, .S id), (accountTypeAttr, .S ty), (balanceAttr, .N (Itoa n))] =
      none := by
    rw [storedOfItem, keyOfItem_pair_invalid _ _ _ hv]
  simp only [CreateAccount, PutItem, hstored, ne_eq, not_true_eq_false, if_false]

theorem DeleteAccount_invalid (t : Table) (id ty : String)
    (hv : ¬ validKey { AccountID := id, AccountType := ty }) :
    DeleteAccount t none id { AccountType := ty } =
      (t, .error (.Store (.ValidationException "invalid key"))) := by
  simp only [DeleteAccount, DeleteItem, keyOfItem_pair_invalid _ _ _ hv, ne_eq,
    not_true_eq_false, if_false]

theorem DeleteAccount_spec (t : Table) (id ty : String)
    (hv : validKey { AccountID := id, AccountType := ty }) :
    DeleteAccount t none id { AccountType := ty } =
      match lookupItem t { AccountID := id, AccountType := ty } with
      | none => (removeItem t { AccountID := id, AccountType := ty }, .ok ())
      | some it =>
        if it.get balanceAttr = some (.N 0) then
          (removeItem t { AccountID := id, AccountType := ty }, .ok ())
        else (t, .error (.NonZeroBalanceError id ty)) := by
  have hzero : (AttributeValue.N "0").toStored = some (.N 0) := by decide
  simp only [DeleteAccount, DeleteItem, keyOfItem_pair _ _ _ hv, ne_eq, not_true_eq_false,
    if_false]
  cases h : lookupItem t { AccountID := id, AccountType := ty } with
  | none => simp [evalOptCondition, evalCondition, operandValue]
  | some it =>
    cases hb : it.get balanceAttr with
    | none =>
      simp [evalOptCondition, evalCondition, operandValue, hb, get_accountID, List.lookup, hzero]
    | some v =>
      by_cases hv : v = .N 0
      · simp [evalOptCondition, evalCondition, operandValue, hb, get_accountID, List.lookup,
          hzero, hv]
      · simp [evalOptCondition, evalCondition, operandValue, hb, get_accountID, List.lookup,
          hzero, hv]

theorem GetBalance_absent (t : Table) (id ty : String)
    (hv : validKey { AccountID := id, AccountType := ty })
    (h : lookupItem t { AccountID := id, AccountType := ty } = none) :
    GetBalance t none id { AccountType := ty } =
      (t, .error (.AccountDoesNotExistError id ty)) := by
  simp [GetBalance, GetItem, keyOfItem_pair _ _ _ hv, h]

theorem GetBalance_invalid (t : Table) (id ty : String)
    (hv : ¬ validKey { AccountID := id, AccountType := ty }) :
    GetBalance t none id { AccountType := ty } =
      (t, .error (.Store (.ValidationException "invalid key"))) := by
  simp [GetBalance, GetItem, keyOfItem_pair_invalid _ _ _ hv]

theorem GetBalance_present (t : Table) (id ty : String) (b : Int)
    (h : hasBalance t { AccountID := id, AccountType := ty } b) :
    GetBalance t none id { AccountType := ty } =
      (t, match Atoi (formatInt b) with
          | .ok val => .ok { Balance := val }
          | .error kind => .error (.NumError "Atoi" (formatInt b) kind)) := by
  have hv := hasBalance_valid h
  obtain ⟨it, hit, hb⟩ := h
  simp only [GetBalance, GetItem, keyOfItem_pair _ _ _ hv, hit, ne_eq, not_true_eq_false, if_false,
    projectItem, List.filterMap_cons, List.filterMap_nil, hb, Option.map_some',
    StoredValue.toAttributeValue, List.length_singleton, one_ne_zero, List.lookup,
    beq_self_eq_true]
  cases Atoi (formatInt b) <;> rfl

theorem GetBalance_of_hasBalance (t : Table) (id ty : String) (b : Int)
    (h : hasBalance t { AccountID := id, AccountType := ty } b) (hb : isGoInt b) :
    GetBalance t none id { AccountType := ty } = (t, .ok { Balance := b }) := by
  rw [GetBalance_present t id ty b h, Atoi_formatInt b hb]

theorem operandValue_amount (item : Option StoredItem) (a : Int) :
    operandValue item (exprAttrValues a) (.value ":a") = some (.N a) := by
  simp [operandValue, exprAttrValues, List.lookup, toStored_Itoa]

theorem evalUpdate_src (t : Table) (src : String) (inp : TransferInput) (a : Int)
    (k : AccountKey) :
    evalUpdate t (srcItemTransaction src inp a).Update k =
      match lookupItem t k with
      | none => .error codeConditionalCheckFailed
      | some it =>
        match it.get balanceAttr with
        | some (.N b) =>
          if a ≤ b then .ok { it with attrs := setAttr it.attrs balanceAttr (.N (b - a)) }
          else .error codeConditionalCheckFailed
        | _ => .error codeConditionalCheckFailed := by
  have hne : ¬ (balanceAttr = accountIDAttr ∨ balanceAttr = accountTypeAttr) := by decide
  cases h : lookupItem t k with
  | none =>
    simp [evalUpdate, srcItemTransaction, evalOptCondition, evalCondition, h]
  | some it =>
    cases hb : it.get balanceAttr with
    | none =>
      simp [evalUpdate, srcItemTransaction, evalOptCondition, evalCondition, h, operandValue, hb]
    | some v =>
      cases v with
      | N b =>
        by_cases hab : a ≤ b
        · simp [evalUpdate, srcItemTransaction, evalOptCondition, evalCondition, h,
            operandValue_amount, get_accountID, applyUpdate, hne, arith, StoredValue.ge, hab,
            updateBase]
          simp [operandValue, hb, hab, StoredValue.ge, arith]
        · simp [evalUpdate, srcItemTransaction, evalOptCondition, evalCondition, h,
            operandValue_amount, get_accountID, StoredValue.ge, hab]
          simp [operandValue, hb, hab, StoredValue.ge]
      | S x =>
        simp [evalUpdate, srcItemTransaction, evalOptCondition, evalCondition, h,
          operandValue_amount, get_accountID]
        simp [operandValue, hb, StoredValue.ge]
      | BOOL x =>
        simp [evalUpdate, srcItemTransaction, evalOptCondition, evalCondition, h,
          operandValue_amount, get_accountID]
        simp [operandValue, hb, StoredValue.ge]
      | NULL =>
        simp [evalUpdate, srcItemTransaction, evalOptCondition, evalCondition, h,
          operandValue_amount, get_accountID]
        simp [operandValue, hb, StoredValue.ge]

theorem evalUpdate_dest (t : Table) (inp : TransferInput) (a : Int) (k : AccountKey) :
    evalUpdate t (destItemTransaction inp a).Update k =
      match lookupItem t k with
      | none => .error codeConditionalCheckFailed
      | some it =>
        match it.get balanceAttr with
        | some (.N b) => .ok { it with attrs := setAttr it.attrs balanceAttr (.N (b + a)) }
        | _ => .error codeValidationError := by
  have hne : ¬ (balanceAttr = accountIDAttr ∨ balanceAttr = accountTypeAttr) := by decide
  cases h : lookupItem t k with
  | none =>
    simp [evalUpdate, destItemTransaction, evalOptCondition, evalCondition, h]
  | some it =>
    cases hb : it.get balanceAttr with
    | none =>
      simp [evalUpdate, destItemTransaction, evalOptCondition, evalCondition, h,
        operandValue_amount, get_accountID, applyUpdate, hne, updateBase]
      simp [operandValue, hb, arith]
    | some v =>
      cases v <;>
        simp [evalUpdate, destItemTransaction, evalOptCondition, evalCondition, h,
          operandValue_amount, get_accountID, applyUpdate, hne, updateBase] <;>
        simp [operandValue, hb, arith]

theorem Transfer_invalid (t : Table) (src : String) (inp : TransferInput) (a : Int)
    (h : inp.Amount = some a)
    (hv : ¬ (validKey ⟨src, inp.SrcAccountType⟩ ∧
      validKey ⟨inp.DestAccountID, inp.DestAccountType⟩)) :
    Transfer t none src inp =
      (t, .error (.Store (.ValidationException "invalid key"))) := by
  have hts : (srcItemTransaction src inp a).Update.TableName = tableName := rfl
  have htd : (destItemTransaction inp a).Update.TableName = tableName := rfl
  by_cases hs : validKey ⟨src, inp.SrcAccountType⟩
  · have hd : ¬ validKey ⟨inp.DestAccountID, inp.DestAccountType⟩ := fun hd => hv ⟨hs, hd⟩
    have hks : keyOfItem (srcItemTransaction src inp a).Update.Key =
        some ⟨src, inp.SrcAccountType⟩ := keyOfItem_pair _ _ _ hs
    have hkd : keyOfItem (destItemTransaction inp a).Update.Key = none :=
      keyOfItem_pair_invalid _ _ _ hd
    simp only [Transfer, h, TransactWriteItems, transactKeys, hks, hkd, List.any_cons,
      List.any_nil, hts, htd, ne_eq, not_true_eq_false, decide_False, Bool.or_self,
      Bool.false_eq_true, if_false]
  · have hks : keyOfItem (srcItemTransaction src inp a).Update.Key = none :=
      keyOfItem_pair_invalid _ _ _ hs
    simp only [Transfer, h, TransactWriteItems, transactKeys, hks, List.any_cons,
      List.any_nil, hts, htd, ne_eq, not_true_eq_false, decide_False, Bool.or_self,
      Bool.false_eq_true, if_false]

theorem Transfer_spec (t : Table) (src : String) (inp : TransferInput) (a : Int)
    (h : inp.Amount = some a)
    (hvs : validKey ⟨src, inp.SrcAccountType⟩)
    (hvd : validKey ⟨inp.DestAccountID, inp.DestAccountType⟩) :
    Transfer t none src inp =
      if (⟨src, inp.SrcAccountType⟩ : AccountKey) = ⟨inp.DestAccountID, inp.DestAccountType⟩ then
        (t, .error (.Store (.ValidationException
          "Transaction request cannot include multiple operations on one item")))
      else if passed (evalUpdate t (srcItemTransaction src inp a).Update
            ⟨src, inp.SrcAccountType⟩) &&
          passed (evalUpdate t (destItemTransaction inp a).Update
            ⟨inp.DestAccountID, inp.DestAccountType⟩) then
        (commit (commit t (evalUpdate t (srcItemTransaction src inp a).Update
            ⟨src, inp.SrcAccountType⟩))
          (evalUpdate t (destItemTransaction inp a).Update
            ⟨inp.DestAccountID, inp.DestAccountType⟩), .ok ())
      else
        (t, transferCanceled
          (.TransactionCanceledException
            [reasonOf (evalUpdate t (srcItemTransaction src inp a).Update
                ⟨src, inp.SrcAccountType⟩),
             reasonOf (evalUpdate t (destItemTransaction inp a).Update
                ⟨inp.DestAccountID, inp.DestAccountType⟩)])
          [reasonOf (evalUpdate t (srcItemTransaction src inp a).Update
              ⟨src, inp.SrcAccountType⟩),
           reasonOf (evalUpdate t (destItemTransaction inp a).Update
              ⟨inp.DestAccountID, inp.DestAccountType⟩)] inp) := by
  have hks : keyOfItem (srcItemTransaction src inp a).Update.Key =
      some ⟨src, inp.SrcAccountType⟩ := keyOfItem_pair _ _ _ hvs
  have hkd : keyOfItem (destItemTransaction inp a).Update.Key =
      some ⟨inp.DestAccountID, inp.DestAccountType⟩ := keyOfItem_pair _ _ _ hvd
  have hts : (srcItemTransaction src inp a).Update.TableName = tableName := rfl
  have htd : (destItemTransaction inp a).Update.TableName = tableName := rfl
  simp only [Transfer, h, TransactWriteItems, transactKeys, hks, hkd, List.any_cons,
    List.any_nil, hts, htd, ne_eq, not_true_eq_false, decide_False, Bool.or_self,
    Bool.false_eq_true, if_false]
  by_cases hk : (⟨src, inp.SrcAccountType⟩ : AccountKey) =
      ⟨inp.DestAccountID, inp.DestAccountType⟩
  · simp [hk]
  · simp only [hk, if_false]
    have hnd : List.Nodup [(⟨src, inp.SrcAccountType⟩ : AccountKey),
        ⟨inp.DestAccountID, inp.DestAccountType⟩] := by
      simp [hk]
    simp only [hnd, not_true_eq_false, if_false, List.zipWith_cons_cons, List.zipWith_nil_right,
      List.all_cons, List.all_nil, Bool.and_true, List.foldl_cons, List.foldl_nil, List.map_cons,
      List.map_nil]
    generalize evalUpdate t (srcItemTransaction src inp a).Update _ = rs
    generalize evalUpdate t (destItemTransaction inp a).Update _ = rd
    by_cases hp : (passed rs && passed rd) = true
    · simp only [hp, if_true]
    · simp only [hp, Bool.false_eq_true, if_false]

theorem hasBalance_after_update (t : Table) (it new : StoredItem) (k : AccountKey) (v : Int)
    (hk : it.key = k)
    (hnew : new = { it with attrs := setAttr it.attrs balanceAttr (.N v) }) :
    hasBalance (putItem t new) k v := by
  have hkey : new.key = k := by rw [hnew]; exact hk
  refine ⟨new, ?_, ?_⟩
  · rw [← hkey]; exact lookupItem_putItem_same t new
  · rw [hnew]; exact get_balance_setAttr it (.N v)

theorem hasBalance_putItem_other (t : Table) (new : StoredItem) (k : AccountKey) (v : Int)
    (hk : k ≠ new.key) (h : hasBalance t k v) : hasBalance (putItem t new) k v := by
  obtain ⟨it, hit, hb⟩ := h
  exact ⟨it, by rw [lookupItem_putItem_other t new k hk]; exact hit, hb⟩

theorem Transfer_success_table (t : Table) (src : String) (inp : TransferInput) (a bs bd : Int)
    (its itd : StoredItem)
    (ha : inp.Amount = some a)
    (hits : lookupItem t ⟨src, inp.SrcAccountType⟩ = some its)
    (hbs : its.get balanceAttr = some (.N bs))
    (hitd : lookupItem t ⟨inp.DestAccountID, inp.DestAccountType⟩ = some itd)
    (hbd : itd.get balanceAttr = some (.N bd))
    (hne : (⟨src, inp.SrcAccountType⟩ : AccountKey) ≠ ⟨inp.DestAccountID, inp.DestAccountType⟩)
    (hle : a ≤ bs) :
    Transfer t none src inp =
      (putItem (putItem t { its with attrs := setAttr its.attrs balanceAttr (.N (bs - a)) })
        { itd with attrs := setAttr itd.attrs balanceAttr (.N (bd + a)) }, .ok ()) := by
  have hes := evalUpdate_src t src inp a ⟨src, inp.SrcAccountType⟩
  have hed := evalUpdate_dest t inp a ⟨inp.DestAccountID, inp.DestAccountType⟩
  simp only [hits, hbs, hle, if_true] at hes
  simp only [hitd, hbd] at hed
  rw [Transfer_spec t src inp a ha (lookupItem_valid hits) (lookupItem_valid hitd)]
  simp only [hne, if_false, hes, hed, passed, Bool.and_self, if_true, commit]

theorem Transfer_success (t : Table) (src : String) (inp : TransferInput) (a bs bd : Int)
    (ha : inp.Amount = some a)
    (hs : hasBalance t ⟨src, inp.SrcAccountType⟩ bs)
    (hd : hasBalance t ⟨inp.DestAccountID, inp.DestAccountType⟩ bd)
    (hne : (⟨src, inp.SrcAccountType⟩ : AccountKey) ≠ ⟨inp.DestAccountID, inp.DestAccountType⟩)
    (hle : a ≤ bs) :
    (Transfer t none src inp).2 = .ok () ∧
      hasBalance (Transfer t none src inp).1 ⟨src, inp.SrcAccountType⟩ (bs - a) ∧
      hasBalance (Transfer t none src inp).1 ⟨inp.DestAccountID, inp.DestAccountType⟩
        (bd + a) := by
  obtain ⟨its, hits, hbs⟩ := hs
  obtain ⟨itd, hitd, hbd⟩ := hd
  rw [Transfer_success_table t src inp a bs bd its itd ha hits hbs hitd hbd hne hle]
  have hks := lookupItem_key hits
  have hkd := lookupItem_key hitd
  refine ⟨rfl, ?_, ?_⟩
  · apply hasBalance_putItem_other
    · simpa [hkd] using hne
    · exact hasBalance_after_update t its _ _ _ hks rfl
  · exact hasBalance_after_update _ itd _ _ _ hkd rfl

theorem TransactWriteItems_unchanged (t : Table) (fault : Option StoreError)
    (input : TransactWriteItemsInput) (e : StoreError)
    (h : (TransactWriteItems t fault input).2 = .error e) :
    (TransactWriteItems t fault input).1 = t := by
  unfold TransactWriteItems at h ⊢
  cases fault with
  | some e1 => rfl
  | none =>
    dsimp only at h ⊢
    by_cases hx : (input.TransactItems.any fun i => decide (i.Update.TableName ≠ tableName)) = true
    · simp only [hx, if_true]
    · simp only [hx] at h ⊢
      cases hk : transactKeys input.TransactItems with
      | none => simp only [Bool.false_eq_true, if_false]
      | some keys =>
        simp only [hk, Bool.false_eq_true, if_false] at h ⊢
        by_cases hnd : keys.Nodup
        · simp only [hnd, not_true_eq_false, if_false] at h ⊢
          by_cases hall : (List.zipWith (fun i k => evalUpdate t i.Update k)
              input.TransactItems keys).all passed = true
          · simp [hall] at h
          · simp only [hall, Bool.false_eq_true, if_false]
        · simp only [hnd, not_false_eq_true, if_true]

theorem transferCanceled_ne_ok (err : StoreError) (reasons : List CancellationReason)
    (inp : TransferInput) : transferCanceled err reasons inp ≠ .ok () := by
  unfold transferCanceled
  repeat' split
  all_goals simp

theorem passed_src (t : Table) (src : String) (inp : TransferInput) (a : Int) (k : AccountKey)
    (h : passed (evalUpdate t (srcItemTransaction src inp a).Update k) = true) :
    ∃ b, hasBalance t k b ∧ a ≤ b := by
  rw [evalUpdate_src] at h
  cases hl : lookupItem t k with
  | none => simp [hl, passed] at h
  | some it =>
    cases hb : it.get balanceAttr with
    | none => simp [hl, hb, passed] at h
    | some v =>
      cases v with
      | N b =>
        by_cases hab : a ≤ b
        · exact ⟨b, ⟨it, hl, hb⟩, hab⟩
        · simp [hl, hb, hab, passed] at h
      | S x => simp [hl, hb, passed] at h
      | BOOL x => simp [hl, hb, passed] at h
      | NULL => simp [hl, hb, passed] at h

theorem passed_dest (t : Table) (inp : TransferInput) (a : Int) (k : AccountKey)
    (h : passed (evalUpdate t (destItemTransaction inp a).Update k) = true) :
    ∃ b, hasBalance t k b := by
  rw [evalUpdate_dest] at h
  cases hl : lookupItem t k with
  | none => simp [hl, passed] at h
  | some it =>
    cases hb : it.get balanceAttr with
    | none => simp [hl, hb, passed] at h
    | some v =>
      cases v with
      | N b => exact ⟨b, ⟨it, hl, hb⟩⟩
      | S x => simp [hl, hb, passed] at h
      | BOOL x => simp [hl, hb, passed] at h
      | NULL => simp [hl, hb, passed] at h

theorem Transfer_fault (t : Table) (e : StoreError) (src : String) (inp : TransferInput) :
    (Transfer t (some e) src inp).1 = t ∧ (Transfer t (some e) src inp).2 ≠ .ok () := by
  unfold Transfer
  cases inp.Amount with
  | none => simp
  | some a =>
    cases e with
    | TransactionCanceledException rs =>
      simpa [TransactWriteItems] using transferCanceled_ne_ok _ rs inp
    | ConditionalCheckFailedException => simp [TransactWriteItems]
    | ValidationException m => simp [TransactWriteItems]
    | ResourceNotFoundException => simp [TransactWriteItems]
    | Other m => simp [TransactWriteItems]

theorem Transfer_ok_inv (t : Table) (fault : Option StoreError) (src : String)
    (inp : TransferInput) (h : (Transfer t fault src inp).2 = .ok ()) :
    fault = none ∧ ∃ a bs bd, inp.Amount = some a ∧
      (⟨src, inp.SrcAccountType⟩ : AccountKey) ≠ ⟨inp.DestAccountID, inp.DestAccountType⟩ ∧
      hasBalance t ⟨src, inp.SrcAccountType⟩ bs ∧
      hasBalance t ⟨inp.DestAccountID, inp.DestAccountType⟩ bd ∧ a ≤ bs := by
  cases fault with
  | some e => exact absurd h (Transfer_fault t e src inp).2
  | none =>
    refine ⟨rfl, ?_⟩
    cases ha : inp.Amount with
    | none => simp [Transfer, ha] at h
    | some a =>
      by_cases hv : validKey ⟨src, inp.SrcAccountType⟩ ∧
          validKey ⟨inp.DestAccountID, inp.DestAccountType⟩
      swap
      · rw [Transfer_invalid t src inp a ha hv] at h
        simp at h
      rw [Transfer_spec t src inp a ha hv.1 hv.2] at h
      by_cases hk : (⟨src, inp.SrcAccountType⟩ : AccountKey) =
          ⟨inp.DestAccountID, inp.DestAccountType⟩
      · simp [hk] at h
      · simp only [hk, if_false] at h
        by_cases hp : (passed (evalUpdate t (srcItemTransaction src inp a).Update
              ⟨src, inp.SrcAccountType⟩) &&
            passed (evalUpdate t (destItemTransaction inp a).Update
              ⟨inp.DestAccountID, inp.DestAccountType⟩)) = true
        · rw [Bool.and_eq_true] at hp
          obtain ⟨bs, hbs, hle⟩ := passed_src t src inp a _ hp.1
          obtain ⟨bd, hbd⟩ := passed_dest t inp a _ hp.2
          exact ⟨a, bs, bd, rfl, hk, hbs, hbd, hle⟩
        · simp only [hp, Bool.false_eq_true, if_false] at h
          exact absurd h (transferCanceled_ne_ok _ _ inp)

theorem Transfer_unchanged (t : Table) (fault : Option StoreError) (src : String)
    (inp : TransferInput) (h : (Transfer t fault src inp).2 ≠ .ok ()) :
    (Transfer t fault src inp).1 = t := by
  unfold Transfer at h ⊢
  cases ha : inp.Amount with
  | none => rfl
  | some a =>
    simp only [ha] at h ⊢
    generalize hin : ({ TransactItems :=
      [srcItemTransaction src inp a, destItemTransaction inp a] } : TransactWriteItemsInput)
      = input at h ⊢
    have hun := TransactWriteItems_unchanged t fault input
    rcases hres : TransactWriteItems t fault input with ⟨t1, r⟩
    rw [hres] at h hun
    cases r with
    | ok u => simp at h
    | error e =>
      have ht : t1 = t := hun e rfl
      cases e <;> simp [ht]

theorem CreateAccount_fault (t : Table) (e : StoreError) (id : String)
    (inp : CreateAccountInput) : (CreateAccount t (some e) id inp).1 = t := by
  unfold CreateAccount
  cases inp.InitialBalance with
  | none => rfl
  | some n => cases e <;> rfl

theorem DeleteAccount_fault (t : Table) (e : StoreError) (id : String)
    (inp : DeleteAccountInput) : (DeleteAccount t (some e) id inp).1 = t := by
  unfold DeleteAccount
  cases e <;> rfl

theorem nonNegBalances_putItem (t : Table) (new : StoredItem) (b : Int)
    (h : nonNegBalances t) (hb : new.get balanceAttr = some (.N b)) (h0 : 0 ≤ b) :
    nonNegBalances (putItem t new) := by
  intro it hit
  rcases mem_putItem hit with hmem | rfl
  · exact h it hmem
  · exact ⟨b, hb, h0⟩

theorem nonNegBalances_removeItem (t : Table) (k : AccountKey) (h : nonNegBalances t) :
    nonNegBalances (removeItem t k) :=
  fun it hit => h it (mem_removeItem hit)

theorem CreateAccount_nonNeg (t : Table) (fault : Option StoreError) (id : String)
    (inp : CreateAccountInput) (h : nonNegBalances t)
    (hn : ∀ n, inp.InitialBalance = some n → 0 ≤ n) :
    nonNegBalances (CreateAccount t fault id inp).1 := by
  cases fault with
  | some e => rw [CreateAccount_fault]; exact h
  | none =>
    obtain ⟨ty, bal⟩ := inp
    cases bal with
    | none => exact h
    | some n =>
      by_cases hv : validKey ⟨id, ty⟩
      · rw [CreateAccount_spec t id ty n hv]
        cases lookupItem t ⟨id, ty⟩ with
        | some it => exact h
        | none =>
          exact nonNegBalances_putItem t _ n h (get_balance_account id ty n hv) (hn n rfl)
      · rw [CreateAccount_invalid t id ty n hv]
        exact h

theorem DeleteAccount_nonNeg (t : Table) (fault : Option StoreError) (id : String)
    (inp : DeleteAccountInput) (h : nonNegBalances t) :
    nonNegBalances (DeleteAccount t fault id inp).1 := by
  cases fault with
  | some e => rw [DeleteAccount_fault]; exact h
  | none =>
    obtain ⟨ty⟩ := inp
    by_cases hv : validKey ⟨id, ty⟩
    swap
    · rw [DeleteAccount_invalid t id ty hv]
      exact h
    rw [DeleteAccount_spec t id ty hv]
    cases lookupItem t ⟨id, ty⟩ with
    | none => exact nonNegBalances_removeItem t _ h
    | some it =>
      by_cases hb : it.get balanceAttr = some (.N 0)
      · simp only [hb, if_true]
        exact nonNegBalances_removeItem t _ h
      · simp only [hb, if_false]
        exact h

theorem Transfer_nonNeg (t : Table) (fault : Option StoreError) (src : String)
    (inp : TransferInput) (h : nonNegBalances t)
    (hpos : ∀ a, inp.Amount = some a → 0 < a) :
    nonNegBalances (Transfer t fault src inp).1 := by
  by_cases hok : (Transfer t fault src inp).2 = .ok ()
  · obtain ⟨hf, a, bs, bd, ha, hne, ⟨its, hits, hbs⟩, ⟨itd, hitd, hbd⟩, hle⟩ :=
      Transfer_ok_inv t fault src inp hok
    subst hf
    rw [Transfer_success_table t src inp a bs bd its itd ha hits hbs hitd hbd hne hle]
    have hapos := hpos a ha
    obtain ⟨b1, hb1, h1⟩ := h itd (lookupItem_mem hitd)
    have hbd0 : 0 ≤ bd := by
      rw [hbd] at hb1
      injection hb1 with hb1
      injection hb1 with hb1
      omega
    apply nonNegBalances_putItem _ _ (bd + a) _ (get_balance_setAttr itd _) (by omega)
    exact nonNegBalances_putItem _ _ (bs - a) h (get_balance_setAttr its _) (by omega)
  · rw [Transfer_unchanged t fault src inp hok]
    exact h

/-! ## The claims -/

/-- C1, as stated, fails: from 100 and the largest Go integer, a transfer of 1
succeeds, the store holds 9223372036854775808 for the destination, and
`GetBalance` of the destination then fails in `strconv.Atoi` with a range error
instead of returning the sum. -/
theorem transfer_credit_overflow_counterexample :
    hasBalance brimTable ⟨"123", "savings"⟩ 100 ∧
    hasBalance brimTable ⟨"456", "checking"⟩ 9223372036854775807 ∧
    (⟨"123", "savings"⟩ : AccountKey) ≠ ⟨"456", "checking"⟩ ∧
    (0 : Int) < 1 ∧ (1 : Int) ≤ 100 ∧ isGoInt 100 ∧ isGoInt 9223372036854775807 ∧
    (Transfer brimTable none "123" (toChecking 1)).2 = .ok () ∧
    (GetBalance (Transfer brimTable none "123" (toChecking 1)).1 none "456"
        { AccountType := "checking" }).2 =
      .error (.NumError "Atoi" "9223372036854775808" .ErrRange) ∧
    (GetBalance (Transfer brimTable none "123" (toChecking 1)).1 none "456"
        { AccountType := "checking" }).2 ≠
      .ok { Balance := 9223372036854775807 + 1 } := by
  refine ⟨⟨_, rfl, rfl⟩, ⟨_, rfl, rfl⟩, by decide, by decide, by decide, by decide, by decide,
    by decide, by decide, by decide⟩

/-- C1, amended: when the source holds `bs >= amount`, the destination holds
`bd`, the keys differ, `amount > 0`, and both new balances fit Go's `int`, then
`Transfer` returns no error, `GetBalance` of the source returns `bs - amount`,
`GetBalance` of the destination returns `bd + amount`, and the sum of the two
balances is what it was. -/
theorem transfer_moves_amount (t : Table) (srcAccountID : String) (inp : TransferInput)
    (amount bs bd : Int)
    (hamount : inp.Amount = some amount)
    (hsrc : hasBalance t ⟨srcAccountID, inp.SrcAccountType⟩ bs)
    (hdest : hasBalance t ⟨inp.DestAccountID, inp.DestAccountType⟩ bd)
    (hne : (⟨srcAccountID, inp.SrcAccountType⟩ : AccountKey) ≠
      ⟨inp.DestAccountID, inp.DestAccountType⟩)
    (_hpos : 0 < amount) (hle : amount ≤ bs)
    (hfits : isGoInt (bs - amount)) (hfitd : isGoInt (bd + amount)) :
    (Transfer t none srcAccountID inp).2 = .ok () ∧
    (GetBalance (Transfer t none srcAccountID inp).1 none srcAccountID
        { AccountType := inp.SrcAccountType }).2 = .ok { Balance := bs - amount } ∧
    (GetBalance (Transfer t none srcAccountID inp).1 none inp.DestAccountID
        { AccountType := inp.DestAccountType }).2 = .ok { Balance := bd + amount } ∧
    (bs - amount) + (bd + amount) = bs + bd := by
  obtain ⟨hok, hs, hd⟩ := Transfer_success t srcAccountID inp amount bs bd hamount hsrc hdest
    hne hle
  refine ⟨hok, ?_, ?_, by ring⟩
  · rw [GetBalance_of_hasBalance _ _ _ _ hs hfits]
  · rw [GetBalance_of_hasBalance _ _ _ _ hd hfitd]

/-- C1 at the example of the specification: 100 and 10, amount 30, gives 70 and
40, and 140 before and after. -/
theorem transfer_moves_amount_witness :
    (Transfer exampleTable none "123" (toChecking 30)).2 = .ok () ∧
    (GetBalance (Transfer exampleTable none "123" (toChecking 30)).1 none "123"
        { AccountType := "savings" }).2 = .ok { Balance := 100 - 30 } ∧
    (GetBalance (Transfer exampleTable none "123" (toChecking 30)).1 none "456"
        { AccountType := "checking" }).2 = .ok { Balance := 10 + 30 } ∧
    ((100 : Int) - 30) + (10 + 30) = 100 + 10 :=
  transfer_moves_amount exampleTable "123" (toChecking 30) 30 100 10 rfl
    ⟨_, rfl, rfl⟩ ⟨_, rfl, rfl⟩ (by decide) (by decide) (by decide) (by decide) (by decide)

/-- C2: `Transfer` is all-or-nothing.  Whatever the table, the request and the
reply of the store, a call that does not return nil leaves the table as it was;
and every call either leaves the table as it was or both debits the source and
credits the destination. -/
theorem transfer_all_or_nothing (t : Table) (fault : Option StoreError) (srcAccountID : String)
    (inp : TransferInput) :
    ((Transfer t fault srcAccountID inp).2 ≠ .ok () →
      (Transfer t fault srcAccountID inp).1 = t) ∧
    ((Transfer t fault srcAccountID inp).1 = t ∨
      ∃ amount bs bd, inp.Amount = some amount ∧
        hasBalance t ⟨srcAccountID, inp.SrcAccountType⟩ bs ∧
        hasBalance t ⟨inp.DestAccountID, inp.DestAccountType⟩ bd ∧
        hasBalance (Transfer t fault srcAccountID inp).1
          ⟨srcAccountID, inp.SrcAccountType⟩ (bs - amount) ∧
        hasBalance (Transfer t fault srcAccountID inp).1
          ⟨inp.DestAccountID, inp.DestAccountType⟩ (bd + amount)) := by
  refine ⟨Transfer_unchanged t fault srcAccountID inp, ?_⟩
  by_cases hok : (Transfer t fault srcAccountID inp).2 = .ok ()
  · obtain ⟨hf, a, bs, bd, ha, hne, hs, hd, hle⟩ := Transfer_ok_inv t fault srcAccountID inp hok
    subst hf
    obtain ⟨_, hs1, hd1⟩ := Transfer_success t srcAccountID inp a bs bd ha hs hd hne hle
    exact Or.inr ⟨a, bs, bd, ha, hs, hd, hs1, hd1⟩
  · exact Or.inl (Transfer_unchanged t fault srcAccountID inp hok)

/-- C2 on a transfer that fails for lack of funds: the call does not return
nil and the table is the one before it. -/
theorem transfer_all_or_nothing_witness :
    (Transfer afterTable none "123" (toChecking 1000)).2 ≠ .ok () ∧
    (Transfer afterTable none "123" (toChecking 1000)).1 = afterTable :=
  ⟨by decide, (transfer_all_or_nothing afterTable none "123" (toChecking 1000)).1 (by decide)⟩

/-- C3 at balance 70 and amount 1000.  The store cancels the transaction with
reason code `ConditionalCheckFailed` for the source; `Transfer` compares that
code with `ErrorCode()`, which is `ConditionalCheckFailedException`, finds no
match and hands the store's error on: the result is not an
`InsufficientFundsError`.  The balance does stay 70.  Had the reason code been
the one `Transfer` looks for, it would have returned `InsufficientFundsError`. -/
theorem transfer_insufficient_funds_reply :
    Transfer afterTable none "123" (toChecking 1000) =
      (afterTable, .error (.Store (.TransactionCanceledException
        [{ Code := some "ConditionalCheckFailed" }, { Code := some "None" }]))) ∧
    (∀ id ty, (Transfer afterTable none "123" (toChecking 1000)).2 ≠
      .error (.InsufficientFundsError id ty)) ∧
    (GetBalance (Transfer afterTable none "123" (toChecking 1000)).1 none "123"
      { AccountType := "savings" }).2 = .ok { Balance := 70 } ∧
    (Transfer afterTable (some (.TransactionCanceledException
        [{ Code := some "ConditionalCheckFailedException" }, { Code := some "None" }]))
      "123" (toChecking 1000)).2 = .error (.InsufficientFundsError "456" "checking") := by
  have h : Transfer afterTable none "123" (toChecking 1000) =
      (afterTable, .error (.Store (.TransactionCanceledException
        [{ Code := some "ConditionalCheckFailed" }, { Code := some "None" }]))) := by decide
  refine ⟨h, ?_, ?_, by decide⟩
  · intro id ty
    rw [h]
    simp
  · rw [h]
    decide

/-- C4 at a source with 70 and no destination record.  The store cancels the
transaction with reason code `ConditionalCheckFailed` for the destination;
`Transfer` compares it with `ConditionalCheckFailedException`, finds no match
and hands the store's error on: the result is not an
`AccountDoesNotExistError`.  The source balance does stay 70. -/
theorem transfer_missing_destination_reply :
    lookupItem loneTable ⟨"456", "checking"⟩ = none ∧
    Transfer loneTable none "123" (toChecking 30) =
      (loneTable, .error (.Store (.TransactionCanceledException
        [{ Code := some "None" }, { Code := some "ConditionalCheckFailed" }]))) ∧
    (∀ id ty, (Transfer loneTable none "123" (toChecking 30)).2 ≠
      .error (.AccountDoesNotExistError id ty)) ∧
    (GetBalance (Transfer loneTable none "123" (toChecking 30)).1 none "123"
      { AccountType := "savings" }).2 = .ok { Balance := 70 } ∧
    (Transfer loneTable (some (.TransactionCanceledException
        [{ Code := some "None" }, { Code := some "ConditionalCheckFailedException" }]))
      "123" (toChecking 30)).2 = .error (.AccountDoesNotExistError "456" "checking") := by
  have h : Transfer loneTable none "123" (toChecking 30) =
      (loneTable, .error (.Store (.TransactionCanceledException
        [{ Code := some "None" }, { Code := some "ConditionalCheckFailed" }]))) := by decide
  refine ⟨rfl, h, ?_, ?_, by decide⟩
  · intro id ty
    rw [h]
    simp
  · rw [h]
    decide

/-- C5: non-negative balances are an invariant.  From a table in which every
item has a balance that is not negative, `CreateAccount` with an initial
balance that is not negative, `DeleteAccount`, and `Transfer` with a positive
amount each leave such a table, whatever the keys, the reply of the store, and
whether the call succeeds. -/
theorem ledger_keeps_balances_nonneg (t : Table) (h : nonNegBalances t) :
    (∀ fault accountID (inp : CreateAccountInput),
      (∀ n, inp.InitialBalance = some n → 0 ≤ n) →
      nonNegBalances (CreateAccount t fault accountID inp).1) ∧
    (∀ fault accountID (inp : DeleteAccountInput),
      nonNegBalances (DeleteAccount t fault accountID inp).1) ∧
    (∀ fault srcAccountID (inp : TransferInput),
      (∀ a, inp.Amount = some a → 0 < a) →
      nonNegBalances (Transfer t fault srcAccountID inp).1) :=
  ⟨fun fault id inp hn => CreateAccount_nonNeg t fault id inp h hn,
   fun fault id inp => DeleteAccount_nonNeg t fault id inp h,
   fun fault src inp hpos => Transfer_nonNeg t fault src inp h hpos⟩

/-- C5 on the example table, which holds 100 and 10: after the example
transfer every balance is still not negative. -/
theorem ledger_keeps_balances_nonneg_witness :
    nonNegBalances exampleTable ∧
    nonNegBalances (Transfer exampleTable none "123" (toChecking 30)).1 :=
  have h0 : nonNegBalances exampleTable := by
    intro it hit
    simp only [exampleTable, List.mem_cons, List.mem_singleton, List.not_mem_nil,
      or_false] at hit
    rcases hit with rfl | rfl
    · exact ⟨100, get_balance_account _ _ _ _, by decide⟩
    · exact ⟨10, get_balance_account _ _ _ _, by decide⟩
  ⟨h0, (ledger_keeps_balances_nonneg exampleTable h0).2.2 none "123" (toChecking 30)
    (by intro a ha; simp only [toChecking, Option.some.injEq] at ha; omega)⟩

/-- C6: when a record with balance `b` is stored under `(accountID,
AccountType)`, `CreateAccount` with any initial balance returns
`AccountAlreadyExistsError` with that identity, leaves the table as it was, and
the stored balance is still `b`. -/
theorem create_existing_account_fails (t : Table) (accountID accountType : String)
    (b n : Int) (h : hasBalance t ⟨accountID, accountType⟩ b) :
    CreateAccount t none accountID { AccountType := accountType, InitialBalance := some n } =
      (t, .error (.AccountAlreadyExistsError accountID accountType)) ∧
    hasBalance
      (CreateAccount t none accountID
        { AccountType := accountType, InitialBalance := some n }).1
      ⟨accountID, accountType⟩ b := by
  obtain ⟨it, hit, hb⟩ := h
  have hc : CreateAccount t none accountID
      { AccountType := accountType, InitialBalance := some n } =
      (t, .error (.AccountAlreadyExistsError accountID accountType)) := by
    rw [CreateAccount_spec t accountID accountType n (lookupItem_valid hit), hit]
  exact ⟨hc, by rw [hc]; exact ⟨it, hit, hb⟩⟩

/-- C6 on the example table: creating the savings account of owner 123 again,
now with 5, fails and the balance is still 100. -/
theorem create_existing_account_fails_witness :
    CreateAccount exampleTable none "123"
        { AccountType := "savings", InitialBalance := some 5 } =
      (exampleTable, .error (.AccountAlreadyExistsError "123" "savings")) ∧
    hasBalance
      (CreateAccount exampleTable none "123"
        { AccountType := "savings", InitialBalance := some 5 }).1
      ⟨"123", "savings"⟩ 100 :=
  create_existing_account_fails exampleTable "123" "savings" 100 5 ⟨_, rfl, rfl⟩

/-- C7, as stated, fails for a key the store does not accept.  Nothing is
stored in the empty table and 5 is a Go integer, yet with an empty account
type, an account type of 1025 letters, an empty account ID or an account ID of
2049 letters `CreateAccount` does not return nil: the store answers the write
with a `ValidationException`, which is handed on, no record is made and
`GetBalance` does not return 5.  The long account type is not empty, so the
`required` check of the handler lets it through. -/
theorem create_rejected_key_counterexample :
    lookupItem [] ⟨"123", ""⟩ = none ∧ isGoInt 5 ∧
    CreateAccount [] none "123" { AccountType := "", InitialBalance := some 5 } =
      ([], .error (.Store (.ValidationException "invalid item"))) ∧
    (CreateAccount [] none "123" { AccountType := "", InitialBalance := some 5 }).2 ≠
      .ok () ∧
    lookupItem [] ⟨"123", longAccountType⟩ = none ∧
    validateCreateAccountInput { AccountType := longAccountType, InitialBalance := some 5 } =
      [] ∧
    CreateAccount [] none "123" { AccountType := longAccountType, InitialBalance := some 5 } =
      ([], .error (.Store (.ValidationException "invalid item"))) ∧
    (GetBalance
      (CreateAccount [] none "123"
        { AccountType := longAccountType, InitialBalance := some 5 }).1
      none "123" { AccountType := longAccountType }).2 ≠ .ok { Balance := 5 } ∧
    CreateAccount [] none "" { AccountType := "savings", InitialBalance := some 5 } =
      ([], .error (.Store (.ValidationException "invalid item"))) ∧
    CreateAccount [] none longAccountID { AccountType := "savings", InitialBalance := some 5 } =
      ([], .error (.Store (.ValidationException "invalid item"))) := by
  have hlong := longAccountType_invalid "123"
  have hc := CreateAccount_invalid [] "123" longAccountType 5 hlong
  refine ⟨rfl, by decide, by decide, by decide, rfl, by decide, hc, ?_, by decide,
    CreateAccount_invalid [] longAccountID "savings" 5 (longAccountID_invalid "savings")⟩
  rw [hc, GetBalance_invalid [] "123" longAccountType hlong]
  simp

/-- C7, amended: when `(accountID, AccountType)` is a key the store accepts
(neither string empty, at most 2048 and 1024 bytes) and nothing is stored under
it, `CreateAccount` with any Go integer `n` returns nil, and `GetBalance` for
the same identity then returns exactly `n` with no error: the text
`strconv.Itoa` writes is read back by `strconv.Atoi`. -/
theorem create_then_get_balance (t : Table) (accountID accountType : String) (n : Int)
    (hkey : validKey ⟨accountID, accountType⟩)
    (habsent : lookupItem t ⟨accountID, accountType⟩ = none) (hn : isGoInt n) :
    (CreateAccount t none accountID
      { AccountType := accountType, InitialBalance := some n }).2 = .ok () ∧
    (GetBalance
      (CreateAccount t none accountID
        { AccountType := accountType, InitialBalance := some n }).1
      none accountID { AccountType := accountType }).2 = .ok { Balance := n } := by
  rw [CreateAccount_spec t accountID accountType n hkey, habsent]
  refine ⟨rfl, ?_⟩
  have hb : hasBalance (putItem t (account accountID accountType n hkey))
      ⟨accountID, accountType⟩ n :=
    ⟨account accountID accountType n hkey,
      lookupItem_putItem_same t (account accountID accountType n hkey),
      get_balance_account _ _ _ _⟩
  rw [GetBalance_of_hasBalance _ _ _ _ hb hn]

/-- C7 at the test of the repository: create with 5 on an empty table, read 5. -/
theorem create_then_get_balance_witness :
    (CreateAccount [] none "test-account-id"
      { AccountType := "account-type", InitialBalance := some 5 }).2 = .ok () ∧
    (GetBalance
      (CreateAccount [] none "test-account-id"
        { AccountType := "account-type", InitialBalance := some 5 }).1
      none "test-account-id" { AccountType := "account-type" }).2 = .ok { Balance := 5 } :=
  create_then_get_balance [] "test-account-id" "account-type" 5 (by decide) rfl (by decide)

/-- C8: when the account holds a balance other than 0, `DeleteAccount` returns
`NonZeroBalanceError` with that identity and the table, so the record and its
balance, is as it was. -/
theorem delete_nonzero_account_fails (t : Table) (accountID accountType : String) (b : Int)
    (h : hasBalance t ⟨accountID, accountType⟩ b) (hb : b ≠ 0) :
    DeleteAccount t none accountID { AccountType := accountType } =
      (t, .error (.NonZeroBalanceError accountID accountType)) ∧
    hasBalance (DeleteAccount t none accountID { AccountType := accountType }).1
      ⟨accountID, accountType⟩ b := by
  obtain ⟨it, hit, hbal⟩ := h
  have hd : DeleteAccount t none accountID { AccountType := accountType } =
      (t, .error (.NonZeroBalanceError accountID accountType)) := by
    rw [DeleteAccount_spec t accountID accountType (lookupItem_valid hit), hit]
    simp [hbal, hb]
  exact ⟨hd, by rw [hd]; exact ⟨it, hit, hbal⟩⟩

/-- C8 at balance 50. -/
theorem delete_nonzero_account_fails_witness :
    DeleteAccount [account "123" "savings" 50] none "123" { AccountType := "savings" } =
      ([account "123" "savings" 50], .error (.NonZeroBalanceError "123" "savings")) ∧
    hasBalance
      (DeleteAccount [account "123" "savings" 50] none "123" { AccountType := "savings" }).1
      ⟨"123", "savings"⟩ 50 :=
  delete_nonzero_account_fails [account "123" "savings" 50] "123" "savings" 50
    ⟨_, rfl, rfl⟩ (by decide)

/-- C9: when the account holds exactly 0, `DeleteAccount` returns nil and
`GetBalance` for the same identity then fails with `AccountDoesNotExistError`. -/
theorem delete_zero_account_succeeds (t : Table) (accountID accountType : String)
    (h : hasBalance t ⟨accountID, accountType⟩ 0) :
    (DeleteAccount t none accountID { AccountType := accountType }).2 = .ok () ∧
    (GetBalance (DeleteAccount t none accountID { AccountType := accountType }).1
      none accountID { AccountType := accountType }).2 =
      .error (.AccountDoesNotExistError accountID accountType) := by
  obtain ⟨it, hit, hbal⟩ := h
  have hd : DeleteAccount t none accountID { AccountType := accountType } =
      (removeItem t ⟨accountID, accountType⟩, .ok ()) := by
    rw [DeleteAccount_spec t accountID accountType (lookupItem_valid hit), hit]
    simp [hbal]
  rw [hd]
  refine ⟨rfl, ?_⟩
  rw [GetBalance_absent _ _ _ (lookupItem_valid hit) (lookupItem_removeItem_same t _)]

/-- C9 at an account with 0 next to another with 3. -/
theorem delete_zero_account_succeeds_witness :
    (DeleteAccount [account "1" "savings" 0, account "2" "x" 3] none "1"
      { AccountType := "savings" }).2 = .ok () ∧
    (GetBalance
      (DeleteAccount [account "1" "savings" 0, account "2" "x" 3] none "1"
        { AccountType := "savings" }).1
      none "1" { AccountType := "savings" }).2 =
      .error (.AccountDoesNotExistError "1" "savings") :=
  delete_zero_account_succeeds [account "1" "savings" 0, account "2" "x" 3] "1" "savings"
    ⟨_, rfl, rfl⟩

/-- C10, as stated, fails for a key the store does not accept.  Nothing is
stored for owner 789, for the owner with the empty ID or for the owner with an
ID of 2049 letters, yet with an empty account type, an account type of 1025
letters, the empty account ID or the long account ID `DeleteAccount` does not
return nil: the store answers the delete with a `ValidationException`, which is
handed on. -/
theorem delete_rejected_key_counterexample :
    lookupItem exampleTable ⟨"789", ""⟩ = none ∧
    DeleteAccount exampleTable none "789" { AccountType := "" } =
      (exampleTable, .error (.Store (.ValidationException "invalid key"))) ∧
    (DeleteAccount exampleTable none "789" { AccountType := "" }).2 ≠ .ok () ∧
    lookupItem exampleTable ⟨"789", longAccountType⟩ = none ∧
    DeleteAccount exampleTable none "789" { AccountType := longAccountType } =
      (exampleTable, .error (.Store (.ValidationException "invalid key"))) ∧
    lookupItem exampleTable ⟨"", "savings"⟩ = none ∧
    DeleteAccount exampleTable none "" { AccountType := "savings" } =
      (exampleTable, .error (.Store (.ValidationException "invalid key"))) ∧
    lookupItem exampleTable ⟨longAccountID, "savings"⟩ = none ∧
    DeleteAccount exampleTable none longAccountID { AccountType := "savings" } =
      (exampleTable, .error (.Store (.ValidationException "invalid key"))) := by
  have habsent : ∀ k, ¬ validKey k → lookupItem exampleTable k = none := by
    intro k hk
    cases h : lookupItem exampleTable k with
    | none => rfl
    | some it => exact absurd (lookupItem_valid h) hk
  refine ⟨rfl, by decide, by decide, habsent _ (longAccountType_invalid "789"),
    DeleteAccount_invalid _ _ _ (longAccountType_invalid "789"), rfl, by decide,
    habsent _ (longAccountID_invalid "savings"),
    DeleteAccount_invalid _ _ _ (longAccountID_invalid "savings")⟩

/-- C10, amended: `DeleteAccount` is idempotent on the keys the store accepts.
When `(accountID, AccountType)` is such a key and nothing is stored under it,
`DeleteAccount` returns nil and the table is as it was; and after a
`DeleteAccount` that returned nil, whatever the key, a second one returns nil
too and changes nothing. -/
theorem delete_account_idempotent (t : Table) (accountID accountType : String) :
    (validKey ⟨accountID, accountType⟩ → lookupItem t ⟨accountID, accountType⟩ = none →
      DeleteAccount t none accountID { AccountType := accountType } = (t, .ok ())) ∧
    ((DeleteAccount t none accountID { AccountType := accountType }).2 = .ok () →
      DeleteAccount (DeleteAccount t none accountID { AccountType := accountType }).1
        none accountID { AccountType := accountType } =
        ((DeleteAccount t none accountID { AccountType := accountType }).1, .ok ())) := by
  have habs : ∀ t1 : Table, validKey ⟨accountID, accountType⟩ →
      lookupItem t1 ⟨accountID, accountType⟩ = none →
      DeleteAccount t1 none accountID { AccountType := accountType } = (t1, .ok ()) := by
    intro t1 hv h1
    rw [DeleteAccount_spec t1 accountID accountType hv, h1]
    simp only
    rw [removeItem_absent t1 _ h1]
  refine ⟨habs t, ?_⟩
  intro hok
  by_cases hv : validKey ⟨accountID, accountType⟩
  swap
  · rw [DeleteAccount_invalid t accountID accountType hv] at hok
    simp at hok
  apply habs _ hv
  rw [DeleteAccount_spec t accountID accountType hv] at hok ⊢
  cases hl : lookupItem t ⟨accountID, accountType⟩ with
  | none => exact lookupItem_removeItem_same t _
  | some it =>
    by_cases hb : it.get balanceAttr = some (.N 0)
    · simp only [hb, if_true]
      exact lookupItem_removeItem_same t _
    · simp [hl, hb] at hok

/-- C10 on the example table: deleting an account that was never created
returns nil and changes nothing, and so does deleting it once more. -/
theorem delete_account_idempotent_witness :
    validKey ⟨"789", "savings"⟩ ∧
    lookupItem exampleTable ⟨"789", "savings"⟩ = none ∧
    DeleteAccount exampleTable none "789" { AccountType := "savings" } =
      (exampleTable, .ok ()) ∧
    DeleteAccount (DeleteAccount exampleTable none "789" { AccountType := "savings" }).1
        none "789" { AccountType := "savings" } =
      ((DeleteAccount exampleTable none "789" { AccountType := "savings" }).1, .ok ()) :=
  ⟨by decide, rfl, (delete_account_idempotent exampleTable "789" "savings").1 (by decide) rfl,
   (delete_account_idempotent exampleTable "789" "savings").2 (by decide)⟩

/-! ## The claims, continued -/

theorem GetBalance_request (t : Table) (fault : Option StoreError) (id ty : String) :
    GetBalance t fault id { AccountType := ty } =
      match GetItem t fault (getBalanceRequest id ty) with
      | (ddb1, .error err) => (ddb1, .error (.Store err))
      | (ddb1, .ok output) =>
        if output.Item.length = 0 then (ddb1, .error (.AccountDoesNotExistError id ty))
        else
          match output.Item.lookup balanceAttr with
          | some (.N value) =>
            match Atoi value with
            | .error kind => (ddb1, .error (.NumError "Atoi" value kind))
            | .ok val => (ddb1, .ok { Balance := val })
          | _ => (ddb1, .error (.New "balance must be a number")) := rfl

theorem GetBalance_not_found_iff (t : Table) (fault : Option StoreError) (id ty x y : String) :
    (GetBalance t fault id { AccountType := ty }).2 = .error (.AccountDoesNotExistError x y) ↔
      (x = id ∧ y = ty) ∧
        ∃ out, (GetItem t fault (getBalanceRequest id ty)).2 = .ok out ∧ out.Item.length = 0 := by
  rw [GetBalance_request]
  rcases hres : GetItem t fault (getBalanceRequest id ty) with ⟨t1, r⟩
  cases r with
  | error e => simp
  | ok out =>
    by_cases hlen : out.Item.length = 0
    · simp only [hlen, if_true, Outcome.error.injEq, Err.AccountDoesNotExistError.injEq,
        Except.ok.injEq, exists_eq_left']
      constructor
      · rintro ⟨rfl, rfl⟩; exact ⟨⟨rfl, rfl⟩, trivial⟩
      · rintro ⟨⟨rfl, rfl⟩, _⟩; exact ⟨rfl, rfl⟩
    · simp only [hlen, if_false, Except.ok.injEq, exists_eq_left', and_false, iff_false]
      split
      · split <;> simp
      · simp


/-- C11, as stated, fails for a balance outside Go's `int`: the record of
account 456 holds the integer 9223372036854775808, and `GetBalance` returns the
range error of `strconv.Atoi` instead of that balance. -/
theorem get_balance_past_int_counterexample :
    hasBalance pastBrimTable ⟨"456", "checking"⟩ 9223372036854775808 ∧
    (GetBalance pastBrimTable none "456" { AccountType := "checking" }).2 =
      .error (.NumError "Atoi" "9223372036854775808" .ErrRange) ∧
    (GetBalance pastBrimTable none "456" { AccountType := "checking" }).2 ≠
      .ok { Balance := 9223372036854775808 } := by
  refine ⟨⟨_, rfl, rfl⟩, by decide, by decide⟩

/-- C11, amended: `GetBalance` returns `AccountDoesNotExistError` for the
requested identity exactly when its read succeeds and returns no item; an
`AccountDoesNotExistError` it returns never names another identity; and when a
record with an integer balance `b` in the range of Go's `int` is stored under
the key, it returns `b` and no error. -/
theorem get_balance_reads_record (t : Table) (fault : Option StoreError)
    (accountID accountType : String) :
    ((GetBalance t fault accountID { AccountType := accountType }).2 =
        .error (.AccountDoesNotExistError accountID accountType) ↔
      ∃ out, (GetItem t fault (getBalanceRequest accountID accountType)).2 = .ok out ∧
        out.Item.length = 0) ∧
    (∀ x y, (GetBalance t fault accountID { AccountType := accountType }).2 =
        .error (.AccountDoesNotExistError x y) → x = accountID ∧ y = accountType) ∧
    (∀ b, hasBalance t ⟨accountID, accountType⟩ b → isGoInt b →
      (GetBalance t none accountID { AccountType := accountType }).2 =
        .ok { Balance := b }) := by
  refine ⟨?_, ?_, ?_⟩
  · rw [GetBalance_not_found_iff]
    simp
  · intro x y h
    exact ((GetBalance_not_found_iff t fault accountID accountType x y).mp h).1
  · intro b hb hgo
    rw [GetBalance_of_hasBalance t accountID accountType b hb hgo]

/-- C11 on the example table: owner 789 has no record and the read returns no
item, owner 123 holds 100. -/
theorem get_balance_reads_record_witness :
    (GetBalance exampleTable none "789" { AccountType := "savings" }).2 =
      .error (.AccountDoesNotExistError "789" "savings") ∧
    (GetBalance exampleTable none "123" { AccountType := "savings" }).2 =
      .ok { Balance := 100 } :=
  ⟨(get_balance_reads_record exampleTable none "789" "savings").1.mpr ⟨_, rfl, rfl⟩,
   (get_balance_reads_record exampleTable none "123" "savings").2.2 100 ⟨_, rfl, rfl⟩
     (by decide)⟩

theorem transferCanceled_insufficient (err : StoreError) (reasons : List CancellationReason)
    (inp : TransferInput) (x y : String)
    (h : transferCanceled err reasons inp = .error (.InsufficientFundsError x y)) :
    x = inp.DestAccountID ∧ y = inp.DestAccountType := by
  unfold transferCanceled at h
  split at h
  · simp at h
  · split at h
    · simp at h
    · split at h
      · simp only [Outcome.error.injEq, Err.InsufficientFundsError.injEq] at h
        exact ⟨h.1.symm, h.2.symm⟩
      · split at h
        · simp at h
        · split at h
          · simp at h
          · split at h <;> simp at h

theorem transferCanceled_missing (err : StoreError) (reasons : List CancellationReason)
    (inp : TransferInput) (x y : String)
    (h : transferCanceled err reasons inp = .error (.AccountDoesNotExistError x y)) :
    x = inp.DestAccountID ∧ y = inp.DestAccountType := by
  unfold transferCanceled at h
  split at h
  · simp at h
  · split at h
    · simp at h
    · split at h
      · simp at h
      · split at h
        · simp at h
        · split at h
          · simp at h
          · split at h
            · simp only [Outcome.error.injEq, Err.AccountDoesNotExistError.injEq] at h
              exact ⟨h.1.symm, h.2.symm⟩
            · simp at h

theorem Transfer_outcome (t : Table) (fault : Option StoreError) (src : String)
    (inp : TransferInput) :
    (Transfer t fault src inp).2 = .panicked ∨ (Transfer t fault src inp).2 = .ok () ∨
      (∃ e, (Transfer t fault src inp).2 = .error (.Store e)) ∨
      ∃ err reasons, (Transfer t fault src inp).2 = transferCanceled err reasons inp := by
  unfold Transfer
  cases inp.Amount with
  | none => exact Or.inl rfl
  | some a =>
    simp only
    rcases TransactWriteItems t fault _ with ⟨t1, r⟩
    cases r with
    | ok u => exact Or.inr (Or.inl rfl)
    | error e =>
      cases e with
      | TransactionCanceledException rs => exact Or.inr (Or.inr (Or.inr ⟨_, rs, rfl⟩))
      | ConditionalCheckFailedException => exact Or.inr (Or.inr (Or.inl ⟨_, rfl⟩))
      | ValidationException m => exact Or.inr (Or.inr (Or.inl ⟨_, rfl⟩))
      | ResourceNotFoundException => exact Or.inr (Or.inr (Or.inl ⟨_, rfl⟩))
      | Other m => exact Or.inr (Or.inr (Or.inl ⟨_, rfl⟩))

theorem Transfer_reply (t : Table) (reasons : List CancellationReason) (src : String)
    (inp : TransferInput) (a : Int) (ha : inp.Amount = some a) :
    Transfer t (some (.TransactionCanceledException reasons)) src inp =
      (t, transferCanceled (.TransactionCanceledException reasons) reasons inp) := by
  simp [Transfer, ha, TransactWriteItems]

theorem reasonOf_evalUpdate_code (t : Table) (u : Update) (k : AccountKey) :
    ∃ c, reasonOf (evalUpdate t u k) = { Code := some c } ∧
      c ≠ ConditionalCheckFailedException.ErrorCode := by
  unfold evalUpdate
  split
  · split
    · exact ⟨codeNone, rfl, by decide⟩
    · exact ⟨codeValidationError, rfl, by decide⟩
  · exact ⟨codeConditionalCheckFailed, rfl, by decide⟩

theorem Transfer_none_cases (t : Table) (src : String) (inp : TransferInput) (a : Int)
    (ha : inp.Amount = some a) :
    (Transfer t none src inp).2 = .ok () ∨
      ∃ e, Transfer t none src inp = (t, .error (.Store e)) := by
  by_cases hv : validKey ⟨src, inp.SrcAccountType⟩ ∧
      validKey ⟨inp.DestAccountID, inp.DestAccountType⟩
  swap
  · exact Or.inr ⟨_, Transfer_invalid t src inp a ha hv⟩
  rw [Transfer_spec t src inp a ha hv.1 hv.2]
  by_cases hk : (⟨src, inp.SrcAccountType⟩ : AccountKey) =
      ⟨inp.DestAccountID, inp.DestAccountType⟩
  · simp only [hk, if_true]
    exact Or.inr ⟨_, rfl⟩
  · simp only [hk, if_false]
    by_cases hp : (passed (evalUpdate t (srcItemTransaction src inp a).Update
          ⟨src, inp.SrcAccountType⟩) &&
        passed (evalUpdate t (destItemTransaction inp a).Update
          ⟨inp.DestAccountID, inp.DestAccountType⟩)) = true
    · rw [if_pos hp]
      exact Or.inl rfl
    · simp only [hp, Bool.false_eq_true, if_false]
      obtain ⟨c0, h0, hc0⟩ := reasonOf_evalUpdate_code t (srcItemTransaction src inp a).Update
        ⟨src, inp.SrcAccountType⟩
      obtain ⟨c1, h1, hc1⟩ := reasonOf_evalUpdate_code t (destItemTransaction inp a).Update
        ⟨inp.DestAccountID, inp.DestAccountType⟩
      refine Or.inr
        ⟨.TransactionCanceledException [{ Code := some c0 }, { Code := some c1 }], ?_⟩
      rw [h0, h1]
      simp [transferCanceled, hc0, hc1]

theorem Transfer_none_no_domain_error (t : Table) (src : String) (inp : TransferInput)
    (x y : String) :
    (Transfer t none src inp).2 ≠ .error (.InsufficientFundsError x y) ∧
      (Transfer t none src inp).2 ≠ .error (.AccountDoesNotExistError x y) := by
  cases ha : inp.Amount with
  | none => simp [Transfer, ha]
  | some a =>
    rcases Transfer_none_cases t src inp a ha with h | ⟨e, h⟩
    · rw [h]; simp
    · rw [h]; simp

theorem Transfer_source_refused (t : Table) (src : String) (inp : TransferInput) (a : Int)
    (ha : inp.Amount = some a)
    (hvs : validKey ⟨src, inp.SrcAccountType⟩)
    (hvd : validKey ⟨inp.DestAccountID, inp.DestAccountType⟩)
    (hne : (⟨src, inp.SrcAccountType⟩ : AccountKey) ≠ ⟨inp.DestAccountID, inp.DestAccountType⟩)
    (hs : lookupItem t ⟨src, inp.SrcAccountType⟩ = none ∨
      ∃ b, hasBalance t ⟨src, inp.SrcAccountType⟩ b ∧ b < a) :
    ∃ r1, Transfer t none src inp =
      (t, .error (.Store (.TransactionCanceledException
        [{ Code := some codeConditionalCheckFailed }, r1]))) := by
  have hes := evalUpdate_src t src inp a ⟨src, inp.SrcAccountType⟩
  have hes2 : evalUpdate t (srcItemTransaction src inp a).Update ⟨src, inp.SrcAccountType⟩ =
      .error codeConditionalCheckFailed := by
    rcases hs with hnone | ⟨b, ⟨it, hit, hb⟩, hlt⟩
    · simpa only [hnone] using hes
    · have hnle : ¬ a ≤ b := by omega
      simpa only [hit, hb, hnle, if_false] using hes
  obtain ⟨c1, h1, hc1⟩ := reasonOf_evalUpdate_code t (destItemTransaction inp a).Update
    ⟨inp.DestAccountID, inp.DestAccountType⟩
  rw [Transfer_spec t src inp a ha hvs hvd]
  simp only [hne, if_false, hes2, passed, Bool.false_and, Bool.false_eq_true]
  rw [h1]
  have hc : ¬ codeConditionalCheckFailed = ConditionalCheckFailedException.ErrorCode := by
    decide
  exact ⟨{ Code := some c1 }, by simp [transferCanceled, reasonOf, hc, hc1]⟩

theorem Transfer_destination_refused (t : Table) (src : String) (inp : TransferInput)
    (a bs : Int)
    (ha : inp.Amount = some a)
    (hs : hasBalance t ⟨src, inp.SrcAccountType⟩ bs) (hle : a ≤ bs)
    (hvd : validKey ⟨inp.DestAccountID, inp.DestAccountType⟩)
    (hd : lookupItem t ⟨inp.DestAccountID, inp.DestAccountType⟩ = none) :
    Transfer t none src inp =
      (t, .error (.Store (.TransactionCanceledException
        [{ Code := some codeNone }, { Code := some codeConditionalCheckFailed }]))) := by
  have hvs := hasBalance_valid hs
  obtain ⟨its, hits, hbs⟩ := hs
  have hne : (⟨src, inp.SrcAccountType⟩ : AccountKey) ≠
      ⟨inp.DestAccountID, inp.DestAccountType⟩ := by
    intro e
    rw [e, hd] at hits
    exact Option.noConfusion hits
  have hes := evalUpdate_src t src inp a ⟨src, inp.SrcAccountType⟩
  have hed := evalUpdate_dest t inp a ⟨inp.DestAccountID, inp.DestAccountType⟩
  simp only [hits, hbs, hle, if_true] at hes
  simp only [hd] at hed
  rw [Transfer_spec t src inp a ha hvs hvd]
  simp only [hne, if_false, hes, hed, passed, Bool.and_false, Bool.false_eq_true, reasonOf]
  have hc : ¬ codeConditionalCheckFailed = ConditionalCheckFailedException.ErrorCode := by
    decide
  have hn : ¬ codeNone = ConditionalCheckFailedException.ErrorCode := by decide
  simp [transferCanceled, hc, hn]

/-- C12 on the store as it is: neither failure case ends in the error the claim
speaks of.  When the debit-side predicate fails (the source is missing or holds
less than the amount) the store cancels with `ConditionalCheckFailed` as reason
0, when only the credit-side predicate fails (the destination is missing) with
`None` and `ConditionalCheckFailed`; `Transfer` compares these codes with
`ConditionalCheckFailedException`, finds no match and hands the cancelled
transaction on, so with the store serving the call it returns neither
`InsufficientFundsError` nor `AccountDoesNotExistError`, and no identity at
all.  What the mapping does hold to: whatever the reply, an
`InsufficientFundsError` or `AccountDoesNotExistError` that `Transfer` returns
names `(DestAccountID, DestAccountType)`. -/
theorem transfer_predicate_failures_reply (t : Table) (srcAccountID : String)
    (inp : TransferInput) :
    (∀ amount, inp.Amount = some amount →
      validKey ⟨srcAccountID, inp.SrcAccountType⟩ →
      validKey ⟨inp.DestAccountID, inp.DestAccountType⟩ →
      (⟨srcAccountID, inp.SrcAccountType⟩ : AccountKey) ≠
        ⟨inp.DestAccountID, inp.DestAccountType⟩ →
      (lookupItem t ⟨srcAccountID, inp.SrcAccountType⟩ = none ∨
        ∃ b, hasBalance t ⟨srcAccountID, inp.SrcAccountType⟩ b ∧ b < amount) →
      ∃ r1, Transfer t none srcAccountID inp =
        (t, .error (.Store (.TransactionCanceledException
          [{ Code := some codeConditionalCheckFailed }, r1])))) ∧
    (∀ amount bs, inp.Amount = some amount →
      hasBalance t ⟨srcAccountID, inp.SrcAccountType⟩ bs → amount ≤ bs →
      validKey ⟨inp.DestAccountID, inp.DestAccountType⟩ →
      lookupItem t ⟨inp.DestAccountID, inp.DestAccountType⟩ = none →
      Transfer t none srcAccountID inp =
        (t, .error (.Store (.TransactionCanceledException
          [{ Code := some codeNone }, { Code := some codeConditionalCheckFailed }])))) ∧
    (∀ x y,
      (Transfer t none srcAccountID inp).2 ≠ .error (.InsufficientFundsError x y) ∧
      (Transfer t none srcAccountID inp).2 ≠ .error (.AccountDoesNotExistError x y)) ∧
    (∀ fault x y, (Transfer t fault srcAccountID inp).2 = .error (.InsufficientFundsError x y) →
      x = inp.DestAccountID ∧ y = inp.DestAccountType) ∧
    (∀ fault x y, (Transfer t fault srcAccountID inp).2 =
        .error (.AccountDoesNotExistError x y) →
      x = inp.DestAccountID ∧ y = inp.DestAccountType) := by
  refine ⟨?_, ?_, ?_, ?_, ?_⟩
  · intro amount ha hvs hvd hne hs
    exact Transfer_source_refused t srcAccountID inp amount ha hvs hvd hne hs
  · intro amount bs ha hs hle hvd hd
    exact Transfer_destination_refused t srcAccountID inp amount bs ha hs hle hvd hd
  · intro x y
    exact Transfer_none_no_domain_error t srcAccountID inp x y
  · intro fault x y h
    rcases Transfer_outcome t fault srcAccountID inp with hp | hp | ⟨e, hp⟩ | ⟨err, rs, hp⟩
    · rw [hp] at h; simp at h
    · rw [hp] at h; simp at h
    · rw [hp] at h; simp at h
    · rw [hp] at h; exact transferCanceled_insufficient err rs inp x y h
  · intro fault x y h
    rcases Transfer_outcome t fault srcAccountID inp with hp | hp | ⟨e, hp⟩ | ⟨err, rs, hp⟩
    · rw [hp] at h; simp at h
    · rw [hp] at h; simp at h
    · rw [hp] at h; simp at h
    · rw [hp] at h; exact transferCanceled_missing err rs inp x y h

/-- C12 on the two failure cases of the specification: a transfer of 1000 from
a balance of 70, and a transfer of 30 to a destination that has no record.
Both come back as the cancelled transaction of the store. -/
theorem transfer_predicate_failures_reply_witness :
    (∃ r1, Transfer afterTable none "123" (toChecking 1000) =
      (afterTable, .error (.Store (.TransactionCanceledException
        [{ Code := some "ConditionalCheckFailed" }, r1])))) ∧
    Transfer loneTable none "123" (toChecking 30) =
      (loneTable, .error (.Store (.TransactionCanceledException
        [{ Code := some "None" }, { Code := some "ConditionalCheckFailed" }]))) :=
  ⟨(transfer_predicate_failures_reply afterTable "123" (toChecking 1000)).1 1000 rfl
      (by decide) (by decide) (by decide) (Or.inr ⟨70, ⟨_, rfl, rfl⟩, by decide⟩),
   (transfer_predicate_failures_reply loneTable "123" (toChecking 30)).2.1 30 70 rfl
      ⟨_, rfl, rfl⟩ (by decide) (by decide) rfl⟩

/-- C13 at the example transfer with a reply that flags the debit side:
`Transfer` builds the `InsufficientFundsError` from `DestAccountID` and
`DestAccountType`, so it names the checking account of owner 456, not the
savings account of owner 123 that lacks the funds. -/
theorem insufficient_funds_names_destination :
    Transfer afterTable (some debitFlagged) "123" (toChecking 1000) =
      (afterTable, .error (.InsufficientFundsError "456" "checking")) ∧
    (Transfer afterTable (some debitFlagged) "123" (toChecking 1000)).2 ≠
      .error (.InsufficientFundsError "123" "savings") := by
  constructor <;> decide


theorem exists_hasBalance_putItem (t : Table) (new : StoredItem) (k : AccountKey) (v : Int)
    (hv : new.get balanceAttr = some (.N v)) (h : ∃ b, hasBalance t k b) :
    ∃ b, hasBalance (putItem t new) k b := by
  by_cases hk : k = new.key
  · exact ⟨v, new, by rw [hk]; exact lookupItem_putItem_same t new, hv⟩
  · obtain ⟨b, hb⟩ := h
    exact ⟨b, hasBalance_putItem_other t new k b hk hb⟩

theorem Transfer_debit_refused (t : Table) (src : String) (inp : TransferInput) (a bs bd : Int)
    (ha : inp.Amount = some a)
    (hs : hasBalance t ⟨src, inp.SrcAccountType⟩ bs)
    (hd : hasBalance t ⟨inp.DestAccountID, inp.DestAccountType⟩ bd)
    (hne : (⟨src, inp.SrcAccountType⟩ : AccountKey) ≠ ⟨inp.DestAccountID, inp.DestAccountType⟩)
    (hlt : bs < a) :
    Transfer t none src inp = (t, debitRefused) := by
  obtain ⟨its, hits, hbs⟩ := hs
  obtain ⟨itd, hitd, hbd⟩ := hd
  have hes := evalUpdate_src t src inp a ⟨src, inp.SrcAccountType⟩
  have hed := evalUpdate_dest t inp a ⟨inp.DestAccountID, inp.DestAccountType⟩
  have hnle : ¬ a ≤ bs := by omega
  simp only [hits, hbs, hnle, if_false] at hes
  simp only [hitd, hbd] at hed
  rw [Transfer_spec t src inp a ha (lookupItem_valid hits) (lookupItem_valid hitd)]
  simp only [hne, if_false, hes, hed, passed, Bool.false_and, Bool.false_eq_true, reasonOf]
  have hc : ¬ codeConditionalCheckFailed = ConditionalCheckFailedException.ErrorCode := by
    decide
  have hn : ¬ codeNone = ConditionalCheckFailedException.ErrorCode := by decide
  simp [transferCanceled, hc, hn, debitRefused]

theorem applyTransfers_refused (t : Table) (src srcType : String) (a bs : Int)
    (inps : List TransferInput)
    (hs : hasBalance t ⟨src, srcType⟩ bs) (hlt : bs < a)
    (hin : ∀ inp ∈ inps, inp.SrcAccountType = srcType ∧ inp.Amount = some a ∧
      (⟨src, srcType⟩ : AccountKey) ≠ ⟨inp.DestAccountID, inp.DestAccountType⟩ ∧
      ∃ b, hasBalance t ⟨inp.DestAccountID, inp.DestAccountType⟩ b) :
    applyTransfers t src inps = (t, List.replicate inps.length debitRefused) := by
  induction inps with
  | nil => rfl
  | cons inp rest ih =>
    obtain ⟨hty, ha, hne, bd, hd⟩ := hin inp (List.mem_cons_self _ _)
    have hstep : Transfer t none src inp = (t, debitRefused) := by
      apply Transfer_debit_refused t src inp a bs bd ha _ hd _ hlt
      · rw [hty]; exact hs
      · rw [hty]; exact hne
    have hrest := ih (fun i hi => hin i (List.mem_cons_of_mem _ hi))
    simp only [applyTransfers, hstep, hrest, List.length_cons, List.replicate_succ]

/-- C14, the part the code keeps: from a source with balance `B > 0`, transfers
of `B` each to existing accounts other than the source, applied one after
another in any order: the first returns nil, every later one fails and changes
nothing, and the source ends at 0.  The later ones do not fail with
`InsufficientFundsError`: each returns the cancelled transaction of the store,
because the reason code `ConditionalCheckFailed` is compared with
`ConditionalCheckFailedException`. -/
theorem drained_source_refuses_transfers (t : Table) (srcAccountID srcType : String) (B : Int)
    (inp : TransferInput) (rest : List TransferInput)
    (hB : 0 < B) (hsrc : hasBalance t ⟨srcAccountID, srcType⟩ B)
    (hin : ∀ i ∈ inp :: rest, i.SrcAccountType = srcType ∧ i.Amount = some B ∧
      (⟨srcAccountID, srcType⟩ : AccountKey) ≠ ⟨i.DestAccountID, i.DestAccountType⟩ ∧
      ∃ b, hasBalance t ⟨i.DestAccountID, i.DestAccountType⟩ b) :
    (applyTransfers t srcAccountID (inp :: rest)).2 =
      .ok () :: List.replicate rest.length debitRefused ∧
    hasBalance (applyTransfers t srcAccountID (inp :: rest)).1 ⟨srcAccountID, srcType⟩ 0 ∧
    (∀ x y, debitRefused ≠ .error (.InsufficientFundsError x y)) := by
  obtain ⟨hty, ha, hne, bd, hd⟩ := hin inp (List.mem_cons_self _ _)
  obtain ⟨its, hits, hbs⟩ := hsrc
  obtain ⟨itd, hitd, hbd⟩ := hd
  rw [← hty] at hits hne
  have hstep := Transfer_success_table t srcAccountID inp B B bd its itd ha hits hbs hitd hbd
    hne (le_refl B)
  have hks := lookupItem_key hits
  have hkd := lookupItem_key hitd
  have hsrc1 : hasBalance (Transfer t none srcAccountID inp).1 ⟨srcAccountID, srcType⟩ 0 := by
    rw [hstep, ← hty]
    apply hasBalance_putItem_other
    · simpa [hkd] using hne
    · have := hasBalance_after_update t its _ _ (B - B) hks rfl
      simpa using this
  have hrun := applyTransfers_refused (Transfer t none srcAccountID inp).1 srcAccountID srcType
    B 0 rest hsrc1 hB (by
      intro i hi
      obtain ⟨h1, h2, h3, h4⟩ := hin i (List.mem_cons_of_mem _ hi)
      refine ⟨h1, h2, h3, ?_⟩
      rw [hstep]
      apply exists_hasBalance_putItem _ _ _ (bd + B) (get_balance_setAttr itd _)
      exact exists_hasBalance_putItem _ _ _ (B - B) (get_balance_setAttr its _) h4)
  refine ⟨?_, ?_, ?_⟩
  · simp only [applyTransfers, hrun]
    rw [hstep]
  · simp only [applyTransfers, hrun]
    exact hsrc1
  · intro x y
    simp [debitRefused]

/-- C14 with three transfers of the whole balance 100 from the savings account
of owner 123: one nil, two cancelled transactions handed on, balance 0. -/
theorem drained_source_refuses_transfers_witness :
    (applyTransfers exampleTable "123" [toChecking 100, toChecking 100, toChecking 100]).2 =
      .ok () :: List.replicate 2 debitRefused ∧
    hasBalance
      (applyTransfers exampleTable "123" [toChecking 100, toChecking 100, toChecking 100]).1
      ⟨"123", "savings"⟩ 0 ∧
    (∀ x y, debitRefused ≠ .error (.InsufficientFundsError x y)) :=
  drained_source_refuses_transfers exampleTable "123" "savings" 100 (toChecking 100)
    [toChecking 100, toChecking 100] (by decide) ⟨_, rfl, rfl⟩
    (by
      intro i hi
      simp only [List.mem_cons, List.mem_singleton, List.not_mem_nil, or_false, or_self] at hi
      subst hi
      exact ⟨rfl, rfl, by decide, 10, _, rfl, rfl⟩)


/-- C17: encoding and decoding an account identity are inverse.  For every key,
of any two strings, decoding its item returns the key with no error, and the
item holds `AccountId` and `AccountType` as the key's strings and no other
attribute. -/
theorem account_key_round_trip (k : AccountKey) :
    NewAccountKeyFromItem k.toAccountItem = .ok k ∧
    k.toAccountItem =
      [(accountIDAttr, .S k.AccountID), (accountTypeAttr, .S k.AccountType)] ∧
    (∀ name, k.toAccountItem.lookup name =
      if name = accountIDAttr then some (.S k.AccountID)
      else if name = accountTypeAttr then some (.S k.AccountType)
      else none) := by
  refine ⟨?_, rfl, ?_⟩
  · simp [NewAccountKeyFromItem, AccountKey.toAccountItem, List.lookup, accountIDAttr,
      accountTypeAttr]
  · intro name
    by_cases h1 : name = accountIDAttr
    · simp [AccountKey.toAccountItem, List.lookup, h1]
    · by_cases h2 : name = accountTypeAttr
      · subst h2
        simp [AccountKey.toAccountItem, List.lookup, accountIDAttr, accountTypeAttr]
      · have e1 : (name == accountIDAttr) = false := by simpa using h1
        have e2 : (name == accountTypeAttr) = false := by simpa using h2
        simp [AccountKey.toAccountItem, List.lookup, h1, h2, e1, e2]

/-- C18: `NewAccountKeyFromItem` fails exactly when a key attribute is absent
or not a string.  The error is "accountID must be a string" exactly when
`AccountId` is not a string attribute of the item, "accountType must be a
string" exactly when `AccountId` is one and `AccountType` is not, and there is
no other error; with both present as strings it returns them; and two items that
agree on these two attributes decode alike. -/
theorem new_account_key_fails_iff (item : Item) :
    (NewAccountKeyFromItem item = .error (.New "accountID must be a string") ↔
      ¬ ∃ id, item.lookup accountIDAttr = some (.S id)) ∧
    (NewAccountKeyFromItem item = .error (.New "accountType must be a string") ↔
      (∃ id, item.lookup accountIDAttr = some (.S id)) ∧
        ¬ ∃ ty, item.lookup accountTypeAttr = some (.S ty)) ∧
    (∀ id ty, item.lookup accountIDAttr = some (.S id) →
      item.lookup accountTypeAttr = some (.S ty) →
      NewAccountKeyFromItem item = .ok { AccountID := id, AccountType := ty }) ∧
    (∀ err, NewAccountKeyFromItem item = .error err →
      err = .New "accountID must be a string" ∨ err = .New "accountType must be a string") ∧
    (∀ other : Item, other.lookup accountIDAttr = item.lookup accountIDAttr →
      other.lookup accountTypeAttr = item.lookup accountTypeAttr →
      NewAccountKeyFromItem other = NewAccountKeyFromItem item) := by
  refine ⟨?_, ?_, ?_, ?_, ?_⟩
  · unfold NewAccountKeyFromItem
    cases h1 : item.lookup accountIDAttr with
    | none => simp
    | some v =>
      cases v with
      | S id =>
        cases h2 : item.lookup accountTypeAttr with
        | none => simp
        | some w => cases w <;> simp
      | N x => simp
      | BOOL x => simp
      | NULL => simp
  · unfold NewAccountKeyFromItem
    cases h1 : item.lookup accountIDAttr with
    | none => simp
    | some v =>
      cases v with
      | S id =>
        cases h2 : item.lookup accountTypeAttr with
        | none => simp
        | some w => cases w <;> simp
      | N x => simp
      | BOOL x => simp
      | NULL => simp
  · intro id ty h1 h2
    simp [NewAccountKeyFromItem, h1, h2]
  · intro err
    unfold NewAccountKeyFromItem
    cases h1 : item.lookup accountIDAttr with
    | none => simp; intro h; exact Or.inl h.symm
    | some v =>
      cases v with
      | S id =>
        cases h2 : item.lookup accountTypeAttr with
        | none => simp; intro h; exact Or.inr h.symm
        | some w => cases w <;> simp <;> intro h <;> exact Or.inr h.symm
      | N x => simp; intro h; exact Or.inl h.symm
      | BOOL x => simp; intro h; exact Or.inl h.symm
      | NULL => simp; intro h; exact Or.inl h.symm
  · intro other h1 h2
    simp only [NewAccountKeyFromItem, h1, h2]

/-- C18 on three items: one without `AccountId`, one whose `AccountType` is a
number, and one with both strings and a balance besides. -/
theorem new_account_key_fails_iff_witness :
    NewAccountKeyFromItem [(accountTypeAttr, .S "savings")] =
      .error (.New "accountID must be a string") ∧
    NewAccountKeyFromItem [(accountIDAttr, .S "123"), (accountTypeAttr, .N "7")] =
      .error (.New "accountType must be a string") ∧
    NewAccountKeyFromItem
        [(balanceAttr, .N "5"), (accountIDAttr, .S "123"), (accountTypeAttr, .S "savings")] =
      .ok { AccountID := "123", AccountType := "savings" } :=
  ⟨(new_account_key_fails_iff [(accountTypeAttr, .S "savings")]).1.mpr
      (by rintro ⟨id, h⟩; simp [List.lookup, accountIDAttr, accountTypeAttr] at h),
   (new_account_key_fails_iff
      [(accountIDAttr, .S "123"), (accountTypeAttr, .N "7")]).2.1.mpr
      ⟨⟨"123", rfl⟩,
        by rintro ⟨ty, h⟩; simp [List.lookup, accountIDAttr, accountTypeAttr] at h⟩,
   (new_account_key_fails_iff
      [(balanceAttr, .N "5"), (accountIDAttr, .S "123"),
        (accountTypeAttr, .S "savings")]).2.2.1 "123" "savings" rfl rfl⟩


theorem CreateAccount_request (t : Table) (fault : Option StoreError) (id ty : String)
    (n : Int) :
    CreateAccount t fault id { AccountType := ty, InitialBalance := some n } =
      match PutItem t fault (createAccountRequest id ty n) with
      | (ddb1, .error err) =>
        match err with
        | .ConditionalCheckFailedException =>
          (ddb1, .error (.AccountAlreadyExistsError id ty))
        | _ => (ddb1, .error (.Store err))
      | (ddb1, .ok _) => (ddb1, .ok ()) := rfl

theorem DeleteAccount_request (t : Table) (fault : Option StoreError) (id ty : String) :
    DeleteAccount t fault id { AccountType := ty } =
      match DeleteItem t fault (deleteAccountRequest id ty) with
      | (ddb1, .error err) =>
        match err with
        | .ConditionalCheckFailedException => (ddb1, .error (.NonZeroBalanceError id ty))
        | _ => (ddb1, .error (.Store err))
      | (ddb1, .ok _) => (ddb1, .ok ()) := rfl

theorem Transfer_request (t : Table) (fault : Option StoreError) (src : String)
    (inp : TransferInput) (a : Int) (ha : inp.Amount = some a) :
    Transfer t fault src inp =
      match TransactWriteItems t fault (transferRequest src inp a) with
      | (ddb1, .error err) =>
        match err with
        | .TransactionCanceledException reasons =>
          (ddb1, transferCanceled err reasons inp)
        | _ => (ddb1, .error (.Store err))
      | (ddb1, .ok _) => (ddb1, .ok ()) := by
  simp only [Transfer, ha, transferRequest]

theorem ListAccounts_request (t : Table) (fault : Option StoreError) (id : String)
    (inp : ListAccountsInput) :
    ListAccounts t fault id inp =
      match Query t fault (listAccountsRequest id inp) with
      | (ddb1, .error err) => (ddb1, .error (.Store err))
      | (ddb1, .ok output) => (ddb1, decodePage output) := rfl

theorem ListAccountsAdmin_request (t : Table) (fault : Option StoreError)
    (inp : ListAccountsInput) :
    ListAccountsAdmin t fault inp =
      match Scan t fault (listAccountsAdminRequest inp) with
      | (ddb1, .error err) => (ddb1, .error (.Store err))
      | (ddb1, .ok output) => (ddb1, decodePage output) := rfl

/-- C19, as stated, fails for `Transfer`: a cancelled transaction that lists no
reasons has no reason with the tested code, yet `Transfer` does not return it;
it indexes reason 0 and the call ends in a run-time failure. -/
theorem transfer_bare_cancellation_counterexample :
    (TransactWriteItems exampleTable (some (.TransactionCanceledException []))
      (transferRequest "123" (toChecking 30) 30)).2 =
      .error (.TransactionCanceledException []) ∧
    ¬ flagged [] ∧
    (Transfer exampleTable (some (.TransactionCanceledException [])) "123"
      (toChecking 30)).2 = .panicked ∧
    (Transfer exampleTable (some (.TransactionCanceledException [])) "123"
      (toChecking 30)).2 ≠ .error (.Store (.TransactionCanceledException [])) := by
  refine ⟨rfl, ?_, by decide, by decide⟩
  simp [flagged]

/-- C19, amended: store errors pass through unchanged.  When the store call of
an operation returns an error that the operation does not classify, the
operation returns that very error: for `CreateAccount` and `DeleteAccount` any
error but `ConditionalCheckFailedException`; for `Transfer` any error that is
not a cancelled transaction, and a cancelled transaction whose first two
reasons have codes, neither of them the tested one; for `GetBalance`,
`ListAccounts` and `ListAccountsAdmin` any error. -/
theorem store_errors_pass_through (t : Table) (fault : Option StoreError) (e : StoreError) :
    (∀ id ty n, (PutItem t fault (createAccountRequest id ty n)).2 = .error e →
      e ≠ .ConditionalCheckFailedException →
      (CreateAccount t fault id { AccountType := ty, InitialBalance := some n }).2 =
        .error (.Store e)) ∧
    (∀ id ty, (DeleteItem t fault (deleteAccountRequest id ty)).2 = .error e →
      e ≠ .ConditionalCheckFailedException →
      (DeleteAccount t fault id { AccountType := ty }).2 = .error (.Store e)) ∧
    (∀ src inp a, inp.Amount = some a →
      (TransactWriteItems t fault (transferRequest src inp a)).2 = .error e →
      (∀ reasons, e = .TransactionCanceledException reasons →
        ¬ flagged reasons ∧
          ∃ c0 c1 rest, reasons = { Code := some c0 } :: { Code := some c1 } :: rest) →
      (Transfer t fault src inp).2 = .error (.Store e)) ∧
    (∀ id ty, (GetItem t fault (getBalanceRequest id ty)).2 = .error e →
      (GetBalance t fault id { AccountType := ty }).2 = .error (.Store e)) ∧
    (∀ id inp, (Query t fault (listAccountsRequest id inp)).2 = .error e →
      (ListAccounts t fault id inp).2 = .error (.Store e)) ∧
    (∀ inp, (Scan t fault (listAccountsAdminRequest inp)).2 = .error e →
      (ListAccountsAdmin t fault inp).2 = .error (.Store e)) := by
  refine ⟨?_, ?_, ?_, ?_, ?_, ?_⟩
  · intro id ty n h hne
    rw [CreateAccount_request]
    rcases hr : PutItem t fault (createAccountRequest id ty n) with ⟨t1, r⟩
    rw [hr] at h
    simp only at h
    subst h
    cases e <;> simp at hne ⊢
  · intro id ty h hne
    rw [DeleteAccount_request]
    rcases hr : DeleteItem t fault (deleteAccountRequest id ty) with ⟨t1, r⟩
    rw [hr] at h
    simp only at h
    subst h
    cases e <;> simp at hne ⊢
  · intro src inp a ha h hcl
    rw [Transfer_request t fault src inp a ha]
    rcases hr : TransactWriteItems t fault (transferRequest src inp a) with ⟨t1, r⟩
    rw [hr] at h
    simp only at h
    subst h
    cases e with
    | TransactionCanceledException reasons =>
      obtain ⟨hnf, c0, c1, rest, hrs⟩ := hcl reasons rfl
      subst hrs
      simp only [flagged, not_or, Option.some.injEq] at hnf
      simp [transferCanceled, hnf.1, hnf.2]
    | ConditionalCheckFailedException => rfl
    | ValidationException m => rfl
    | ResourceNotFoundException => rfl
    | Other m => rfl
  · intro id ty h
    rw [GetBalance_request]
    rcases hr : GetItem t fault (getBalanceRequest id ty) with ⟨t1, r⟩
    rw [hr] at h
    simp only at h
    subst h
    rfl
  · intro id inp h
    rw [ListAccounts_request]
    rcases hr : Query t fault (listAccountsRequest id inp) with ⟨t1, r⟩
    rw [hr] at h
    simp only at h
    subst h
    rfl
  · intro inp h
    rw [ListAccountsAdmin_request]
    rcases hr : Scan t fault (listAccountsAdminRequest inp) with ⟨t1, r⟩
    rw [hr] at h
    simp only at h
    subst h
    rfl

/-- C19 on a throttled store: the operations hand the error on; and `Transfer`
hands on the store's own refusal of a transfer onto the source itself. -/
theorem store_errors_pass_through_witness :
    (CreateAccount exampleTable (some (.Other "throttled")) "123"
      { AccountType := "savings", InitialBalance := some 5 }).2 =
      .error (.Store (.Other "throttled")) ∧
    (Transfer exampleTable (some (.Other "throttled")) "123" (toChecking 30)).2 =
      .error (.Store (.Other "throttled")) ∧
    (ListAccounts exampleTable (some (.Other "throttled")) "123"
      { ExclusiveStartKey := none, Limit := none }).2 =
      .error (.Store (.Other "throttled")) ∧
    (Transfer exampleTable none "123"
      { SrcAccountType := "savings", DestAccountID := "123", DestAccountType := "savings",
        Amount := some 30 }).2 =
      .error (.Store (.ValidationException
        "Transaction request cannot include multiple operations on one item")) :=
  ⟨(store_errors_pass_through exampleTable (some (.Other "throttled"))
      (.Other "throttled")).1 "123" "savings" 5 rfl (by decide),
   (store_errors_pass_through exampleTable (some (.Other "throttled"))
      (.Other "throttled")).2.2.1 "123" (toChecking 30) 30 rfl rfl
      (by intro rs h; cases h),
   (store_errors_pass_through exampleTable (some (.Other "throttled"))
      (.Other "throttled")).2.2.2.2.1 "123" _ rfl,
   (store_errors_pass_through exampleTable none
      (.ValidationException
        "Transaction request cannot include multiple operations on one item")).2.2.1
      "123" _ 30 rfl (by decide) (by intro rs h; cases h)⟩

/-- C20: `processError` of the create-account handler answers
`AccountAlreadyExistsError` with status 400 and the error's message, and
`processError` of the get-balance handler does so for
`AccountDoesNotExistError`; every error of the account manager that is not the
handler's domain error gets status 500 and the body "Internal error". -/
theorem process_error_statuses :
    (∀ id ty, CreateAccountHandler.processError (.manager (.AccountAlreadyExistsError id ty)) =
      { StatusCode := 400, Body := "The account " ++ id ++ ":" ++ ty ++ " already exists." }) ∧
    (∀ err, (∀ id ty, err ≠ .AccountAlreadyExistsError id ty) →
      CreateAccountHandler.processError (.manager err) =
        { StatusCode := 500, Body := "Internal error" }) ∧
    (∀ id ty, GetBalanceHandler.processError (.manager (.AccountDoesNotExistError id ty)) =
      { StatusCode := 400, Body := "The account " ++ id ++ ":" ++ ty ++ " does not exist." }) ∧
    (∀ err, (∀ id ty, err ≠ .AccountDoesNotExistError id ty) →
      GetBalanceHandler.processError (.manager err) =
        { StatusCode := 500, Body := "Internal error" }) := by
  refine ⟨fun _ _ => rfl, ?_, fun _ _ => rfl, ?_⟩
  · intro err h
    cases err with
    | AccountAlreadyExistsError id ty => exact absurd rfl (h id ty)
    | NonZeroBalanceError id ty => rfl
    | InsufficientFundsError id ty => rfl
    | AccountDoesNotExistError id ty => rfl
    | New s => rfl
    | NumError f n k => rfl
    | Store e => rfl
  · intro err h
    cases err with
    | AccountDoesNotExistError id ty => exact absurd rfl (h id ty)
    | NonZeroBalanceError id ty => rfl
    | InsufficientFundsError id ty => rfl
    | AccountAlreadyExistsError id ty => rfl
    | New s => rfl
    | NumError f n k => rfl
    | Store e => rfl

/-- C20 on the errors the handler tests use: the domain error gives 400 with
its message, a store failure gives 500 with the fixed body. -/
theorem process_error_statuses_witness :
    CreateAccountHandler.processError (.manager (.AccountAlreadyExistsError "123" "savings")) =
      { StatusCode := 400, Body := "The account 123:savings already exists." } ∧
    CreateAccountHandler.processError (.manager (.Store (.Other "throttled"))) =
      { StatusCode := 500, Body := "Internal error" } ∧
    GetBalanceHandler.processError (.manager (.New "balance must be a number")) =
      { StatusCode := 500, Body := "Internal error" } :=
  ⟨process_error_statuses.1 "123" "savings",
   process_error_statuses.2.1 _ (by intro id ty h; cases h),
   process_error_statuses.2.2.2 _ (by intro id ty h; cases h)⟩


/-! ## Listing -/

theorem projectItem_key (it : StoredItem) :
    projectItem it (some [accountIDAttr, accountTypeAttr]) = it.key.toAccountItem := by
  simp [projectItem, StoredItem.get, AccountKey.toAccountItem, StoredValue.toAttributeValue,
    accountIDAttr, accountTypeAttr]

theorem NewAccountKeyFromItem_toAccountItem (k : AccountKey) :
    NewAccountKeyFromItem k.toAccountItem = .ok k := by
  simp [NewAccountKeyFromItem, AccountKey.toAccountItem, List.lookup, accountIDAttr,
    accountTypeAttr]

theorem decodeItems_keys (l : List StoredItem) :
    decodeItems (l.map (fun it => projectItem it (some [accountIDAttr, accountTypeAttr]))) =
      .ok (l.map (fun it => it.key)) := by
  induction l with
  | nil => rfl
  | cons a rest ih =>
    simp only [List.map_cons, decodeItems, projectItem_key, NewAccountKeyFromItem_toAccountItem]
    simp only [projectItem_key] at ih
    rw [ih]

theorem decodePage_page (l : List StoredItem) (lek : Option AccountKey) :
    decodePage
        { Items := l.map (fun it => projectItem it (some [accountIDAttr, accountTypeAttr]))
          LastEvaluatedKey := lastEvaluatedKey lek } =
      .ok { Accounts := l.map (fun it => it.key)
            LastEvaluatedKey := lek.getD { AccountID := "", AccountType := "" } } := by
  unfold decodePage
  rw [decodeItems_keys]
  cases lek with
  | none => simp [lastEvaluatedKey]
  | some k =>
    have hk : NewAccountKeyFromItem (lastEvaluatedKey (some k)) = .ok k :=
      NewAccountKeyFromItem_toAccountItem k
    simp only [hk]
    simp [lastEvaluatedKey]

theorem startKey_exclusiveStartKey (c : Option AccountKey)
    (hc : ∀ k, c = some k → validKey k) :
    startKey (exclusiveStartKey c) = some c := by
  cases c with
  | none => rfl
  | some k =>
    have hk : keyOfItem k.toAccountItem = some k := keyOfItem_pair _ _ _ (hc k rfl)
    have hl : ¬ k.toAccountItem.length = 0 := by simp [AccountKey.toAccountItem]
    simp only [startKey, exclusiveStartKey, hk, hl, if_false, Option.map_some']

theorem startKey_invalid (k : AccountKey) (hk : ¬ validKey k) :
    startKey (exclusiveStartKey (some k)) = none := by
  have hn : keyOfItem k.toAccountItem = none := keyOfItem_pair_invalid _ _ _ hk
  have hl : ¬ k.toAccountItem.length = 0 := by simp [AccountKey.toAccountItem]
  simp only [startKey, exclusiveStartKey, hn, hl, if_false, Option.map_none']

theorem ListAccounts_invalid_cursor (t : Table) (id : String) (k : AccountKey)
    (lim : Option Int) (hk : ¬ validKey k) :
    ListAccounts t none id { ExclusiveStartKey := some k, Limit := lim } =
      (t, .error (.Store (.ValidationException "invalid request"))) := by
  have hp : partitionOf [(":id", AttributeValue.S id)]
      (.eq (.path accountIDAttr) (.value ":id")) = some id := by
    simp [partitionOf, List.lookup]
  rw [ListAccounts_request]
  simp only [Query, listAccountsRequest, hp, startKey_invalid k hk, ne_eq,
    not_true_eq_false, if_false]

theorem ListAccountsAdmin_invalid_cursor (t : Table) (k : AccountKey)
    (lim : Option Int) (hk : ¬ validKey k) :
    ListAccountsAdmin t none { ExclusiveStartKey := some k, Limit := lim } =
      (t, .error (.Store (.ValidationException "invalid request"))) := by
  rw [ListAccountsAdmin_request]
  simp only [Scan, listAccountsAdminRequest, startKey_invalid k hk, ne_eq,
    not_true_eq_false, if_false]

theorem ListAccounts_spec (t : Table) (id : String) (c : Option AccountKey)
    (lim : Option Int) (hc : ∀ k, c = some k → validKey k) :
    ListAccounts t none id { ExclusiveStartKey := c, Limit := lim } =
      if (∃ n, lim = some n ∧ n < 1) then
        (t, .error (.Store (.ValidationException "Limit must be at least 1")))
      else if (∃ k, c = some k ∧ k.AccountID ≠ id) then
        (t, .error (.Store (.ValidationException
          "The provided starting key is outside query boundaries based on provided conditions")))
      else
        (t, .ok
          { Accounts := (takePage lim (afterStart c ((storeOrder t).filter
              (fun it => decide (it.key.AccountID = id))))).1.map (fun it => it.key)
            LastEvaluatedKey := (takePage lim (afterStart c ((storeOrder t).filter
              (fun it => decide (it.key.AccountID = id))))).2.getD
                { AccountID := "", AccountType := "" } }) := by
  have hp : partitionOf [(":id", AttributeValue.S id)]
      (.eq (.path accountIDAttr) (.value ":id")) = some id := by
    simp [partitionOf, List.lookup]
  rw [ListAccounts_request]
  simp only [Query, listAccountsRequest, hp, startKey_exclusiveStartKey c hc, ne_eq,
    not_true_eq_false, if_false]
  by_cases h1 : ∃ n, lim = some n ∧ n < 1
  · simp only [h1, if_true]
  · simp only [h1, if_false]
    by_cases h2 : ∃ k, c = some k ∧ ¬ k.AccountID = id
    · simp only [h2, if_true]
    · simp only [h2, if_false, decodePage_page]

theorem ListAccountsAdmin_spec (t : Table) (c : Option AccountKey) (lim : Option Int)
    (hc : ∀ k, c = some k → validKey k) :
    ListAccountsAdmin t none { ExclusiveStartKey := c, Limit := lim } =
      if (∃ n, lim = some n ∧ n < 1) then
        (t, .error (.Store (.ValidationException "Limit must be at least 1")))
      else
        (t, .ok
          { Accounts := (takePage lim (afterStart c (storeOrder t))).1.map (fun it => it.key)
            LastEvaluatedKey := (takePage lim (afterStart c (storeOrder t))).2.getD
              { AccountID := "", AccountType := "" } }) := by
  rw [ListAccountsAdmin_request]
  simp only [Scan, listAccountsAdminRequest, startKey_exclusiveStartKey c hc, ne_eq,
    not_true_eq_false, if_false]
  by_cases h1 : ∃ n, lim = some n ∧ n < 1
  · simp only [h1, if_true]
  · simp only [h1, if_false, decodePage_page]

theorem mem_takePage {lim : Option Int} {items : List StoredItem} {x : StoredItem}
    (h : x ∈ (takePage lim items).1) : x ∈ items := by
  unfold takePage at h
  cases lim with
  | none => exact h
  | some n =>
    simp only at h
    split at h
    · exact h
    · exact List.mem_of_mem_take h

theorem mem_afterStart {c : Option AccountKey} {items : List StoredItem} {x : StoredItem}
    (h : x ∈ afterStart c items) : x ∈ items := by
  cases c with
  | none => exact h
  | some k => exact (List.mem_filter.mp h).1

theorem mem_storeOrder {t : Table} {x : StoredItem} : x ∈ storeOrder t ↔ x ∈ t :=
  (List.perm_insertionSort _ t).mem_iff

theorem ListAccounts_fault (t : Table) (e : StoreError) (id : String)
    (inp : ListAccountsInput) : ListAccounts t (some e) id inp = (t, .error (.Store e)) := rfl

theorem ListAccountsAdmin_fault (t : Table) (e : StoreError) (inp : ListAccountsInput) :
    ListAccountsAdmin t (some e) inp = (t, .error (.Store e)) := rfl

theorem keyRank_injective {a b : AccountKey} (h : keyRank a = keyRank b) : a = b := by
  obtain ⟨a1, a2⟩ := a
  obtain ⟨b1, b2⟩ := b
  have h2 : (a1.data, a2.data) = (b1.data, b2.data) := h
  simp only [Prod.mk.injEq] at h2
  have e1 : a1 = b1 := String.ext h2.1
  have e2 : a2 = b2 := String.ext h2.2
  rw [e1, e2]

theorem storeOrder_strict (t : Table) (h : (t.map (fun it => it.key)).Nodup) :
    (storeOrder t).Pairwise (fun a b => keyRank a.key < keyRank b.key) := by
  haveI : IsTotal StoredItem (fun a b => keyRank a.key ≤ keyRank b.key) :=
    ⟨fun a b => le_total _ _⟩
  haveI : IsTrans StoredItem (fun a b => keyRank a.key ≤ keyRank b.key) :=
    ⟨fun a b c hab hbc => le_trans hab hbc⟩
  have hsorted : (storeOrder t).Pairwise (fun a b => keyRank a.key ≤ keyRank b.key) :=
    List.sorted_insertionSort _ t
  have hperm : (storeOrder t).Perm t := List.perm_insertionSort _ t
  have hnd : ((storeOrder t).map (fun it => it.key)).Nodup :=
    (hperm.map _).nodup_iff.mpr h
  have hne : (storeOrder t).Pairwise (fun a b => a.key ≠ b.key) := by
    have := hnd
    unfold List.Nodup at this
    rwa [List.pairwise_map] at this
  exact (hsorted.and hne).imp (fun {a b} hab =>
    lt_of_le_of_ne hab.1 (fun e => hab.2 (keyRank_injective e)))

theorem filter_after_last (R : List StoredItem) (m : Nat) (x : StoredItem)
    (hR : R.Pairwise (fun a b => keyRank a.key < keyRank b.key))
    (hx : (R.take m).getLast? = some x) :
    R.filter (fun it => decide (keyRank x.key < keyRank it.key)) = R.drop m := by
  obtain ⟨init, hinit⟩ := List.getLast?_eq_some_iff.mp hx
  have hsplit : R = (init ++ [x]) ++ R.drop m := by
    rw [← hinit]; exact (List.take_append_drop m R).symm
  have hR2 := hR
  rw [hsplit, List.pairwise_append] at hR2
  obtain ⟨htake, _, hcross⟩ := hR2
  rw [List.pairwise_append] at htake
  obtain ⟨_, _, hinitx⟩ := htake
  have hx_mem : x ∈ init ++ [x] := by simp
  conv_lhs => rw [hsplit]
  rw [List.filter_append]
  have h1 : (init ++ [x]).filter (fun it => decide (keyRank x.key < keyRank it.key)) = [] := by
    rw [List.filter_eq_nil_iff]
    intro a ha
    simp only [decide_eq_true_eq, not_lt]
    rcases List.mem_append.mp ha with hi | hl
    · exact le_of_lt (hinitx a hi x (by simp))
    · simp only [List.mem_singleton] at hl
      rw [hl]
  have h2 : (R.drop m).filter (fun it => decide (keyRank x.key < keyRank it.key)) =
      R.drop m := by
    rw [List.filter_eq_self]
    intro b hb
    simpa using hcross x hx_mem b hb
  rw [h1, h2, List.nil_append]

theorem afterStart_narrow (S : List StoredItem) (c : Option AccountKey) (x : StoredItem)
    (hx : x ∈ afterStart c S) :
    afterStart (some x.key) S =
      (afterStart c S).filter (fun it => decide (keyRank x.key < keyRank it.key)) := by
  cases c with
  | none => rfl
  | some k =>
    have hkx : keyRank k < keyRank x.key := by
      have := (List.mem_filter.mp hx).2
      simpa using this
    simp only [afterStart, List.filter_filter]
    apply List.filter_congr
    intro it _
    by_cases h : keyRank x.key < keyRank it.key
    · simp [h, lt_trans hkx h]
    · simp [h]

theorem afterStart_strict (S : List StoredItem) (c : Option AccountKey)
    (hS : S.Pairwise (fun a b => keyRank a.key < keyRank b.key)) :
    (afterStart c S).Pairwise (fun a b => keyRank a.key < keyRank b.key) := by
  cases c with
  | none => exact hS
  | some k => exact hS.filter _

theorem pageThrough_complete
    (list : Table → ListAccountsInput → Table × Outcome ListAccountsOutput)
    (t : Table) (S : List StoredItem) (n : Int) (valid : Option AccountKey → Prop)
    (hn : 1 ≤ n)
    (hS : S.Pairwise (fun a b => keyRank a.key < keyRank b.key))
    (hne : ∀ it ∈ S, it.key ≠ { AccountID := "", AccountType := "" })
    (hvalid : ∀ it ∈ S, valid (some it.key))
    (hlist : ∀ c, valid c →
      list t { ExclusiveStartKey := c, Limit := some n } =
        (t, .ok
          { Accounts := (takePage (some n) (afterStart c S)).1.map (fun it => it.key)
            LastEvaluatedKey := (takePage (some n) (afterStart c S)).2.getD
              { AccountID := "", AccountType := "" } })) :
    ∀ calls c, valid c → (afterStart c S).length < calls →
      pageThrough list (some n) calls t c = some ((afterStart c S).map (fun it => it.key)) := by
  intro calls
  induction calls with
  | zero => intro c _ h; omega
  | succ calls ih =>
    intro c hv hlen
    have hm : 1 ≤ n.toNat := by omega
    unfold pageThrough
    rw [hlist c hv]
    simp only [takePage]
    by_cases hshort : (afterStart c S).length < n.toNat
    · simp [hshort]
    · simp only [hshort, if_false]
      have hpos : 0 < ((afterStart c S).take n.toNat).length := by
        rw [List.length_take]; omega
      obtain ⟨x, hx⟩ : ∃ x, ((afterStart c S).take n.toNat).getLast? = some x := by
        cases hlast : ((afterStart c S).take n.toNat).getLast? with
        | none =>
          rw [List.getLast?_eq_none_iff] at hlast
          rw [hlast] at hpos
          simp at hpos
        | some x => exact ⟨x, rfl⟩
      have hxtake : x ∈ (afterStart c S).take n.toNat := List.mem_of_getLast?_eq_some hx
      have hxR : x ∈ afterStart c S := List.mem_of_mem_take hxtake
      have hxS : x ∈ S := mem_afterStart hxR
      have hnext : afterStart (some x.key) S = (afterStart c S).drop n.toNat := by
        rw [afterStart_narrow S c x hxR]
        exact filter_after_last _ _ x (afterStart_strict S c hS) hx
      have hrec := ih (some x.key) (hvalid x hxS) (by
        rw [hnext, List.length_drop]; omega)
      simp only [hx, Option.map_some', Option.getD_some, hne x hxS, if_false, hrec, hnext]
      rw [← List.map_append, List.take_append_drop]

/-- C15: a listing for an owner returns only that owner's accounts.  For every
table, reply of the store, owner, cursor and limit, each key in the `Accounts`
of a `ListAccounts` that succeeds has the owner as `AccountID` and is the key of
a record of the table. -/
theorem list_accounts_owner_only (t : Table) (fault : Option StoreError) (accountID : String)
    (inp : ListAccountsInput) (t1 : Table) (out : ListAccountsOutput)
    (h : ListAccounts t fault accountID inp = (t1, .ok out)) :
    ∀ k ∈ out.Accounts, k.AccountID = accountID ∧ ∃ it ∈ t, it.key = k := by
  cases fault with
  | some e => rw [ListAccounts_fault] at h; simp at h
  | none =>
    obtain ⟨c, lim⟩ := inp
    have hc : ∀ k, c = some k → validKey k := by
      intro k hk
      by_contra hv
      rw [hk, ListAccounts_invalid_cursor t accountID k lim hv] at h
      simp at h
    rw [ListAccounts_spec t accountID c lim hc] at h
    split at h
    · simp at h
    · split at h
      · simp at h
      · simp only [Prod.mk.injEq, Outcome.ok.injEq] at h
        obtain ⟨_, hout⟩ := h
        intro k hk
        rw [← hout] at hk
        simp only [List.mem_map] at hk
        obtain ⟨it, hit, rfl⟩ := hk
        have hmem := mem_afterStart (mem_takePage hit)
        rw [List.mem_filter] at hmem
        exact ⟨by simpa using hmem.2, it, mem_storeOrder.mp hmem.1, rfl⟩

/-- C15 on a table with accounts of two owners: the listing for owner 123
succeeds and every key it returns belongs to owner 123. -/
theorem list_accounts_owner_only_witness :
    ListAccounts mixedTable none "123" { ExclusiveStartKey := none, Limit := some 5 } =
      (mixedTable, .ok
        { Accounts := [⟨"123", "checking"⟩, ⟨"123", "savings"⟩]
          LastEvaluatedKey := ⟨"", ""⟩ }) ∧
    ∀ k ∈ [(⟨"123", "checking"⟩ : AccountKey), ⟨"123", "savings"⟩],
      k.AccountID = "123" ∧ ∃ it ∈ mixedTable, it.key = k :=
  have h : ListAccounts mixedTable none "123" { ExclusiveStartKey := none, Limit := some 5 } =
      (mixedTable, .ok
        { Accounts := [⟨"123", "checking"⟩, ⟨"123", "savings"⟩]
          LastEvaluatedKey := ⟨"", ""⟩ }) := by decide
  ⟨h, list_accounts_owner_only mixedTable none "123"
    { ExclusiveStartKey := none, Limit := some 5 } mixedTable _ h⟩

/-- C16: paging through a listing returns every record in scope exactly once.
On a table as DynamoDB keeps it (one item per key, no empty key attribute), with
any positive limit, a caller that starts without cursor and calls again with
the returned `LastEvaluatedKey` until it comes back empty is done after at most
one call more than there are records, and the pages together hold the key of
every record once: of all records for `ListAccountsAdmin`, of the owner's
records for `ListAccounts`. -/
theorem paging_lists_every_record_once (t : Table) (n : Int) (accountID : String)
    (hinv : storeInvariant t) (hn : 0 < n) :
    (∃ keys,
      pageThrough (fun t1 inp => ListAccountsAdmin t1 none inp) (some n) (t.length + 1) t none =
        some keys ∧
      keys.Perm (t.map (fun it => it.key)) ∧ keys.Nodup) ∧
    (∃ keys,
      pageThrough (fun t1 inp => ListAccounts t1 none accountID inp) (some n) (t.length + 1)
        t none = some keys ∧
      keys.Perm ((t.filter (fun it => decide (it.key.AccountID = accountID))).map
        (fun it => it.key)) ∧ keys.Nodup) := by
  obtain ⟨hnd, hkeys⟩ := hinv
  have hstrict := storeOrder_strict t hnd
  have hperm : (storeOrder t).Perm t := List.perm_insertionSort _ t
  have hnolim : ¬ ∃ m, some n = some m ∧ m < 1 := by
    rintro ⟨m, hm, hlt⟩
    simp only [Option.some.injEq] at hm
    omega
  have hnonempty : ∀ it ∈ storeOrder t,
      it.key ≠ ({ AccountID := "", AccountType := "" } : AccountKey) := by
    intro it hit hk
    have := (hkeys it (mem_storeOrder.mp hit)).1
    rw [hk] at this
    exact this rfl
  refine ⟨⟨(storeOrder t).map (fun it => it.key), ?_, ?_, ?_⟩,
    ⟨((storeOrder t).filter (fun it => decide (it.key.AccountID = accountID))).map
      (fun it => it.key), ?_, ?_, ?_⟩⟩
  · exact pageThrough_complete (fun t1 inp => ListAccountsAdmin t1 none inp) t (storeOrder t) n
      (fun c => ∀ k, c = some k → validKey k) (by omega) hstrict hnonempty
      (by
        intro it _ k hk
        simp only [Option.some.injEq] at hk
        rw [← hk]
        exact it.valid)
      (by
        intro c hc
        simp only [ListAccountsAdmin_spec t c (some n) hc, hnolim, if_false])
      (t.length + 1) none (by intro k hk; cases hk)
      (by simp only [afterStart]; rw [hperm.length_eq]; omega)
  · exact hperm.map _
  · exact (hperm.map _).nodup_iff.mpr hnd
  · exact pageThrough_complete (fun t1 inp => ListAccounts t1 none accountID inp) t
      ((storeOrder t).filter (fun it => decide (it.key.AccountID = accountID))) n
      (fun c => ∀ k, c = some k → k.AccountID = accountID ∧ validKey k) (by omega)
      (hstrict.filter _)
      (fun it hit => hnonempty it (List.mem_filter.mp hit).1)
      (by
        intro it hit k hk
        simp only [Option.some.injEq] at hk
        rw [← hk]
        exact ⟨by simpa using (List.mem_filter.mp hit).2, it.valid⟩)
      (by
        intro c hc
        have hown : ¬ ∃ k, c = some k ∧ k.AccountID ≠ accountID := by
          rintro ⟨k, hk, hne⟩
          exact hne (hc k hk).1
        simp only [ListAccounts_spec t accountID c (some n) (fun k hk => (hc k hk).2),
          hnolim, hown, if_false])
      (t.length + 1) none (by intro k hk; cases hk)
      (by
        simp only [afterStart]
        have h1 := List.length_filter_le (fun it => decide (it.key.AccountID = accountID))
          (storeOrder t)
        rw [hperm.length_eq] at h1
        omega)
  · exact (hperm.filter _).map _
  · exact ((hperm.filter _).map _).nodup_iff.mpr
      ((List.filter_sublist t).map _ |>.nodup hnd)

/-- C16 on four accounts of two owners with pages of one record: the admin
listing collects all four keys and the listing of owner 456 its two, each
once. -/
theorem paging_lists_every_record_once_witness :
    (∃ keys,
      pageThrough (fun t1 inp => ListAccountsAdmin t1 none inp) (some 1)
        (mixedTable.length + 1) mixedTable none = some keys ∧
      keys.Perm (mixedTable.map (fun it => it.key)) ∧ keys.Nodup) ∧
    (∃ keys,
      pageThrough (fun t1 inp => ListAccounts t1 none "456" inp) (some 1)
        (mixedTable.length + 1) mixedTable none = some keys ∧
      keys.Perm ((mixedTable.filter (fun it => decide (it.key.AccountID = "456"))).map
        (fun it => it.key)) ∧ keys.Nodup) :=
  paging_lists_every_record_once mixedTable 1 "456"
    ⟨by decide, by decide⟩ (by decide)


/-! ## The order and the partial steps of the cancellation mapping -/

theorem transferCanceled_missing_inv (err : StoreError) (reasons : List CancellationReason)
    (inp : TransferInput) (x y : String)
    (h : transferCanceled err reasons inp = .error (.AccountDoesNotExistError x y)) :
    ∃ r0 c0 r1, reasons.get? 0 = some r0 ∧ r0.Code = some c0 ∧
      c0 ≠ ConditionalCheckFailedException.ErrorCode ∧ reasons.get? 1 = some r1 ∧
      r1.Code = some ConditionalCheckFailedException.ErrorCode := by
  unfold transferCanceled at h
  split at h
  · simp at h
  · rename_i r0 hr0
    split at h
    · simp at h
    · rename_i c0 hc0
      split at h
      · simp at h
      · rename_i hne
        split at h
        · simp at h
        · rename_i r1 hr1
          split at h
          · simp at h
          · rename_i c1 hc1
            split at h
            · rename_i he
              exact ⟨r0, c0, r1, hr0, hc0, hne, hr1, by rw [hc1, he]⟩
            · simp at h

theorem Transfer_both_refused (t : Table) (src : String) (inp : TransferInput) (a : Int)
    (ha : inp.Amount = some a)
    (hvs : validKey ⟨src, inp.SrcAccountType⟩)
    (hvd : validKey ⟨inp.DestAccountID, inp.DestAccountType⟩)
    (hne : (⟨src, inp.SrcAccountType⟩ : AccountKey) ≠ ⟨inp.DestAccountID, inp.DestAccountType⟩)
    (hs : lookupItem t ⟨src, inp.SrcAccountType⟩ = none ∨
      ∃ b, hasBalance t ⟨src, inp.SrcAccountType⟩ b ∧ b < a)
    (hd : lookupItem t ⟨inp.DestAccountID, inp.DestAccountType⟩ = none) :
    Transfer t none src inp =
      (t, .error (.Store (.TransactionCanceledException
        [{ Code := some codeConditionalCheckFailed },
         { Code := some codeConditionalCheckFailed }]))) := by
  have hes := evalUpdate_src t src inp a ⟨src, inp.SrcAccountType⟩
  have hed := evalUpdate_dest t inp a ⟨inp.DestAccountID, inp.DestAccountType⟩
  simp only [hd] at hed
  have hes2 : evalUpdate t (srcItemTransaction src inp a).Update ⟨src, inp.SrcAccountType⟩ =
      .error codeConditionalCheckFailed := by
    rcases hs with hnone | ⟨b, ⟨it, hit, hb⟩, hlt⟩
    · simpa only [hnone] using hes
    · have hnle : ¬ a ≤ b := by omega
      simpa only [hit, hb, hnle, if_false] using hes
  rw [Transfer_spec t src inp a ha hvs hvd]
  simp only [hne, if_false, hes2, hed, passed, Bool.false_and, Bool.false_eq_true, reasonOf]
  have hc : ¬ codeConditionalCheckFailed = ConditionalCheckFailedException.ErrorCode := by
    decide
  simp [transferCanceled, hc]

/-- C22 on the store as it is: when both predicates fail (the source is missing
or holds less than the amount, the destination is missing, the keys differ and
are keys the store accepts) the
store cancels with `ConditionalCheckFailed` for both, and `Transfer`, comparing
with `ConditionalCheckFailedException`, returns neither
`InsufficientFundsError` nor `AccountDoesNotExistError` but the cancelled
transaction; for a key the store does not accept it returns the store's
`ValidationException`.  The order of the two tests is as claimed: a reply that flags
reason 0 gives `InsufficientFundsError` whatever reason 1 says, and an
`AccountDoesNotExistError` is returned only for a reply whose reason 0 has a
code that is not the tested one and whose reason 1 has the tested one. -/
theorem transfer_tests_debit_first (t : Table) (srcAccountID : String) (inp : TransferInput) :
    (∀ amount, inp.Amount = some amount →
      validKey ⟨srcAccountID, inp.SrcAccountType⟩ →
      validKey ⟨inp.DestAccountID, inp.DestAccountType⟩ →
      (⟨srcAccountID, inp.SrcAccountType⟩ : AccountKey) ≠
        ⟨inp.DestAccountID, inp.DestAccountType⟩ →
      (lookupItem t ⟨srcAccountID, inp.SrcAccountType⟩ = none ∨
        ∃ b, hasBalance t ⟨srcAccountID, inp.SrcAccountType⟩ b ∧ b < amount) →
      lookupItem t ⟨inp.DestAccountID, inp.DestAccountType⟩ = none →
      Transfer t none srcAccountID inp =
        (t, .error (.Store (.TransactionCanceledException
          [{ Code := some codeConditionalCheckFailed },
           { Code := some codeConditionalCheckFailed }])))) ∧
    (∀ amount, inp.Amount = some amount →
      ¬ (validKey ⟨srcAccountID, inp.SrcAccountType⟩ ∧
        validKey ⟨inp.DestAccountID, inp.DestAccountType⟩) →
      Transfer t none srcAccountID inp =
        (t, .error (.Store (.ValidationException "invalid key")))) ∧
    (∀ x y, (Transfer t none srcAccountID inp).2 ≠ .error (.InsufficientFundsError x y)) ∧
    (∀ amount r1 rest, inp.Amount = some amount →
      Transfer t (some (.TransactionCanceledException
          ({ Code := some ConditionalCheckFailedException.ErrorCode } :: r1 :: rest)))
        srcAccountID inp =
        (t, .error (.InsufficientFundsError inp.DestAccountID inp.DestAccountType))) ∧
    (∀ fault x y, (Transfer t fault srcAccountID inp).2 =
        .error (.AccountDoesNotExistError x y) →
      ∃ reasons r0 c0 r1, fault = some (.TransactionCanceledException reasons) ∧
        reasons.get? 0 = some r0 ∧ r0.Code = some c0 ∧
        c0 ≠ ConditionalCheckFailedException.ErrorCode ∧ reasons.get? 1 = some r1 ∧
        r1.Code = some ConditionalCheckFailedException.ErrorCode) := by
  refine ⟨?_, ?_, ?_, ?_, ?_⟩
  · intro amount ha hvs hvd hne hs hd
    exact Transfer_both_refused t srcAccountID inp amount ha hvs hvd hne hs hd
  · intro amount ha hv
    exact Transfer_invalid t srcAccountID inp amount ha hv
  · intro x y
    exact (Transfer_none_no_domain_error t srcAccountID inp x y).1
  · intro amount r1 rest ha
    rw [Transfer_reply t _ srcAccountID inp amount ha]
    simp [transferCanceled]
  · intro fault x y h
    cases fault with
    | none => exact absurd h (Transfer_none_no_domain_error t srcAccountID inp x y).2
    | some e =>
      cases ha : inp.Amount with
      | none => simp [Transfer, ha] at h
      | some a =>
        cases e with
        | TransactionCanceledException reasons =>
          rw [Transfer_reply t reasons srcAccountID inp a ha] at h
          obtain ⟨r0, c0, r1, h0, hc0, hne, h1, hc1⟩ :=
            transferCanceled_missing_inv _ reasons inp x y h
          exact ⟨reasons, r0, c0, r1, rfl, h0, hc0, hne, h1, hc1⟩
        | ConditionalCheckFailedException => simp [Transfer, ha, TransactWriteItems] at h
        | ValidationException m => simp [Transfer, ha, TransactWriteItems] at h
        | ResourceNotFoundException => simp [Transfer, ha, TransactWriteItems] at h
        | Other m => simp [Transfer, ha, TransactWriteItems] at h

/-- C22 on an empty table, where source and destination are both missing: the
cancelled transaction comes back; and on a reply that flags both reasons the
answer is `InsufficientFundsError`. -/
theorem transfer_tests_debit_first_witness :
    Transfer [] none "123" (toChecking 30) =
      ([], .error (.Store (.TransactionCanceledException
        [{ Code := some "ConditionalCheckFailed" },
         { Code := some "ConditionalCheckFailed" }]))) ∧
    Transfer [] (some bothFlagged) "123" (toChecking 30) =
      ([], .error (.InsufficientFundsError "456" "checking")) :=
  ⟨(transfer_tests_debit_first [] "123" (toChecking 30)).1 30 rfl (by decide) (by decide)
      (by decide) (Or.inl rfl) rfl,
   (transfer_tests_debit_first [] "123" (toChecking 30)).2.2.2.1 30 _ _ rfl⟩

/-- C23 on the store as it is: with no record under the source key and a
defined amount, `Transfer` fails, the table is as it was (no source record is
created, the destination keeps its balance), but the error is not
`InsufficientFundsError`: it is the store's error handed on, which for two keys
the store accepts and a destination other than the source is the cancelled
transaction with `ConditionalCheckFailed` as reason 0, and for a key the store
does not accept its `ValidationException`. -/
theorem transfer_from_missing_source (t : Table) (srcAccountID : String) (inp : TransferInput)
    (amount : Int) (hamount : inp.Amount = some amount)
    (hmissing : lookupItem t ⟨srcAccountID, inp.SrcAccountType⟩ = none) :
    (Transfer t none srcAccountID inp).1 = t ∧
    lookupItem (Transfer t none srcAccountID inp).1 ⟨srcAccountID, inp.SrcAccountType⟩ = none ∧
    (∀ b, hasBalance t ⟨inp.DestAccountID, inp.DestAccountType⟩ b →
      hasBalance (Transfer t none srcAccountID inp).1
        ⟨inp.DestAccountID, inp.DestAccountType⟩ b) ∧
    (∃ e, (Transfer t none srcAccountID inp).2 = .error (.Store e)) ∧
    (∀ x y, (Transfer t none srcAccountID inp).2 ≠ .error (.InsufficientFundsError x y)) ∧
    (validKey ⟨srcAccountID, inp.SrcAccountType⟩ →
      validKey ⟨inp.DestAccountID, inp.DestAccountType⟩ →
      (⟨srcAccountID, inp.SrcAccountType⟩ : AccountKey) ≠
        ⟨inp.DestAccountID, inp.DestAccountType⟩ →
      ∃ r1, (Transfer t none srcAccountID inp).2 =
        .error (.Store (.TransactionCanceledException
          [{ Code := some codeConditionalCheckFailed }, r1]))) ∧
    (¬ (validKey ⟨srcAccountID, inp.SrcAccountType⟩ ∧
        validKey ⟨inp.DestAccountID, inp.DestAccountType⟩) →
      (Transfer t none srcAccountID inp).2 =
        .error (.Store (.ValidationException "invalid key"))) := by
  have hnotok : (Transfer t none srcAccountID inp).2 ≠ .ok () := by
    intro hok
    obtain ⟨_, a, bs, bd, _, _, ⟨it, hit, _⟩, _, _⟩ := Transfer_ok_inv t none srcAccountID inp hok
    rw [hmissing] at hit
    exact Option.noConfusion hit
  have hsame := Transfer_unchanged t none srcAccountID inp hnotok
  refine ⟨hsame, by rw [hsame]; exact hmissing, by intro b hb; rw [hsame]; exact hb, ?_,
    fun x y => (Transfer_none_no_domain_error t srcAccountID inp x y).1, ?_,
    fun hv => by rw [Transfer_invalid t srcAccountID inp amount hamount hv]⟩
  · rcases Transfer_none_cases t srcAccountID inp amount hamount with h | ⟨e, h⟩
    · exact absurd h hnotok
    · exact ⟨e, by rw [h]⟩
  · intro hvs hvd hne
    have hes := evalUpdate_src t srcAccountID inp amount ⟨srcAccountID, inp.SrcAccountType⟩
    simp only [hmissing] at hes
    obtain ⟨c1, h1, hc1⟩ := reasonOf_evalUpdate_code t (destItemTransaction inp amount).Update
      ⟨inp.DestAccountID, inp.DestAccountType⟩
    rw [Transfer_spec t srcAccountID inp amount hamount hvs hvd]
    simp only [hne, if_false, hes, passed, Bool.false_and, Bool.false_eq_true]
    rw [h1]
    have hc : ¬ codeConditionalCheckFailed = ConditionalCheckFailedException.ErrorCode := by
      decide
    exact ⟨{ Code := some c1 }, by simp [transferCanceled, reasonOf, hc, hc1]⟩

/-- C23 on a table that holds the destination only, with 10: the transfer
fails with the cancelled transaction, not `InsufficientFundsError`, and the
table is unchanged. -/
theorem transfer_from_missing_source_witness :
    (Transfer destOnlyTable none "123" (toChecking 30)).1 = destOnlyTable ∧
    (Transfer destOnlyTable none "123" (toChecking 30)).2 =
      .error (.Store (.TransactionCanceledException
        [{ Code := some "ConditionalCheckFailed" }, { Code := some "None" }])) ∧
    (∀ x y, (Transfer destOnlyTable none "123" (toChecking 30)).2 ≠
      .error (.InsufficientFundsError x y)) :=
  ⟨(transfer_from_missing_source destOnlyTable "123" (toChecking 30) 30 rfl rfl).1,
   by decide,
   (transfer_from_missing_source destOnlyTable "123" (toChecking 30) 30 rfl rfl).2.2.2.2.1⟩


/-- C25: the mapping of a cancelled transaction is partial in its two lookups
and nowhere else.  When the first two reasons are there and have codes, the
mapping returns `InsufficientFundsError`, `AccountDoesNotExistError` or the
original error.  It ends in a run-time failure exactly when reason 0 is missing
or has no code, or reason 0 has a code other than the tested one and reason 1
is missing or has no code; replies with no reason, with one unflagged reason,
and with an undefined first code are such.  `Transfer` applies this mapping to
every cancelled transaction it receives. -/
theorem cancellation_lookup_steps (err : StoreError) (inp : TransferInput) :
    (∀ reasons, twoCodes reasons →
      transferCanceled err reasons inp =
          .error (.InsufficientFundsError inp.DestAccountID inp.DestAccountType) ∨
        transferCanceled err reasons inp =
          .error (.AccountDoesNotExistError inp.DestAccountID inp.DestAccountType) ∨
        transferCanceled err reasons inp = .error (.Store err)) ∧
    (∀ reasons, transferCanceled err reasons inp = .panicked ↔
      reasons.get? 0 = none ∨ (∃ r0, reasons.get? 0 = some r0 ∧ r0.Code = none) ∨
        ∃ r0 c0, reasons.get? 0 = some r0 ∧ r0.Code = some c0 ∧
          c0 ≠ ConditionalCheckFailedException.ErrorCode ∧
          (reasons.get? 1 = none ∨ ∃ r1, reasons.get? 1 = some r1 ∧ r1.Code = none)) ∧
    transferCanceled err [] inp = .panicked ∧
    transferCanceled err [{ Code := some codeNone }] inp = .panicked ∧
    transferCanceled err [{ Code := none }, { Code := some codeNone }] inp = .panicked ∧
    (∀ t srcAccountID reasons amount, inp.Amount = some amount →
      Transfer t (some (.TransactionCanceledException reasons)) srcAccountID inp =
        (t, transferCanceled (.TransactionCanceledException reasons) reasons inp)) := by
  have hnone : ¬ codeNone = ConditionalCheckFailedException.ErrorCode := by decide
  refine ⟨?_, ?_, rfl, by simp [transferCanceled, hnone], rfl, ?_⟩
  · intro reasons h2
    match reasons, h2 with
    | r0 :: r1 :: rest, h2 =>
      obtain ⟨c0, hc0⟩ := Option.isSome_iff_exists.mp h2.1
      obtain ⟨c1, hc1⟩ := Option.isSome_iff_exists.mp h2.2
      by_cases e0 : c0 = ConditionalCheckFailedException.ErrorCode
      · left; simp [transferCanceled, hc0, e0]
      · by_cases e1 : c1 = ConditionalCheckFailedException.ErrorCode
        · right; left; simp [transferCanceled, hc0, hc1, e0, e1]
        · right; right; simp [transferCanceled, hc0, hc1, e0, e1]
  · intro reasons
    unfold transferCanceled
    cases h0 : reasons.get? 0 with
    | none => simp
    | some r0 =>
      cases hc0 : r0.Code with
      | none => simp [hc0]
      | some c0 =>
        by_cases e0 : c0 = ConditionalCheckFailedException.ErrorCode
        · simp [hc0, e0]
        · cases h1 : reasons.get? 1 with
          | none => simp [hc0, e0]
          | some r1 =>
            cases hc1 : r1.Code with
            | none => simp [hc0, e0, hc1]
            | some c1 =>
              by_cases e1 : c1 = ConditionalCheckFailedException.ErrorCode
              · simp [hc0, e0, hc1, e1]
              · simp [hc0, e0, hc1, e1]
  · intro t src reasons amount ha
    exact Transfer_reply t reasons src inp amount ha

/-- C25 on three replies to the example transfer: two reasons with codes give
the original error, no reason and an undefined code end in a run-time
failure. -/
theorem cancellation_lookup_steps_witness :
    transferCanceled (.Other "reply")
        [{ Code := some "None" }, { Code := some "ValidationError" }] (toChecking 30) =
      .error (.Store (.Other "reply")) ∧
    (Transfer exampleTable (some (.TransactionCanceledException [])) "123"
      (toChecking 30)).2 = .panicked ∧
    (Transfer exampleTable (some (.TransactionCanceledException
      [{ Code := none }, { Code := some "None" }])) "123" (toChecking 30)).2 = .panicked :=
  ⟨((cancellation_lookup_steps (.Other "reply") (toChecking 30)).1
      [{ Code := some "None" }, { Code := some "ValidationError" }]
      ⟨rfl, rfl⟩).resolve_left (by decide) |>.resolve_left (by decide),
   by decide, by decide⟩

theorem decodeItems_ok_iff (items : List Item) (keys : List AccountKey) :
    decodeItems items = .ok keys ↔
      items.map NewAccountKeyFromItem = keys.map (fun k => Except.ok k) := by
  induction items generalizing keys with
  | nil =>
    cases keys with
    | nil => simp [decodeItems]
    | cons k ks => simp [decodeItems]
  | cons item rest ih =>
    simp only [decodeItems, List.map_cons]
    cases hk : NewAccountKeyFromItem item with
    | error e =>
      cases keys with
      | nil => simp
      | cons k ks => simp
    | ok k =>
      cases hr : decodeItems rest with
      | error e =>
        cases keys with
        | nil => simp
        | cons k1 ks =>
          have := (ih ks).not.mp (by rw [hr]; simp)
          simp [this]
      | ok ks0 =>
        have h0 := (ih ks0).mp hr
        cases keys with
        | nil => simp
        | cons k1 ks =>
          simp only [Except.ok.injEq, List.cons.injEq, List.map_cons]
          constructor
          · rintro ⟨rfl, rfl⟩
            exact ⟨rfl, h0⟩
          · rintro ⟨h1, h2⟩
            refine ⟨h1, ?_⟩
            have := (ih ks).mpr h2
            rw [hr] at this
            simpa using this


/-- C24: a listing result is the image of the store's page.  Whatever page a
`Query` or `Scan` returns without error, `ListAccounts` and `ListAccountsAdmin`
return what decoding that page gives: when every item decodes, `Accounts` is
the list of the decoded items, in order and of the same length, and
`LastEvaluatedKey` is the decoded continuation key, or the key of two empty
strings when the store returned none; a result never has other accounts.  The
request carries `ExclusiveStartKey` encoded and `Limit` as given, and leaves
them unset when they are absent. -/
theorem listing_is_image_of_page (output : PageOutput) :
    (∀ t fault accountID inp t1,
      Query t fault (listAccountsRequest accountID inp) = (t1, .ok output) →
      ListAccounts t fault accountID inp = (t1, decodePage output)) ∧
    (∀ t fault inp t1,
      Scan t fault (listAccountsAdminRequest inp) = (t1, .ok output) →
      ListAccountsAdmin t fault inp = (t1, decodePage output)) ∧
    (∀ accounts : List AccountKey,
      output.Items.map NewAccountKeyFromItem = accounts.map (fun k => Except.ok k) →
      (output.LastEvaluatedKey.length = 0 →
        decodePage output =
          .ok { Accounts := accounts, LastEvaluatedKey := { AccountID := "", AccountType := "" } }) ∧
      (∀ k, output.LastEvaluatedKey.length ≠ 0 →
        NewAccountKeyFromItem output.LastEvaluatedKey = .ok k →
        decodePage output = .ok { Accounts := accounts, LastEvaluatedKey := k })) ∧
    (∀ out, decodePage output = .ok out →
      output.Items.map NewAccountKeyFromItem = out.Accounts.map (fun k => Except.ok k) ∧
      out.Accounts.length = output.Items.length ∧
      (output.LastEvaluatedKey.length = 0 →
        out.LastEvaluatedKey = { AccountID := "", AccountType := "" }) ∧
      (output.LastEvaluatedKey.length ≠ 0 →
        NewAccountKeyFromItem output.LastEvaluatedKey = .ok out.LastEvaluatedKey)) ∧
    (∀ accountID inp,
      (listAccountsRequest accountID inp).Limit = inp.Limit ∧
      (listAccountsAdminRequest inp).Limit = inp.Limit ∧
      (inp.ExclusiveStartKey = none →
        (listAccountsRequest accountID inp).ExclusiveStartKey = [] ∧
        (listAccountsAdminRequest inp).ExclusiveStartKey = []) ∧
      (∀ k, inp.ExclusiveStartKey = some k →
        (listAccountsRequest accountID inp).ExclusiveStartKey = k.toAccountItem ∧
        (listAccountsAdminRequest inp).ExclusiveStartKey = k.toAccountItem)) := by
  refine ⟨?_, ?_, ?_, ?_, ?_⟩
  · intro t fault accountID inp t1 h
    rw [ListAccounts_request, h]
  · intro t fault inp t1 h
    rw [ListAccountsAdmin_request, h]
  · intro accounts hitems
    have hd := (decodeItems_ok_iff output.Items accounts).mpr hitems
    constructor
    · intro hlen
      simp [decodePage, hd, hlen]
    · intro k hlen hk
      simp [decodePage, hd, hlen, hk]
  · intro out h
    unfold decodePage at h
    cases hd : decodeItems output.Items with
    | error e => simp [hd] at h
    | ok accounts =>
      have hitems := (decodeItems_ok_iff output.Items accounts).mp hd
      have hlen : accounts.length = output.Items.length := by
        have := congrArg List.length hitems
        simpa using this.symm
      simp only [hd] at h
      by_cases hl : output.LastEvaluatedKey.length = 0
      · simp only [hl, ne_eq, not_true_eq_false, if_false, Outcome.ok.injEq] at h
        subst h
        exact ⟨hitems, hlen, fun _ => rfl, fun hne => absurd hl hne⟩
      · simp only [hl, ne_eq, not_false_eq_true, if_true] at h
        cases hk : NewAccountKeyFromItem output.LastEvaluatedKey with
        | error e => simp [hk] at h
        | ok k =>
          simp only [hk, Outcome.ok.injEq] at h
          subst h
          exact ⟨hitems, hlen, fun h0 => absurd h0 hl, fun _ => rfl⟩
  · intro accountID inp
    refine ⟨rfl, rfl, ?_, ?_⟩
    · intro h
      simp [listAccountsRequest, listAccountsAdminRequest, h, exclusiveStartKey]
    · intro k h
      simp [listAccountsRequest, listAccountsAdminRequest, h, exclusiveStartKey]

/-- C24 on a page of two items with a continuation key: the listing returns
the two decoded keys in order and the decoded continuation key. -/
theorem listing_is_image_of_page_witness :
    decodePage
        { Items := [[(accountIDAttr, .S "123"), (accountTypeAttr, .S "checking")],
                    [(accountIDAttr, .S "123"), (accountTypeAttr, .S "savings")]]
          LastEvaluatedKey := [(accountIDAttr, .S "123"), (accountTypeAttr, .S "savings")] } =
      .ok { Accounts := [⟨"123", "checking"⟩, ⟨"123", "savings"⟩]
            LastEvaluatedKey := ⟨"123", "savings"⟩ } :=
  ((listing_is_image_of_page
      { Items := [[(accountIDAttr, .S "123"), (accountTypeAttr, .S "checking")],
                  [(accountIDAttr, .S "123"), (accountTypeAttr, .S "savings")]]
        LastEvaluatedKey := [(accountIDAttr, .S "123"), (accountTypeAttr, .S "savings")] }).2.2.1
    [⟨"123", "checking"⟩, ⟨"123", "savings"⟩] (by decide)).2 ⟨"123", "savings"⟩ (by decide)
    (by decide)

theorem GetItem_table (t : Table) (fault : Option StoreError) (input : GetItemInput) :
    (GetItem t fault input).1 = t := by
  unfold GetItem
  repeat' split
  all_goals rfl

theorem Query_table (t : Table) (fault : Option StoreError) (input : QueryInput) :
    (Query t fault input).1 = t := by
  unfold Query
  repeat' split
  all_goals rfl

theorem Scan_table (t : Table) (fault : Option StoreError) (input : ScanInput) :
    (Scan t fault input).1 = t := by
  unfold Scan
  repeat' split
  all_goals rfl

theorem GetBalance_table (t : Table) (fault : Option StoreError) (id : String)
    (inp : GetBalanceInput) : (GetBalance t fault id inp).1 = t := by
  obtain ⟨ty⟩ := inp
  rw [GetBalance_request]
  have h := GetItem_table t fault (getBalanceRequest id ty)
  rcases hr : GetItem t fault (getBalanceRequest id ty) with ⟨t1, r⟩
  rw [hr] at h
  simp only at h
  subst h
  cases r with
  | error e => rfl
  | ok out =>
    simp only
    split
    · rfl
    · split
      · split <;> rfl
      · rfl

theorem ListAccounts_table (t : Table) (fault : Option StoreError) (id : String)
    (inp : ListAccountsInput) : (ListAccounts t fault id inp).1 = t := by
  rw [ListAccounts_request]
  have h := Query_table t fault (listAccountsRequest id inp)
  rcases hr : Query t fault (listAccountsRequest id inp) with ⟨t1, r⟩
  rw [hr] at h
  simp only at h
  subst h
  cases r <;> rfl

theorem ListAccountsAdmin_table (t : Table) (fault : Option StoreError)
    (inp : ListAccountsInput) : (ListAccountsAdmin t fault inp).1 = t := by
  rw [ListAccountsAdmin_request]
  have h := Scan_table t fault (listAccountsAdminRequest inp)
  rcases hr : Scan t fault (listAccountsAdminRequest inp) with ⟨t1, r⟩
  rw [hr] at h
  simp only at h
  subst h
  cases r <;> rfl

theorem CreateAccount_frame (t : Table) (fault : Option StoreError) (id : String)
    (inp : CreateAccountInput) (k : AccountKey) (hk : k ≠ ⟨id, inp.AccountType⟩) :
    lookupItem (CreateAccount t fault id inp).1 k = lookupItem t k := by
  cases fault with
  | some e => rw [CreateAccount_fault]
  | none =>
    obtain ⟨ty, bal⟩ := inp
    cases bal with
    | none => rfl
    | some n =>
      by_cases hv : validKey ⟨id, ty⟩
      · rw [CreateAccount_spec t id ty n hv]
        cases lookupItem t ⟨id, ty⟩ with
        | some it => rfl
        | none => exact lookupItem_putItem_other t _ k hk
      · rw [CreateAccount_invalid t id ty n hv]

theorem DeleteAccount_frame (t : Table) (fault : Option StoreError) (id : String)
    (inp : DeleteAccountInput) (k : AccountKey) (hk : k ≠ ⟨id, inp.AccountType⟩) :
    lookupItem (DeleteAccount t fault id inp).1 k = lookupItem t k := by
  cases fault with
  | some e => rw [DeleteAccount_fault]
  | none =>
    obtain ⟨ty⟩ := inp
    by_cases hv : validKey ⟨id, ty⟩
    swap
    · rw [DeleteAccount_invalid t id ty hv]
    rw [DeleteAccount_spec t id ty hv]
    cases lookupItem t ⟨id, ty⟩ with
    | none => exact lookupItem_removeItem_other t _ k hk
    | some it =>
      by_cases hb : it.get balanceAttr = some (.N 0)
      · simp only [hb, if_true]
        exact lookupItem_removeItem_other t _ k hk
      · simp only [hb, if_false]

theorem Transfer_frame (t : Table) (fault : Option StoreError) (src : String)
    (inp : TransferInput) (k : AccountKey) (hs : k ≠ ⟨src, inp.SrcAccountType⟩)
    (hd : k ≠ ⟨inp.DestAccountID, inp.DestAccountType⟩) :
    lookupItem (Transfer t fault src inp).1 k = lookupItem t k := by
  by_cases hok : (Transfer t fault src inp).2 = .ok ()
  · obtain ⟨hf, a, bs, bd, ha, hne, ⟨its, hits, hbs⟩, ⟨itd, hitd, hbd⟩, hle⟩ :=
      Transfer_ok_inv t fault src inp hok
    subst hf
    rw [Transfer_success_table t src inp a bs bd its itd ha hits hbs hitd hbd hne hle]
    have hks := lookupItem_key hits
    have hkd := lookupItem_key hitd
    simp only
    rw [lookupItem_putItem_other _ _ k (by simpa [hkd] using hd),
      lookupItem_putItem_other _ _ k (by simpa [hks] using hs)]
  · rw [Transfer_unchanged t fault src inp hok]

/-- C26: each operation touches only the records it names.  Whatever the table,
the reply of the store and the input: after `CreateAccount` and `DeleteAccount`
the record under every key other than `(accountID, AccountType)` is what it
was; after `Transfer` the record under every key other than the source and the
destination is what it was; and `GetBalance`, `ListAccounts` and
`ListAccountsAdmin` return the table they were given. -/
theorem operations_touch_only_named_records (t : Table) (fault : Option StoreError) :
    (∀ accountID (inp : CreateAccountInput) k, k ≠ ⟨accountID, inp.AccountType⟩ →
      lookupItem (CreateAccount t fault accountID inp).1 k = lookupItem t k) ∧
    (∀ accountID (inp : DeleteAccountInput) k, k ≠ ⟨accountID, inp.AccountType⟩ →
      lookupItem (DeleteAccount t fault accountID inp).1 k = lookupItem t k) ∧
    (∀ srcAccountID (inp : TransferInput) k, k ≠ ⟨srcAccountID, inp.SrcAccountType⟩ →
      k ≠ ⟨inp.DestAccountID, inp.DestAccountType⟩ →
      lookupItem (Transfer t fault srcAccountID inp).1 k = lookupItem t k) ∧
    (∀ accountID inp, (GetBalance t fault accountID inp).1 = t) ∧
    (∀ accountID inp, (ListAccounts t fault accountID inp).1 = t) ∧
    (∀ inp, (ListAccountsAdmin t fault inp).1 = t) :=
  ⟨fun id inp k hk => CreateAccount_frame t fault id inp k hk,
   fun id inp k hk => DeleteAccount_frame t fault id inp k hk,
   fun src inp k hs hd => Transfer_frame t fault src inp k hs hd,
   fun id inp => GetBalance_table t fault id inp,
   fun id inp => ListAccounts_table t fault id inp,
   fun inp => ListAccountsAdmin_table t fault inp⟩

/-- C26 on four accounts: the example transfer between two of them leaves the
savings account of owner 456 as it was, and a balance inquiry returns the
table. -/
theorem operations_touch_only_named_records_witness :
    lookupItem (Transfer mixedTable none "123" (toChecking 30)).1 ⟨"456", "savings"⟩ =
      lookupItem mixedTable ⟨"456", "savings"⟩ ∧
    (GetBalance mixedTable none "123" { AccountType := "savings" }).1 = mixedTable :=
  ⟨(operations_touch_only_named_records mixedTable none).2.2.1 "123" (toChecking 30)
      ⟨"456", "savings"⟩ (by decide) (by decide),
   (operations_touch_only_named_records mixedTable none).2.2.2.1 "123" _⟩


theorem validate_nil_iff (input : CreateAccountInput) :
    validateCreateAccountInput input = [] ↔
      input.AccountType ≠ "" ∧ ∃ n, input.InitialBalance = some n ∧ 0 ≤ n := by
  obtain ⟨ty, bal⟩ := input
  unfold validateCreateAccountInput
  by_cases hty : ty = ""
  · simp [hty]
  · cases bal with
    | none => simp [hty]
    | some n =>
      by_cases hn : n < 0
      · simp [hty, hn]
      · simp [hty, hn]
        omega

theorem CreateAccount_defined (t : Table) (fault : Option StoreError) (id ty : String)
    (n : Int) :
    (CreateAccount t fault id { AccountType := ty, InitialBalance := some n }).2 ≠
      .panicked := by
  rw [CreateAccount_request]
  rcases PutItem t fault (createAccountRequest id ty n) with ⟨t1, r⟩
  cases r with
  | ok u => simp
  | error e => cases e <;> simp

theorem handler_unmarshal_error (env : HandlerEnv) (request : LambdaFunctionURLRequest)
    (authorizer : LambdaFunctionURLRequestContextAuthorizerDescription)
    (iam : LambdaFunctionURLRequestContextAuthorizerIAMDescription)
    (hauth : request.RequestContext.Authorizer = some authorizer)
    (hiam : authorizer.IAM = some iam)
    (e : String) (hu : env.unmarshal request.Body = .error e) :
    CreateAccountHandler.handler env request =
      { result := .ok { StatusCode := 400, Body := "Error parsing the provided request" }
        calls := [] } := by
  simp only [CreateAccountHandler.handler, hauth, hiam, hu]

theorem handler_invalid (env : HandlerEnv) (request : LambdaFunctionURLRequest)
    (authorizer : LambdaFunctionURLRequestContextAuthorizerDescription)
    (iam : LambdaFunctionURLRequestContextAuthorizerIAMDescription)
    (hauth : request.RequestContext.Authorizer = some authorizer)
    (hiam : authorizer.IAM = some iam)
    (input : CreateAccountInput) (e : FieldError) (es : List FieldError)
    (hu : env.unmarshal request.Body = .ok input)
    (hv : validateCreateAccountInput input = e :: es) :
    CreateAccountHandler.handler env request =
      { result := .ok { StatusCode := 400
                        Body := "Invalid request: " ++ env.translate (e :: es) }
        calls := [] } := by
  simp only [CreateAccountHandler.handler, hauth, hiam, hu, hv,
    CreateAccountHandler.processError]

theorem handler_valid (env : HandlerEnv) (request : LambdaFunctionURLRequest)
    (authorizer : LambdaFunctionURLRequestContextAuthorizerDescription)
    (iam : LambdaFunctionURLRequestContextAuthorizerIAMDescription)
    (hauth : request.RequestContext.Authorizer = some authorizer)
    (hiam : authorizer.IAM = some iam)
    (input : CreateAccountInput)
    (hu : env.unmarshal request.Body = .ok input)
    (hv : validateCreateAccountInput input = []) :
    CreateAccountHandler.handler env request =
      match env.createAccount iam.AccountID input with
      | .error err =>
        { result := .ok (CreateAccountHandler.processError (.manager err))
          calls := [(iam.AccountID, input)] }
      | .panicked => { result := .panicked, calls := [(iam.AccountID, input)] }
      | .ok _ =>
        { result := .ok { StatusCode := 200, Body := "" }
          calls := [(iam.AccountID, input)] } := by
  simp only [CreateAccountHandler.handler, hauth, hiam, hu, hv]

theorem handler_no_caller (env : HandlerEnv) (request : LambdaFunctionURLRequest)
    (h : request.RequestContext.Authorizer = none ∨
      ∃ authorizer, request.RequestContext.Authorizer = some authorizer ∧
        authorizer.IAM = none) :
    CreateAccountHandler.handler env request = { result := .panicked, calls := [] } := by
  rcases h with h | ⟨authorizer, hauth, hiam⟩
  · simp only [CreateAccountHandler.handler, h]
  · simp only [CreateAccountHandler.handler, hauth, hiam]

theorem caller_cases (request : LambdaFunctionURLRequest) :
    (request.RequestContext.Authorizer = none ∨
      ∃ authorizer, request.RequestContext.Authorizer = some authorizer ∧
        authorizer.IAM = none) ∨
    ∃ authorizer iam, request.RequestContext.Authorizer = some authorizer ∧
      authorizer.IAM = some iam := by
  cases hauth : request.RequestContext.Authorizer with
  | none => exact Or.inl (Or.inl rfl)
  | some authorizer =>
    cases hiam : authorizer.IAM with
    | none => exact Or.inl (Or.inr ⟨authorizer, rfl, hiam⟩)
    | some iam => exact Or.inr ⟨authorizer, iam, rfl, hiam⟩

/-- C21, as stated, fails for a request without an IAM authorizer.  The body
does not decode, yet the handler does not return status 400: its first
statement dereferences `request.RequestContext.Authorizer.IAM`, and with
`Authorizer` nil, or with `IAM` nil, the run ends there in a run-time failure.
No call to `CreateAccount` is made. -/
theorem handler_without_authorizer_counterexample :
    sampleUnmarshal "\x7dinvalidJSON\x7b" = .error "invalid character" ∧
    (CreateAccountHandler.handler
        (tableEnv sampleUnmarshal (fun _ => "invalid") exampleTable none)
        { RequestContext := { Authorizer := none }, Body := "\x7dinvalidJSON\x7b" }).result =
      .panicked ∧
    (¬ ∃ body, (CreateAccountHandler.handler
        (tableEnv sampleUnmarshal (fun _ => "invalid") exampleTable none)
        { RequestContext := { Authorizer := none }, Body := "\x7dinvalidJSON\x7b" }).result =
      .ok { StatusCode := 400, Body := body }) ∧
    (CreateAccountHandler.handler
        (tableEnv sampleUnmarshal (fun _ => "invalid") exampleTable none)
        { RequestContext := { Authorizer := some { IAM := none } }
          Body := "\x7dinvalidJSON\x7b" }).result = .panicked ∧
    (CreateAccountHandler.handler
        (tableEnv sampleUnmarshal (fun _ => "invalid") exampleTable none)
        { RequestContext := { Authorizer := none }, Body := "\x7dinvalidJSON\x7b" }).calls =
      [] := by
  refine ⟨by simp [sampleUnmarshal], rfl, ?_, rfl, rfl⟩
  rintro ⟨body, h⟩
  exact Outcome.noConfusion h

/-- C21, amended: input errors never reach the store.  Whatever the decoder,
the translator and the account manager: on a request that carries an IAM
authorizer, when the body does not decode, or the decoded `AccountType` is
empty, or `InitialBalance` is nil or negative, the create-account handler
returns status 400 with a nil error and makes no call to `CreateAccount`; on
every request, each call it does make is for the account of the authorizer and
has a non-empty `AccountType` and a defined `InitialBalance >= 0`; a request
without `Authorizer` or without `IAM` ends in a run-time failure before any
call; and with the account manager of this file a request that carries the
authorizer never fails at run time. -/
theorem input_errors_never_reach_store (env : HandlerEnv) (request : LambdaFunctionURLRequest) :
    (∀ authorizer iam, request.RequestContext.Authorizer = some authorizer →
      authorizer.IAM = some iam →
      (∀ input, env.unmarshal request.Body = .ok input →
        input.AccountType = "" ∨ input.InitialBalance = none ∨
          ∃ n, input.InitialBalance = some n ∧ n < 0) →
      (∃ body, (CreateAccountHandler.handler env request).result =
        .ok { StatusCode := 400, Body := body }) ∧
      (CreateAccountHandler.handler env request).calls = []) ∧
    (∀ call ∈ (CreateAccountHandler.handler env request).calls,
      (∃ authorizer iam, request.RequestContext.Authorizer = some authorizer ∧
        authorizer.IAM = some iam ∧ call.1 = iam.AccountID) ∧
      env.unmarshal request.Body = .ok call.2 ∧
      call.2.AccountType ≠ "" ∧ ∃ n, call.2.InitialBalance = some n ∧ 0 ≤ n) ∧
    ((request.RequestContext.Authorizer = none ∨
        ∃ authorizer, request.RequestContext.Authorizer = some authorizer ∧
          authorizer.IAM = none) →
      (CreateAccountHandler.handler env request).result = .panicked ∧
      (CreateAccountHandler.handler env request).calls = []) ∧
    (∀ t fault authorizer iam, env.createAccount =
        (fun accountID input => (CreateAccount t fault accountID input).2) →
      request.RequestContext.Authorizer = some authorizer → authorizer.IAM = some iam →
      (CreateAccountHandler.handler env request).result ≠ .panicked) := by
  refine ⟨?_, ?_, ?_, ?_⟩
  · intro authorizer iam hauth hiam hbad
    cases hu : env.unmarshal request.Body with
    | error e =>
      rw [handler_unmarshal_error env request authorizer iam hauth hiam e hu]
      exact ⟨⟨_, rfl⟩, rfl⟩
    | ok input =>
      have hinvalid : validateCreateAccountInput input ≠ [] := by
        intro hnil
        obtain ⟨hty, n, hn, h0⟩ := (validate_nil_iff input).mp hnil
        rcases hbad input hu with h | h | ⟨m, hm, hlt⟩
        · exact hty h
        · rw [hn] at h; exact Option.noConfusion h
        · rw [hn] at hm
          simp only [Option.some.injEq] at hm
          omega
      cases hv : validateCreateAccountInput input with
      | nil => exact absurd hv hinvalid
      | cons e es =>
        rw [handler_invalid env request authorizer iam hauth hiam input e es hu hv]
        exact ⟨⟨_, rfl⟩, rfl⟩
  · intro call hcall
    rcases caller_cases request with hno | ⟨authorizer, iam, hauth, hiam⟩
    · rw [handler_no_caller env request hno] at hcall
      simp at hcall
    cases hu : env.unmarshal request.Body with
    | error e =>
      rw [handler_unmarshal_error env request authorizer iam hauth hiam e hu] at hcall
      simp at hcall
    | ok input =>
      cases hv : validateCreateAccountInput input with
      | cons e es =>
        rw [handler_invalid env request authorizer iam hauth hiam input e es hu hv] at hcall
        simp at hcall
      | nil =>
        rw [handler_valid env request authorizer iam hauth hiam input hu hv] at hcall
        have hcall2 : call = (iam.AccountID, input) := by
          cases hc : env.createAccount iam.AccountID input <;>
            simpa [hc] using hcall
        obtain ⟨hty, n, hn, h0⟩ := (validate_nil_iff input).mp hv
        rw [hcall2]
        exact ⟨⟨authorizer, iam, hauth, hiam, rfl⟩, rfl, hty, n, hn, h0⟩
  · intro hno
    rw [handler_no_caller env request hno]
    exact ⟨rfl, rfl⟩
  · intro t fault authorizer iam henv hauth hiam
    cases hu : env.unmarshal request.Body with
    | error e =>
      rw [handler_unmarshal_error env request authorizer iam hauth hiam e hu]
      simp
    | ok input =>
      cases hv : validateCreateAccountInput input with
      | cons e es =>
        rw [handler_invalid env request authorizer iam hauth hiam input e es hu hv]
        simp
      | nil =>
        rw [handler_valid env request authorizer iam hauth hiam input hu hv]
        obtain ⟨hty, n, hn, h0⟩ := (validate_nil_iff input).mp hv
        obtain ⟨ty, bal⟩ := input
        simp only at hn
        subst hn
        have hdef := CreateAccount_defined t fault iam.AccountID ty n
        rw [henv]
        simp only
        cases hc : (CreateAccount t fault iam.AccountID
            { AccountType := ty, InitialBalance := some n }).2 with
        | ok u => simp
        | error e => simp
        | panicked => exact absurd hc hdef

/-- C21 on three bodies against the example table, each in a request
authorized for account 123 as the handler tests build it: a body that does not
parse, one with a negative balance and one without a balance each get 400 and
make no call. -/
theorem input_errors_never_reach_store_witness :
    (∃ body, (CreateAccountHandler.handler
        (tableEnv sampleUnmarshal (fun _ => "invalid") exampleTable none)
        (getRequest "123" "\x7dinvalidJSON\x7b")).result =
      .ok { StatusCode := 400, Body := body }) ∧
    (CreateAccountHandler.handler
        (tableEnv sampleUnmarshal (fun _ => "invalid") exampleTable none)
        (getRequest "123" "\x7dinvalidJSON\x7b")).calls = [] ∧
    (CreateAccountHandler.handler
        (tableEnv sampleUnmarshal (fun _ => "invalid") exampleTable none)
        (getRequest "123"
          "\x7b\"accountType\":\"savings\",\"initialBalance\":-1\x7d")).calls = [] ∧
    (CreateAccountHandler.handler
        (tableEnv sampleUnmarshal (fun _ => "invalid") exampleTable none)
        (getRequest "123" "\x7b\"accountType\":\"savings\"\x7d")).calls = [] :=
  ⟨((input_errors_never_reach_store
      (tableEnv sampleUnmarshal (fun _ => "invalid") exampleTable none)
      (getRequest "123" "\x7dinvalidJSON\x7b")).1 _ _ rfl rfl
      (by intro input h; simp [tableEnv, sampleUnmarshal, getRequest] at h)).1,
   ((input_errors_never_reach_store
      (tableEnv sampleUnmarshal (fun _ => "invalid") exampleTable none)
      (getRequest "123" "\x7dinvalidJSON\x7b")).1 _ _ rfl rfl
      (by intro input h; simp [tableEnv, sampleUnmarshal, getRequest] at h)).2,
   ((input_errors_never_reach_store
      (tableEnv sampleUnmarshal (fun _ => "invalid") exampleTable none)
      (getRequest "123"
        "\x7b\"accountType\":\"savings\",\"initialBalance\":-1\x7d")).1 _ _ rfl rfl
      (by
        intro input h
        simp [tableEnv, sampleUnmarshal, getRequest] at h
        subst h
        exact Or.inr (Or.inr ⟨-1, rfl, by decide⟩))).2,
   ((input_errors_never_reach_store
      (tableEnv sampleUnmarshal (fun _ => "invalid") exampleTable none)
      (getRequest "123" "\x7b\"accountType\":\"savings\"\x7d")).1 _ _ rfl rfl
      (by
        intro input h
        simp [tableEnv, sampleUnmarshal, getRequest] at h
        subst h
        exact Or.inr (Or.inl rfl))).2⟩

end Banking
